import Mathlib

/-!
# MayaGaussianSplatting: PLY reader, splat dataset and draw-override resource state

A shallow embedding of `PLYReader.cpp`, `GaussianData.h` and
`GaussianDrawOverride.cpp`, followed by the theorems that settle the
specification's properties against it.

Conventions of the embedding.

* `float` is a type parameter `F` carrying the field operations the program
  uses (`[LinearOrderedField F]`).  The three library operations on floats
  that are not repository code (`std::exp`, the reinterpretation of four
  bytes as a float done by `memcpy`, and the numeric extraction of
  `operator>>`) are the fields of `FloatLib F`.
* A file, a line and a `std::string` are lists of `Char`, one per byte.
* `std::istream` state is the unread suffix of the input; an `int` is an
  `Int` clamped to 32 bits where the library clamps it.
* The allocation whose size the file's header sets, that of the records in
  `PLYReader::read`, is an input of `readOrThrow`; `read` is the run in which
  it succeeds.
-/

set_option autoImplicit false

namespace GaussianSplatting

/-! ## GaussianData.h -/

/-- Raw per-splat data as parsed from PLY (`struct GaussianSplat`). -/
structure GaussianSplat (F : Type) where
  /-- Field `float position[3]`: x, y, z. -/
  position : Fin 3 → F
  /-- Field `float f_dc[3]`: SH degree-0 colour coefficients. -/
  f_dc : Fin 3 → F
  /-- Field `float opacity`: raw logit opacity. -/
  opacity : F
  /-- Field `float scale[3]`. -/
  scale : Fin 3 → F
  /-- Field `float rotation[4]`. -/
  rotation : Fin 4 → F

/-- CPU-side container plus flattened GPU-ready arrays (`struct GaussianData`). -/
structure GaussianData (F : Type) where
  /-- Field `std::vector<GaussianSplat> splats`. -/
  splats : List (GaussianSplat F)
  /-- Field `std::vector<float> positions`, `[x0,y0,z0, x1,y1,z1, ...]`. -/
  positions : List F
  /-- Field `std::vector<float> colors`, `[r0,g0,b0,a0, r1,g1,b1,a1, ...]`. -/
  colors : List F

/-- Library operations on `float` that the program calls and the repository
does not define. -/
structure FloatLib (F : Type) where
  /-- The function `std::exp` on `float`. -/
  exp : F → F
  /-- The float whose object representation is the given 32-bit pattern
  (what `memcpy(&v, p, 4)` stores in `v` for the little-endian word at `p`). -/
  ofBits : Nat → F
  /-- Stages 2 and 3 of `num_get::get` for `float`, run on the unread
  characters of a stream whose first character is not white space: the value
  stored in the target, whether the conversion succeeded, and the characters
  left unread. -/
  numGet : List Char → F × Bool × List Char

section Model

variable {F : Type} [LinearOrderedField F]

/-- Method `GaussianData::count`. -/
def GaussianData.count (d : GaussianData F) : Nat := d.splats.length

/-- Method `GaussianData::empty`. -/
def GaussianData.empty (d : GaussianData F) : Bool := d.splats.isEmpty

/-- A value-initialised `GaussianSplat` (what `resize` appends). -/
def GaussianSplat.zero : GaussianSplat F :=
  { position := fun _ => 0, f_dc := fun _ => 0, opacity := 0,
    scale := fun _ => 0, rotation := fun _ => 0 }

/-- A default-constructed `GaussianData`: three empty vectors. -/
def GaussianData.init : GaussianData F :=
  { splats := [], positions := [], colors := [] }

/-! ## PLYReader.cpp: colour helpers -/

/-- Constant `kSH_C0 = 0.28209479177387814f`, i.e. 1 / (2*sqrt(pi)) rounded to
binary32: the float `0x3e906ebb = 9465531 / 2^25`. -/
def kSH_C0 : F := 9465531 / 33554432

/-- Function `shToLinear`, with the constant `kSH_C0` it multiplies by taken
as the argument `K0`. -/
def shToLinear (K0 : F) (sh : F) : F :=
  let v := 1 / 2 + K0 * sh
  if v < 0 then 0 else (if v > 1 then 1 else v)

/-- Function `sigmoid`, over the library's `exp`. -/
def sigmoid (exp : F → F) (x : F) : F :=
  1 / (1 + exp (-x))

/-- One iteration of the loop of `buildGPUArrays`: three `push_back`s on
`positions`, four on `colors`. -/
def pushSplat (L : FloatLib F) (acc : List F × List F) (s : GaussianSplat F) :
    List F × List F :=
  (acc.1 ++ [s.position 0, s.position 1, s.position 2],
   acc.2 ++ [shToLinear kSH_C0 (s.f_dc 0), shToLinear kSH_C0 (s.f_dc 1),
             shToLinear kSH_C0 (s.f_dc 2), sigmoid L.exp s.opacity])

/-- Method `GaussianData::buildGPUArrays`: clear both arrays, then append per
splat in order. -/
def GaussianData.buildGPUArrays (L : FloatLib F) (d : GaussianData F) : GaussianData F :=
  let r := d.splats.foldl (pushSplat L) ([], [])
  { splats := d.splats, positions := r.1, colors := r.2 }

/-- Method `GaussianData::clear`. -/
def GaussianData.clear (_d : GaussianData F) : GaussianData F :=
  { splats := [], positions := [], colors := [] }

/-! ## Stream primitives (C++ standard library, modelled on the unread input) -/

/-- Predicate `std::isspace` in the "C" locale: space, `\t`, `\n`, `\v`, `\f`, `\r`. -/
def isSpace (c : Char) : Bool :=
  c = ' ' || c = '\t' || c = '\n' || c = '\x0b' || c = '\x0c' || c = '\r'

/-- Call `std::getline(file, line)` on the unread input `s`: `none` when no
character can be extracted (the stream fails), else the characters before the
first `\n` and the input after that `\n`. -/
def getline (s : List Char) : Option (List Char × List Char) :=
  match s with
  | [] => none
  | _ :: _ => some (s.takeWhile (fun c => c != '\n'), (s.dropWhile (fun c => c != '\n')).drop 1)

/-- Statement `if (!line.empty() && line.back() == '\r') line.pop_back();`. -/
def stripCR (line : List Char) : List Char :=
  if line.getLast? = some '\r' then line.dropLast else line

/-- Extraction `ss >> tok` into an empty `std::string`: skip white space, take
the characters up to the next white space.  Returns the word (empty when the
extraction fails) and the unread rest. -/
def extractWord (s : List Char) : List Char × List Char :=
  let s1 := s.dropWhile isSpace
  (s1.takeWhile (fun c => !isSpace c), s1.dropWhile (fun c => !isSpace c))

/-- Largest value of a 32-bit `int`. -/
def INT_MAX : Int := 2147483647

/-- Smallest value of a 32-bit `int`. -/
def INT_MIN : Int := -2147483648

/-- Value of a string of decimal digits. -/
def digitsValue (ds : List Char) : Nat :=
  ds.foldl (fun acc c => 10 * acc + (c.toNat - 48)) 0

/-- Extraction `ss >> n` into an `int` holding `cur`: white space is skipped;
at end of input nothing is stored; otherwise an optional sign and the decimal
digits that follow are read, zero is stored when there is no digit, and a
value outside the `int` range is stored as the nearest bound. -/
def extractInt (cur : Int) (s : List Char) : Int :=
  match s.dropWhile isSpace with
  | [] => cur
  | c :: cs =>
    let body := if c = '-' ∨ c = '+' then cs else c :: cs
    let ds := body.takeWhile Char.isDigit
    if ds = [] then 0
    else if c = '-' then max INT_MIN (-(digitsValue ds : Int))
    else min INT_MAX (digitsValue ds : Int)

/-- Test `line.find(pat) != std::string::npos`. -/
def containsSub (pat : List Char) : List Char → Bool
  | [] => pat.isEmpty
  | c :: cs => pat.isPrefixOf (c :: cs) || containsSub pat cs

/-! ## PLYReader.cpp: header -/

/-- Enumeration `PLYFormat`. -/
inductive PLYFormat where
  | ASCII
  | BinaryLE
  | Unknown
  deriving DecidableEq

/-- Structure `PropDef`. -/
structure PropDef where
  /-- Field `std::string name`. -/
  name : List Char
  /-- Field `int byteSize = 4`. -/
  byteSize : Nat
  /-- Field `bool isFloat = false`. -/
  isFloat : Bool
  deriving DecidableEq

instance : Inhabited PropDef := ⟨{ name := [], byteSize := 4, isFloat := false }⟩

/-- The local variables of `PLYReader::read` that the header loop updates. -/
structure HeaderState where
  /-- Local `PLYFormat format`. -/
  format : PLYFormat
  /-- Local `int vertexCount`. -/
  vertexCount : Int
  /-- Local `std::vector<PropDef> props`. -/
  props : List PropDef
  /-- Local `bool inVertexElem`. -/
  inVertexElem : Bool
  deriving DecidableEq

/-- The values of the header locals before the loop. -/
def HeaderState.init : HeaderState :=
  { format := PLYFormat.Unknown, vertexCount := 0, props := [], inVertexElem := false }

/-- The `PropDef` built from `property <typeName> <name>` (the chain of
comparisons on `typeName`). -/
def mkProp (typeName name : List Char) : PropDef :=
  if typeName = "float".toList ∨ typeName = "float32".toList then
    { name := name, byteSize := 4, isFloat := true }
  else if typeName = "double".toList ∨ typeName = "float64".toList then
    { name := name, byteSize := 8, isFloat := false }
  else if typeName = "uchar".toList ∨ typeName = "uint8".toList then
    { name := name, byteSize := 1, isFloat := false }
  else if typeName = "int".toList ∨ typeName = "int32".toList
      ∨ typeName = "uint".toList ∨ typeName = "uint32".toList then
    { name := name, byteSize := 4, isFloat := false }
  else
    { name := name, byteSize := 4, isFloat := false }

/-- Body of the header loop for one line that is not `end_header` (the line
already without its trailing `\r`). -/
def headerLine (st : HeaderState) (line : List Char) : HeaderState :=
  let t := extractWord line
  if t.1 = "format".toList then
    let fmt := (extractWord t.2).1
    if fmt = "ascii".toList then { st with format := PLYFormat.ASCII }
    else if fmt = "binary_little_endian".toList then { st with format := PLYFormat.BinaryLE }
    else st
  else if t.1 = "element".toList then
    let n := extractWord t.2
    if n.1 = "vertex".toList then
      { st with inVertexElem := true, vertexCount := extractInt st.vertexCount n.2 }
    else { st with inVertexElem := false }
  else if t.1 = "property".toList ∧ st.inVertexElem = true then
    let ty := extractWord t.2
    let nm := extractWord ty.2
    { st with props := st.props ++ [mkProp ty.1 nm.1] }
  else st

/-- The header loop `for (std::string line; std::getline(file, line); )`, run
on the unread input `s` for at most `fuel` lines.  Returns the header locals
and the input left unread after the loop.  With `fuel ≥ s.length` the bound is
never the reason the loop stops (`parseHeader_fuel`). -/
def parseHeader : Nat → HeaderState → List Char → HeaderState × List Char
  | 0, st, s => (st, s)
  | fuel + 1, st, s =>
    match getline s with
    | none => (st, [])
    | some (raw, rest) =>
      let line := stripCR raw
      if line = "end_header".toList then (st, rest)
      else parseHeader fuel (headerLine st line) rest

/-- The lambda `find`, as the loop it is, started at index `i`: the index of
the first property called `name`, or `-1`. -/
def findFrom (name : List Char) : List PropDef → Nat → Int
  | [], _ => -1
  | p :: ps, i => if p.name = name then (i : Int) else findFrom name ps (i + 1)

/-- The lambda `find` of `PLYReader::read`. -/
def find (props : List PropDef) (name : String) : Int :=
  findFrom name.toList props 0

/-- The loop computing `offsets` and `rowBytes`: `offsets[i] = rowBytes;
rowBytes += props[i].byteSize`. -/
def layout (props : List PropDef) : List Nat × Nat :=
  props.foldl (fun acc p => (acc.1 ++ [acc.2], acc.2 + p.byteSize)) ([], 0)

/-- The little-endian word held by a run of bytes (`b0 + 256*b1 + ...`). -/
def le32 (bs : List Char) : Nat :=
  bs.foldr (fun b acc => b.toNat + 256 * acc) 0

/-- The property indices `iX, iY, iZ, iR, iG, iB, iOp` of `PLYReader::read`. -/
structure FieldIdx where
  /-- Index of `x`. -/
  iX : Int
  /-- Index of `y`. -/
  iY : Int
  /-- Index of `z`. -/
  iZ : Int
  /-- Index of `f_dc_0`. -/
  iR : Int
  /-- Index of `f_dc_1`. -/
  iG : Int
  /-- Index of `f_dc_2`. -/
  iB : Int
  /-- Index of `opacity`. -/
  iOp : Int
  deriving DecidableEq

/-- The seven calls of `find`. -/
def fieldIdx (props : List PropDef) : FieldIdx :=
  { iX := find props "x", iY := find props "y", iZ := find props "z",
    iR := find props "f_dc_0", iG := find props "f_dc_1", iB := find props "f_dc_2",
    iOp := find props "opacity" }

/-! ## PLYReader.cpp: vertex rows -/

/-- The lambda `getf`: the float at `row + offsets[idx]`, or `0.f` when the
property is absent or not declared as a float. -/
def getf (L : FloatLib F) (props : List PropDef) (offsets : List Nat)
    (row : List Char) (idx : Int) : F :=
  if idx < 0 ∨ (props.getD idx.toNat default).isFloat = false then 0
  else L.ofBits (le32 ((row.drop (offsets.getD idx.toNat 0)).take 4))

/-- The seven assignments to `s.position`, `s.f_dc` and `s.opacity`; `scale`
and `rotation` are never written. -/
def setFields (s : GaussianSplat F) (x y z r g b op : F) : GaussianSplat F :=
  { s with position := ![x, y, z], f_dc := ![r, g, b], opacity := op }

/-- Body of the binary loop after a successful `file.read`: the record decoded
from the row buffer. -/
def decodeBinaryRow (L : FloatLib F) (props : List PropDef) (offsets : List Nat)
    (ix : FieldIdx) (row : List Char) (s : GaussianSplat F) : GaussianSplat F :=
  setFields s (getf L props offsets row ix.iX) (getf L props offsets row ix.iY)
    (getf L props offsets row ix.iZ) (getf L props offsets row ix.iR)
    (getf L props offsets row ix.iG) (getf L props offsets row ix.iB)
    (getf L props offsets row ix.iOp)

/-- The binary loop `for (int i = 0; i < vertexCount; i++)`, with `n` rows
still to read, the next at index `i`, on the unread input `s`.  Returns `false`
at the first `file.read` that fails (fewer than `rowBytes` bytes left), with
the records as they are at that point. -/
def readBinaryRows (L : FloatLib F) (props : List PropDef) (offsets : List Nat)
    (rowBytes : Nat) (ix : FieldIdx) :
    Nat → Nat → List Char → List (GaussianSplat F) → Bool × List (GaussianSplat F)
  | 0, _, _, splats => (true, splats)
  | n + 1, i, s, splats =>
    if s.length < rowBytes then (false, splats)
    else
      readBinaryRows L props offsets rowBytes ix n (i + 1) (s.drop rowBytes)
        (splats.set i
          (decodeBinaryRow L props offsets ix (s.take rowBytes) (splats.getD i GaussianSplat.zero)))

/-- State of the `std::istringstream ss` built on a data line: the unread
characters and whether `failbit` is set. -/
structure RowStream where
  /-- Unread characters. -/
  buf : List Char
  /-- Whether an earlier extraction failed. -/
  failed : Bool
  deriving DecidableEq

/-- Extraction `ss >> v` into a `float` holding `v`: nothing happens on a failed
stream; white space is skipped; at end of input the stream fails and `v` is
kept; otherwise the library's numeric extraction runs. -/
def extractFloat (L : FloatLib F) (ss : RowStream) (v : F) : RowStream × F :=
  if ss.failed = true then (ss, v)
  else
    match ss.buf.dropWhile isSpace with
    | [] => ({ buf := [], failed := true }, v)
    | c :: cs =>
      let r := L.numGet (c :: cs)
      ({ buf := r.2.2, failed := !r.2.1 }, r.1)

/-- Loop `for (auto& v : vals) ss >> v;`. -/
def readVals (L : FloatLib F) : List F → RowStream → List F
  | [], _ => []
  | v :: vs, ss =>
    let r := extractFloat L ss v
    r.2 :: readVals L vs r.1

/-- Expression `idx >= 0 ? vals[idx] : 0.f`. -/
def valAt (vals : List F) (idx : Int) : F :=
  if 0 ≤ idx then vals.getD idx.toNat 0 else 0

/-- Body of the ASCII loop after a successful `getline` (the line already
without its trailing `\r`). -/
def decodeAsciiRow (L : FloatLib F) (props : List PropDef) (ix : FieldIdx)
    (line : List Char) (s : GaussianSplat F) : GaussianSplat F :=
  let vals := readVals L (List.replicate props.length (0 : F)) { buf := line, failed := false }
  setFields s (valAt vals ix.iX) (valAt vals ix.iY) (valAt vals ix.iZ)
    (valAt vals ix.iR) (valAt vals ix.iG) (valAt vals ix.iB) (valAt vals ix.iOp)

/-- The ASCII loop `for (int i = 0; i < vertexCount; i++)`, with `n` lines still
to read, the next at index `i`.  Returns `false` at the first `getline` that
fails, with the records as they are at that point. -/
def readAsciiRows (L : FloatLib F) (props : List PropDef) (ix : FieldIdx) :
    Nat → Nat → List Char → List (GaussianSplat F) → Bool × List (GaussianSplat F)
  | 0, _, _, splats => (true, splats)
  | n + 1, i, s, splats =>
    match getline s with
    | none => (false, splats)
    | some (raw, rest) =>
      readAsciiRows L props ix n (i + 1) rest
        (splats.set i
          (decodeAsciiRow L props ix (stripCR raw) (splats.getD i GaussianSplat.zero)))

/-! ## PLYReader.cpp: `PLYReader::read` -/

/-- What a call of `PLYReader::read` leaves: its return value and the two
reference parameters. -/
structure ReadResult (F : Type) where
  /-- The returned `bool`. -/
  ok : Bool
  /-- Parameter `GaussianData& outData` after the call. -/
  outData : GaussianData F
  /-- Parameter `std::string& errorMsg` after the call. -/
  errorMsg : String

/-- The part of `PLYReader::read` after the header loop, on the header locals
`st` and the unread input `data`, in a run in which
`outData.splats.resize(vertexCount)` obtains its memory; `readBodyOrThrow` below
is the same code with that allocation free to fail. -/
def readBody (L : FloatLib F) (st : HeaderState) (data : List Char)
    (outData : GaussianData F) (errorMsg : String) : ReadResult F :=
  if st.format = PLYFormat.Unknown then
    { ok := false, outData := outData, errorMsg := "Unknown PLY format" }
  else if st.vertexCount ≤ 0 then
    { ok := false, outData := outData, errorMsg := "No vertices in PLY" }
  else
    let ix := fieldIdx st.props
    if ix.iX < 0 ∨ ix.iY < 0 ∨ ix.iZ < 0 then
      { ok := false, outData := outData,
        errorMsg := "PLY missing position properties (x/y/z)" }
    else
      let lay := layout st.props
      let resized : List (GaussianSplat F) :=
        List.replicate st.vertexCount.toNat GaussianSplat.zero
      if st.format = PLYFormat.BinaryLE then
        let r := readBinaryRows L st.props lay.1 lay.2 ix st.vertexCount.toNat 0 data resized
        if r.1 = false then
          { ok := false, outData := { outData.clear with splats := r.2 },
            errorMsg := "Unexpected EOF in binary data" }
        else
          { ok := true,
            outData := GaussianData.buildGPUArrays L { outData.clear with splats := r.2 },
            errorMsg := errorMsg }
      else
        let r := readAsciiRows L st.props ix st.vertexCount.toNat 0 data resized
        if r.1 = false then
          { ok := false, outData := { outData.clear with splats := r.2 },
            errorMsg := "Unexpected EOF in ASCII data" }
        else
          { ok := true,
            outData := GaussianData.buildGPUArrays L { outData.clear with splats := r.2 },
            errorMsg := errorMsg }

/-- Function `PLYReader::read`, in a run in which the records are allocated
(see `readBody`).  The file system is `fs`: the bytes of the file at a path, or
`none` when it cannot be opened. -/
def read (L : FloatLib F) (fs : String → Option (List Char)) (filepath : String)
    (outData : GaussianData F) (errorMsg : String) : ReadResult F :=
  match fs filepath with
  | none => { ok := false, outData := outData, errorMsg := "Cannot open: " ++ filepath }
  | some file =>
    match getline file with
    | none => { ok := false, outData := outData, errorMsg := "Not a PLY file" }
    | some (first, rest) =>
      if containsSub "ply".toList first = false then
        { ok := false, outData := outData, errorMsg := "Not a PLY file" }
      else
        let h := parseHeader rest.length HeaderState.init rest
        readBody L h.1 h.2 outData errorMsg

/-! ## PLYReader.cpp: `PLYReader::read` with the allocation of the records

The definitions `readBody` and `read` above give what the function returns in a
run in which `outData.splats.resize(vertexCount)` obtains its memory.  The
definitions below are the function with that allocation as an input of the
model: `canAllocate n` tells whether the heap provides a block of `n` bytes, and
the result is `none` when `std::bad_alloc` leaves the function.  The other
allocations of the function (the lines, the schema, the row buffer and, once
every row is read, the flattened arrays) are taken to succeed. -/

/-- Size of a `GaussianSplat` in bytes: fourteen `float`s. -/
def sizeofGaussianSplat : Nat := 56

/-- The part of `PLYReader::read` after the header loop, with the allocation of
`outData.splats.resize(vertexCount)` decided by `canAllocate`: `none` when
`std::bad_alloc` leaves the function, else what it returns. -/
def readBodyOrThrow (canAllocate : Nat → Bool) (L : FloatLib F) (st : HeaderState)
    (data : List Char) (outData : GaussianData F) (errorMsg : String) :
    Option (ReadResult F) :=
  if st.format = PLYFormat.Unknown then
    some { ok := false, outData := outData, errorMsg := "Unknown PLY format" }
  else if st.vertexCount ≤ 0 then
    some { ok := false, outData := outData, errorMsg := "No vertices in PLY" }
  else
    let ix := fieldIdx st.props
    if ix.iX < 0 ∨ ix.iY < 0 ∨ ix.iZ < 0 then
      some { ok := false, outData := outData,
             errorMsg := "PLY missing position properties (x/y/z)" }
    else
      let lay := layout st.props
      -- outData.clear(); outData.splats.resize(vertexCount);
      if canAllocate (st.vertexCount.toNat * sizeofGaussianSplat) = false then none
      else
        let resized : List (GaussianSplat F) :=
          List.replicate st.vertexCount.toNat GaussianSplat.zero
        if st.format = PLYFormat.BinaryLE then
          let r := readBinaryRows L st.props lay.1 lay.2 ix st.vertexCount.toNat 0 data resized
          if r.1 = false then
            some { ok := false, outData := { outData.clear with splats := r.2 },
                   errorMsg := "Unexpected EOF in binary data" }
          else
            some { ok := true,
                   outData := GaussianData.buildGPUArrays L { outData.clear with splats := r.2 },
                   errorMsg := errorMsg }
        else
          let r := readAsciiRows L st.props ix st.vertexCount.toNat 0 data resized
          if r.1 = false then
            some { ok := false, outData := { outData.clear with splats := r.2 },
                   errorMsg := "Unexpected EOF in ASCII data" }
          else
            some { ok := true,
                   outData := GaussianData.buildGPUArrays L { outData.clear with splats := r.2 },
                   errorMsg := errorMsg }

/-- Function `PLYReader::read` with the allocation of the records decided by
`canAllocate`: `none` when `std::bad_alloc` leaves the function, else what it
returns. -/
def readOrThrow (canAllocate : Nat → Bool) (L : FloatLib F)
    (fs : String → Option (List Char)) (filepath : String)
    (outData : GaussianData F) (errorMsg : String) : Option (ReadResult F) :=
  match fs filepath with
  | none => some { ok := false, outData := outData, errorMsg := "Cannot open: " ++ filepath }
  | some file =>
    match getline file with
    | none => some { ok := false, outData := outData, errorMsg := "Not a PLY file" }
    | some (first, rest) =>
      if containsSub "ply".toList first = false then
        some { ok := false, outData := outData, errorMsg := "Not a PLY file" }
      else
        let h := parseHeader rest.length HeaderState.init rest
        readBodyOrThrow canAllocate L h.1 h.2 outData errorMsg

/-! ## Views of the input used to state properties of `read`

The definitions of this section are not translations of code.  They name what
the properties speak of: the header and data section of a file, its lines and
tokens, the width and kind a type name declares, and the value a row holds for
a named field when read off the schema. -/

/-- The header locals and the data section `read` works with on the file
contents `file`: `none` when the magic line is rejected. -/
def headerOf (file : List Char) : Option (HeaderState × List Char) :=
  match getline file with
  | none => none
  | some (first, rest) =>
    if containsSub "ply".toList first = false then none
    else some (parseHeader rest.length HeaderState.init rest)

/-- The lines the header loop processes on the unread input `s` (each without
its trailing `\r`), up to and excluding `end_header`, for at most `fuel` lines. -/
def headerLines : Nat → List Char → List (List Char)
  | 0, _ => []
  | fuel + 1, s =>
    match getline s with
    | none => []
    | some (raw, rest) =>
      if stripCR raw = "end_header".toList then []
      else stripCR raw :: headerLines fuel rest

/-- The header lines of a file: those after the magic line. -/
def headerLinesOf (file : List Char) : List (List Char) :=
  match getline file with
  | none => []
  | some (_, rest) => headerLines rest.length rest

/-- The format named by a header line that is a `format` directive. -/
def formatName (line : List Char) : Option (List Char) :=
  if (extractWord line).1 = "format".toList then some (extractWord (extractWord line).2).1
  else none

/-- Number of lines of a text: one per `\n`, plus one for a last line that is
not empty and not terminated. -/
def lineCount (s : List Char) : Nat :=
  s.count '\n' + (if s = [] ∨ s.getLast? = some '\n' then 0 else 1)

/-- The `k`-th line of a text (counting from 0), without its trailing `\r`. -/
def nthLine : Nat → List Char → Option (List Char)
  | 0, s => (getline s).map (fun r => stripCR r.1)
  | k + 1, s => (getline s).bind (fun r => nthLine k r.2)

/-- The white-space-delimited tokens of a line. -/
def tokens (line : List Char) : List (List Char) :=
  (line.splitOnP isSpace).filter (fun t => !t.isEmpty)

/-- A header that passes the three checks after the header loop: a recognised
format, a positive vertex count, and properties called `x`, `y` and `z`. -/
def HeaderState.accepted (st : HeaderState) : Prop :=
  st.format ≠ PLYFormat.Unknown ∧ 0 < st.vertexCount ∧
  (∃ p ∈ st.props, p.name = "x".toList) ∧ (∃ p ∈ st.props, p.name = "y".toList) ∧
  (∃ p ∈ st.props, p.name = "z".toList)

instance (st : HeaderState) : Decidable st.accepted := by
  unfold HeaderState.accepted; infer_instance

/-- The names of the properties the reader consumes. -/
def consumedNames : List String :=
  ["x", "y", "z", "f_dc_0", "f_dc_1", "f_dc_2", "opacity"]

/-- The record field that the reader fills from the property called `name`. -/
def GaussianSplat.field (s : GaussianSplat F) (name : String) : F :=
  if name = "x" then s.position 0
  else if name = "y" then s.position 1
  else if name = "z" then s.position 2
  else if name = "f_dc_0" then s.f_dc 0
  else if name = "f_dc_1" then s.f_dc 1
  else if name = "f_dc_2" then s.f_dc 2
  else if name = "opacity" then s.opacity
  else 0

/-- An input on which a token ends: the end of the line or a white-space
character. -/
def TokenEnd (rest : List Char) : Prop :=
  rest = [] ∨ ∃ c r, rest = c :: r ∧ isSpace c = true

/-- The library reads the token `t` in full as the number `v`: wherever `t` is
followed by the end of the line or by white space, the numeric extraction
stores `v`, succeeds, and leaves unread what follows `t`. -/
def ParsesAs (L : FloatLib F) (t : List Char) (v : F) : Prop :=
  ∀ rest : List Char, TokenEnd rest → L.numGet (t ++ rest) = (v, true, rest)

/-- The library does not read a number at the token `t`: the numeric extraction
fails there and stores zero. -/
def FailsOn (L : FloatLib F) (t : List Char) : Prop :=
  ∀ rest : List Char, TokenEnd rest →
    (L.numGet (t ++ rest)).1 = 0 ∧ (L.numGet (t ++ rest)).2.1 = false

/-- Width in bytes that the reader gives a declared property type: 8 for
`double`/`float64`, 1 for `uchar`/`uint8`, 4 for every other name. -/
def declaredWidth (typeName : List Char) : Nat :=
  if typeName = "double".toList ∨ typeName = "float64".toList then 8
  else if typeName = "uchar".toList ∨ typeName = "uint8".toList then 1
  else 4

/-- Whether a declared property type is decoded as a float: `float` or `float32`. -/
def declaredFloat (typeName : List Char) : Bool :=
  decide (typeName = "float".toList ∨ typeName = "float32".toList)

/-- Sum of the widths of a run of properties. -/
def widthSum (props : List PropDef) : Nat :=
  (props.map (fun p => p.byteSize)).sum

/-- Index of the first property called `name` (`props.length` when there is none). -/
def firstNamed (props : List PropDef) (name : String) : Nat :=
  props.findIdx (fun p => decide (p.name = name.toList))

/-- The value a binary row holds for the field `name`, read off the schema:
for the first property called `name`, when it is declared as a float, the float
whose little-endian bytes are the four at the offset given by the widths of the
properties declared before it; zero when there is no such property or it is
not declared as a float. -/
def rowField (L : FloatLib F) (props : List PropDef) (row : List Char) (name : String) : F :=
  if firstNamed props name < props.length
      ∧ (props.getD (firstNamed props name) default).isFloat = true then
    L.ofBits (le32 ((row.drop (widthSum (props.take (firstNamed props name)))).take 4))
  else 0

/-! ## GaussianDrawOverride.cpp: GPU resources

A COM object is a handle; `nullptr` is `none`.  The device is what the program
can observe of it: the objects created so far and the `Release` calls made.
Whether a compile or a creation succeeds is decided outside the program and is
an input of the model. -/

/-- Identity of a device object: its position in `Gpu.created`. -/
abbrev Handle := Nat

/-- The device: the `ByteWidth` of each object created so far (zero for an
object that is not a buffer), in creation order, and the handles on which
`Release` was called, in call order. -/
structure Gpu where
  /-- Objects created so far. -/
  created : List Nat
  /-- Log of `Release` calls. -/
  released : List Handle
  deriving DecidableEq

/-- A device on which nothing has been created. -/
def Gpu.init : Gpu := { created := [], released := [] }

/-- A `Create*` call that succeeds when `ok`: the new object's handle, or a null
pointer on failure. -/
def Gpu.create (g : Gpu) (ok : Bool) (byteWidth : Nat) : Gpu × Option Handle :=
  if ok = true then ({ g with created := g.created ++ [byteWidth] }, some g.created.length)
  else (g, none)

/-- The guarded release `if (p) { p->Release(); p = nullptr; }`; the pointer is
null afterwards. -/
def Gpu.safeRelease (g : Gpu) (p : Option Handle) : Gpu :=
  match p with
  | none => g
  | some h => { g with released := g.released ++ [h] }

/-- Number of `Release` calls made on a handle. -/
def Gpu.releaseCount (g : Gpu) (h : Handle) : Nat := g.released.count h

/-- Class `GaussianDrawData`. -/
structure GaussianDrawData (F : Type) where
  /-- Field `float wvp[16]`, row-major world-view-projection. -/
  wvp : Fin 16 → F
  /-- Field `float pointSize`. -/
  pointSize : F
  /-- Field `float vpWidth`. -/
  vpWidth : F
  /-- Field `float vpHeight`. -/
  vpHeight : F
  /-- Field `unsigned int vertexCount`. -/
  vertexCount : Nat
  /-- Field `ID3D11VertexShader* vs`. -/
  vs : Option Handle
  /-- Field `ID3D11GeometryShader* gs`. -/
  gs : Option Handle
  /-- Field `ID3D11PixelShader* ps`. -/
  ps : Option Handle
  /-- Field `ID3D11InputLayout* inputLayout`. -/
  inputLayout : Option Handle
  /-- Field `ID3D11Buffer* posBuf`. -/
  posBuf : Option Handle
  /-- Field `ID3D11Buffer* colBuf`. -/
  colBuf : Option Handle
  /-- Field `ID3D11Buffer* constBuf`. -/
  constBuf : Option Handle
  /-- Field `ID3D11BlendState* blendState`. -/
  blendState : Option Handle
  /-- Field `ID3D11RasterizerState* rsState`. -/
  rsState : Option Handle
  /-- Field `bool shadersReady`. -/
  shadersReady : Bool
  /-- Field `bool vertexDirty`. -/
  vertexDirty : Bool

/-- A freshly constructed `GaussianDrawData` (the default member initialisers). -/
def GaussianDrawData.init : GaussianDrawData F :=
  { wvp := fun _ => 0, pointSize := 4, vpWidth := 1280, vpHeight := 720, vertexCount := 0,
    vs := none, gs := none, ps := none, inputLayout := none, posBuf := none, colBuf := none,
    constBuf := none, blendState := none, rsState := none,
    shadersReady := false, vertexDirty := true }

/-- Size of `CBPerObject` in bytes: 16 + 4 floats. -/
def sizeofCBPerObject : Nat := 80

/-- Method `GaussianDrawData::releaseAll`. -/
def GaussianDrawData.releaseAll (d : GaussianDrawData F) (g : Gpu) : GaussianDrawData F × Gpu :=
  let g := g.safeRelease d.vs
  let g := g.safeRelease d.gs
  let g := g.safeRelease d.ps
  let g := g.safeRelease d.inputLayout
  let g := g.safeRelease d.posBuf
  let g := g.safeRelease d.colBuf
  let g := g.safeRelease d.constBuf
  let g := g.safeRelease d.blendState
  let g := g.safeRelease d.rsState
  ({ d with vs := none, gs := none, ps := none, inputLayout := none, posBuf := none,
            colBuf := none, constBuf := none, blendState := none, rsState := none,
            shadersReady := false, vertexCount := 0 }, g)

/-- Outcomes of the compile and creation calls of one `initShaders`. -/
structure InitOutcomes where
  /-- Whether `D3DCompile` of entry `VS` succeeds. -/
  compileVS : Bool
  /-- Whether `D3DCompile` of entry `GS` succeeds. -/
  compileGS : Bool
  /-- Whether `D3DCompile` of entry `PS` succeeds. -/
  compilePS : Bool
  /-- Whether `CreateVertexShader` succeeds. -/
  createVS : Bool
  /-- Whether `CreateGeometryShader` succeeds. -/
  createGS : Bool
  /-- Whether `CreatePixelShader` succeeds. -/
  createPS : Bool
  /-- Whether `CreateInputLayout` succeeds. -/
  createLayout : Bool
  /-- Whether `CreateBuffer` for the constant buffer succeeds. -/
  createCB : Bool
  /-- Whether `CreateBlendState` succeeds. -/
  createBlend : Bool
  /-- Whether `CreateRasterizerState` succeeds. -/
  createRS : Bool
  deriving DecidableEq

/-- The label `cleanup:` of `initShaders` reached with a failed `hr`:
`releaseAll(); return false;`. -/
def initCleanupFailed (d : GaussianDrawData F) (g : Gpu) : Bool × GaussianDrawData F × Gpu :=
  (false, d.releaseAll g)

/-- Method `GaussianDrawData::initShaders` on a non-null device.  The compiled
blobs are not device objects and are left out. -/
def GaussianDrawData.initShaders (d : GaussianDrawData F) (g : Gpu) (o : InitOutcomes) :
    Bool × GaussianDrawData F × Gpu :=
  if o.compileVS = false then (false, d, g)
  else if o.compileGS = false then (false, d, g)
  else if o.compilePS = false then (false, d, g)
  else
    let r := g.create o.createVS 0
    let d := { d with vs := r.2 }
    if o.createVS = false then initCleanupFailed d r.1 else
    let r := r.1.create o.createGS 0
    let d := { d with gs := r.2 }
    if o.createGS = false then initCleanupFailed d r.1 else
    let r := r.1.create o.createPS 0
    let d := { d with ps := r.2 }
    if o.createPS = false then initCleanupFailed d r.1 else
    let r := r.1.create o.createLayout 0
    let d := { d with inputLayout := r.2 }
    if o.createLayout = false then initCleanupFailed d r.1 else
    let r := r.1.create o.createCB sizeofCBPerObject
    let d := { d with constBuf := r.2 }
    if o.createCB = false then initCleanupFailed d r.1 else
    let r := r.1.create o.createBlend 0
    let d := { d with blendState := r.2 }
    if o.createBlend = false then initCleanupFailed d r.1 else
    let r := r.1.create o.createRS 0
    let d := { d with rsState := r.2 }
    if o.createRS = false then initCleanupFailed d r.1 else
    (true, { d with shadersReady := true }, r.1)

/-- Outcomes of the two `CreateBuffer` calls of one `uploadVertices`. -/
structure UploadOutcomes where
  /-- Whether the position buffer is created. -/
  createPos : Bool
  /-- Whether the colour buffer is created. -/
  createCol : Bool
  deriving DecidableEq

/-- Method `GaussianDrawData::uploadVertices`; `device` tells whether the
device pointer is non-null, `count` is the `unsigned int` argument, and a
buffer's `ByteWidth` is a 32-bit `UINT`. -/
def GaussianDrawData.uploadVertices (d : GaussianDrawData F) (g : Gpu) (device : Bool)
    (count : Nat) (o : UploadOutcomes) : Bool × GaussianDrawData F × Gpu :=
  let g := g.safeRelease d.posBuf
  let g := g.safeRelease d.colBuf
  let d := { d with posBuf := none, colBuf := none, vertexCount := 0 }
  if device = false ∨ count = 0 then (false, d, g)
  else
    let r := g.create o.createPos (count * 3 * 4 % 2 ^ 32)
    let d := { d with posBuf := r.2 }
    if o.createPos = false then (false, d, r.1)
    else
      let r := r.1.create o.createCol (count * 4 * 4 % 2 ^ 32)
      let d := { d with colBuf := r.2 }
      if o.createCol = false then
        (false, { d with posBuf := none }, r.1.safeRelease d.posBuf)
      else
        (true, { d with vertexCount := count, vertexDirty := false }, r.1)

/-! ## GaussianDrawOverride.cpp: `prepareForDraw` -/

/-- The members of `GaussianDrawOverride`, with the node's dataset in place of
the pointer to the node (`none` for a null `m_node`). -/
structure DrawOverride (F : Type) where
  /-- The dataset `m_node->m_data`, or `none` when `m_node` is null. -/
  m_node : Option (GaussianData F)
  /-- Field `MString m_loadedPath`. -/
  m_loadedPath : String

/-- What one call of `prepareForDraw` reads from the host: the device pointer,
the node attributes, the frame context, and the outcomes of the device calls. -/
structure FrameInput (F : Type) where
  /-- Whether `GPUDeviceHandle()` is non-null. -/
  device : Bool
  /-- Attribute `filePath` of the node. -/
  filePath : String
  /-- Attribute `pointSize` of the node. -/
  pointSize : F
  /-- The object's `inclusiveMatrix()`. -/
  world : Fin 4 → Fin 4 → F
  /-- The frame's `kViewProjMtx`. -/
  viewProj : Fin 4 → Fin 4 → F
  /-- Viewport width from `getViewportDimensions`. -/
  vpW : Int
  /-- Viewport height from `getViewportDimensions`. -/
  vpH : Int
  /-- Outcomes for `initShaders`, if it runs. -/
  initOutcomes : InitOutcomes
  /-- Outcomes for `uploadVertices`, if it runs. -/
  uploadOutcomes : UploadOutcomes

/-- The block `if (newPath != m_loadedPath) { ... }` of `prepareForDraw`, on the
node's dataset: the new loaded path, dataset and dirty flag. -/
def reloadIfChanged (L : FloatLib F) (fs : String → Option (List Char)) (newPath : String)
    (loadedPath : String) (m_data : GaussianData F) (vertexDirty : Bool) :
    String × GaussianData F × Bool :=
  if newPath ≠ loadedPath then
    let cleared := m_data.clear
    if newPath.length > 0 then
      (newPath, (read L fs newPath cleared "").outData, true)
    else (newPath, cleared, true)
  else (loadedPath, m_data, vertexDirty)

/-- Entry `wvp[r * 4 + c]` of the product `world * viewProj`. -/
def wvpEntry (world viewProj : Fin 4 → Fin 4 → F) (i : Fin 16) : F :=
  let r : Fin 4 := ⟨i.val / 4, by omega⟩
  let c : Fin 4 := ⟨i.val % 4, by omega⟩
  world r 0 * viewProj 0 c + world r 1 * viewProj 1 c
    + world r 2 * viewProj 2 c + world r 3 * viewProj 3 c

/-- Method `GaussianDrawOverride::prepareForDraw`: the override's members, the
returned user data and the device afterwards.  `oldData` is `none` when the
cast of the old user data is null. -/
def prepareForDraw (L : FloatLib F) (fs : String → Option (List Char))
    (ov : DrawOverride F) (inp : FrameInput F) (oldData : Option (GaussianDrawData F))
    (g : Gpu) : DrawOverride F × GaussianDrawData F × Gpu :=
  let data := oldData.getD GaussianDrawData.init
  match ov.m_node with
  | none => (ov, data, g)
  | some m_data =>
    let r1 : GaussianDrawData F × Gpu :=
      if data.shadersReady = false ∧ inp.device = true then
        (data.initShaders g inp.initOutcomes).2
      else (data, g)
    let rl := reloadIfChanged L fs inp.filePath ov.m_loadedPath m_data r1.1.vertexDirty
    let data := { r1.1 with vertexDirty := rl.2.2 }
    let r2 : GaussianDrawData F × Gpu :=
      if data.vertexDirty = true ∧ inp.device = true ∧ rl.2.1.empty = false then
        (data.uploadVertices r1.2 inp.device (rl.2.1.count % 2 ^ 32) inp.uploadOutcomes).2
      else (data, r1.2)
    ({ m_node := some rl.2.1, m_loadedPath := rl.1 },
     { r2.1 with wvp := wvpEntry inp.world inp.viewProj, vpWidth := (inp.vpW : F),
                 vpHeight := (inp.vpH : F), pointSize := inp.pointSize },
     r2.2)

/-- The statement `if (!data->shadersReady && device) data->initShaders(device);`
of `prepareForDraw`. -/
def ensureShaders (d : GaussianDrawData F) (g : Gpu) (device : Bool) (o : InitOutcomes) :
    GaussianDrawData F × Gpu :=
  if d.shadersReady = false ∧ device = true then (d.initShaders g o).2 else (d, g)

/-- The calls one `prepareForDraw` makes to `initShaders`, `PLYReader::read` and
`uploadVertices`: for each, `none` when it is not called, else its argument
(the path, the count) and the `bool` it returns. -/
structure PrepareCalls where
  /-- The call of `initShaders`: its result. -/
  initShaders : Option Bool
  /-- The call of `PLYReader::read`: the path and the result. -/
  read : Option (String × Bool)
  /-- The call of `uploadVertices`: the count and the result. -/
  uploadVertices : Option (Nat × Bool)
  deriving DecidableEq

/-- The calls made by `prepareForDraw` on the same arguments, read off its
three guards. -/
def prepareCalls (L : FloatLib F) (fs : String → Option (List Char))
    (ov : DrawOverride F) (inp : FrameInput F) (oldData : Option (GaussianDrawData F))
    (g : Gpu) : PrepareCalls :=
  let data := oldData.getD GaussianDrawData.init
  match ov.m_node with
  | none => { initShaders := none, read := none, uploadVertices := none }
  | some m_data =>
    let r1 := ensureShaders data g inp.device inp.initOutcomes
    let rl := reloadIfChanged L fs inp.filePath ov.m_loadedPath m_data r1.1.vertexDirty
    let data2 := { r1.1 with vertexDirty := rl.2.2 }
    { initShaders :=
        if data.shadersReady = false ∧ inp.device = true then
          some (data.initShaders g inp.initOutcomes).1
        else none,
      read :=
        if inp.filePath ≠ ov.m_loadedPath ∧ inp.filePath.length > 0 then
          some (inp.filePath, (read L fs inp.filePath m_data.clear "").ok)
        else none,
      uploadVertices :=
        if data2.vertexDirty = true ∧ inp.device = true ∧ rl.2.1.empty = false then
          some (rl.2.1.count % 2 ^ 32,
            (data2.uploadVertices r1.2 inp.device (rl.2.1.count % 2 ^ 32) inp.uploadOutcomes).1)
        else none }

/-- The draw override, the user data the host holds for it (`none` before the
first prepare) and the device. -/
structure PluginState (F : Type) where
  /-- The `GaussianDrawOverride` object. -/
  ov : DrawOverride F
  /-- The `MUserData` returned by the last `prepareForDraw`. -/
  data : Option (GaussianDrawData F)
  /-- The device. -/
  gpu : Gpu

/-- What the host supplies to one prepare: the file system at that time and the
frame input. -/
structure PrepareInput (F : Type) where
  /-- The file system when the prepare runs. -/
  fs : String → Option (List Char)
  /-- The frame input. -/
  frame : FrameInput F

/-- One prepare of the host loop: `prepareForDraw` is passed the user data it
returned last time. -/
def stepPrepare (L : FloatLib F) (s : PluginState F) (i : PrepareInput F) : PluginState F :=
  let r := prepareForDraw L i.fs s.ov i.frame s.data s.gpu
  { ov := r.1, data := some r.2.1, gpu := r.2.2 }

/-- A sequence of prepares. -/
def runPrepares (L : FloatLib F) (s : PluginState F) (is : List (PrepareInput F)) :
    PluginState F :=
  is.foldl (stepPrepare L) s

/-- The state before the first prepare: a draw override on a node with an empty
dataset, no user data, nothing on the device. -/
def PluginState.init : PluginState F :=
  { ov := { m_node := some GaussianData.init, m_loadedPath := "" }, data := none,
    gpu := Gpu.init }

/-- Tear-down of the user data: the destructor `~GaussianDrawData`, which calls
`releaseAll`. -/
def PluginState.teardown (s : PluginState F) : Gpu :=
  match s.data with
  | none => s.gpu
  | some d => (d.releaseAll s.gpu).2

/-- The nine resource pointers of a `GaussianDrawData`, in declaration order. -/
def GaussianDrawData.slots (d : GaussianDrawData F) : List (Option Handle) :=
  [d.vs, d.gs, d.ps, d.inputLayout, d.posBuf, d.colBuf, d.constBuf, d.blendState, d.rsState]

/-! ## GaussianDrawOverride.cpp: `draw`

The device context is the pipeline bindings `draw` reads or writes, the uniform
blocks written through `Map`/`Unmap`, the `Draw` calls issued, and the
reference-count changes made through the `Get*` calls and `Release`. -/

/-- Value of `D3D11_PRIMITIVE_TOPOLOGY_POINTLIST` in `d3dcommon.h`. -/
def D3D11_PRIMITIVE_TOPOLOGY_POINTLIST : Nat := 1

/-- One input-assembler vertex-buffer slot: the buffer, its stride and offset. -/
structure VertexBufferBinding where
  /-- The bound buffer. -/
  buffer : Option Handle
  /-- The stride in bytes. -/
  stride : Nat
  /-- The offset in bytes. -/
  offset : Nat
  deriving DecidableEq

/-- Structure `CBPerObject`. -/
structure CBPerObject (F : Type) where
  /-- Field `float wvp[16]`. -/
  wvp : Fin 16 → F
  /-- Field `float pointSize`. -/
  pointSize : F
  /-- Field `float vpWidth`. -/
  vpWidth : F
  /-- Field `float vpHeight`. -/
  vpHeight : F
  /-- Field `float pad`. -/
  pad : F

/-- The state of the `ID3D11DeviceContext`. -/
structure DeviceContext (F : Type) where
  /-- Output-merger blend state. -/
  blendState : Option Handle
  /-- Output-merger blend factor. -/
  blendFactor : Fin 4 → F
  /-- Output-merger sample mask. -/
  sampleMask : Nat
  /-- Rasterizer state. -/
  rsState : Option Handle
  /-- Input-assembler input layout. -/
  inputLayout : Option Handle
  /-- Input-assembler primitive topology. -/
  topology : Nat
  /-- Input-assembler vertex-buffer slots. -/
  vertexBuffers : Nat → VertexBufferBinding
  /-- Vertex shader. -/
  vsShader : Option Handle
  /-- Constant-buffer slots of the vertex stage. -/
  vsConstantBuffers : Nat → Option Handle
  /-- Geometry shader. -/
  gsShader : Option Handle
  /-- Constant-buffer slots of the geometry stage. -/
  gsConstantBuffers : Nat → Option Handle
  /-- Pixel shader. -/
  psShader : Option Handle
  /-- Uniform blocks written through `Map`/`Unmap`, with the buffer written. -/
  constantData : List (Option Handle × CBPerObject F)
  /-- The calls `Draw(VertexCount, StartVertexLocation)` issued. -/
  draws : List (Nat × Nat)
  /-- Reference-count changes: `+1` by a `Get*` call returning the object, `-1`
  by `Release`. -/
  refLog : List (Handle × Int)

/-- A `Get*` call returning the pointer `p`: it adds a reference when `p` is
not null. -/
def DeviceContext.addRef (ctx : DeviceContext F) (p : Option Handle) : DeviceContext F :=
  match p with
  | none => ctx
  | some h => { ctx with refLog := ctx.refLog ++ [(h, 1)] }

/-- The lambda `safeRelease` of `draw`. -/
def DeviceContext.safeRelease (ctx : DeviceContext F) (p : Option Handle) : DeviceContext F :=
  match p with
  | none => ctx
  | some h => { ctx with refLog := ctx.refLog ++ [(h, -1)] }

/-- The block "Update constant buffer": the uniform block is written when `Map`
succeeds. -/
def updateConstantBuffer (ctx : DeviceContext F) (data : GaussianDrawData F) (mapOk : Bool) :
    DeviceContext F :=
  if mapOk = true then
    { ctx with constantData := ctx.constantData ++
        [(data.constBuf, { wvp := data.wvp, pointSize := data.pointSize,
                           vpWidth := data.vpWidth, vpHeight := data.vpHeight, pad := 0 })] }
  else ctx

/-- The block "Set our pipeline" of `draw`. -/
def setPipeline (ctx : DeviceContext F) (data : GaussianDrawData F) : DeviceContext F :=
  { ctx with
    inputLayout := data.inputLayout,
    topology := D3D11_PRIMITIVE_TOPOLOGY_POINTLIST,
    vertexBuffers := fun slot =>
      if slot = 0 then { buffer := data.posBuf, stride := 3 * 4, offset := 0 }
      else if slot = 1 then { buffer := data.colBuf, stride := 4 * 4, offset := 0 }
      else ctx.vertexBuffers slot,
    vsShader := data.vs,
    vsConstantBuffers := fun slot => if slot = 0 then data.constBuf else ctx.vsConstantBuffers slot,
    gsShader := data.gs,
    gsConstantBuffers := fun slot => if slot = 0 then data.constBuf else ctx.gsConstantBuffers slot,
    psShader := data.ps,
    blendState := data.blendState,
    blendFactor := fun _ => 1,
    sampleMask := 0xFFFFFFFF,
    rsState := data.rsState }

/-- Function `GaussianDrawOverride::draw` on the context state `ctx0`.
`userData` is `none` for a null pointer; `device` and `hasContext` tell whether
the device handle and the immediate context are non-null; `mapOk` whether `Map`
succeeds.  The reference that `GetImmediateContext` adds to the context itself
and the final `ctx->Release()` are left out. -/
def draw (ctx0 : DeviceContext F) (userData : Option (GaussianDrawData F)) (device : Bool)
    (hasContext : Bool) (mapOk : Bool) : DeviceContext F :=
  match userData with
  | none => ctx0
  | some data =>
    if data.shadersReady = false ∨ data.vertexCount = 0 then ctx0
    else if device = false then ctx0
    else if hasContext = false then ctx0
    else
      let ctx := updateConstantBuffer ctx0 data mapOk
      -- Save minimal Maya state
      let prevBlend := ctx.blendState
      let prevBlendFactor := ctx.blendFactor
      let prevSampleMask := ctx.sampleMask
      let prevRS := ctx.rsState
      let prevLayout := ctx.inputLayout
      let prevVS := ctx.vsShader
      let prevGS := ctx.gsShader
      let prevPS := ctx.psShader
      let ctx := ctx.addRef prevBlend
      let ctx := ctx.addRef prevRS
      let ctx := ctx.addRef prevLayout
      let ctx := ctx.addRef prevVS
      let ctx := ctx.addRef prevGS
      let ctx := ctx.addRef prevPS
      -- Set our pipeline
      let ctx := setPipeline ctx data
      -- Draw all splats as points
      let ctx := { ctx with draws := ctx.draws ++ [(data.vertexCount, 0)] }
      -- Restore Maya state
      let ctx := { ctx with inputLayout := prevLayout }
      let ctx := { ctx with vsShader := prevVS }
      let ctx := { ctx with gsShader := prevGS }
      let ctx := { ctx with psShader := prevPS }
      let ctx := { ctx with blendState := prevBlend, blendFactor := prevBlendFactor,
                            sampleMask := prevSampleMask }
      let ctx := { ctx with rsState := prevRS }
      -- Release refs added by Get* calls
      let ctx := ctx.safeRelease prevBlend
      let ctx := ctx.safeRelease prevRS
      let ctx := ctx.safeRelease prevLayout
      let ctx := ctx.safeRelease prevVS
      let ctx := ctx.safeRelease prevGS
      ctx.safeRelease prevPS

/-! ## GaussianDrawOverride.cpp: the geometry shader of `kShaderSrc` -/

/-- HLSL structure `VS_OUT`. -/
structure VS_OUT (F : Type) where
  /-- Member `float4 clip : SV_Position`. -/
  clip : Fin 4 → F
  /-- Member `float4 col : COLOR`. -/
  col : Fin 4 → F

/-- HLSL structure `GS_OUT`. -/
structure GS_OUT (F : Type) where
  /-- Member `float4 clip : SV_Position`. -/
  clip : Fin 4 → F
  /-- Member `float4 col : COLOR`. -/
  col : Fin 4 → F
  /-- Member `float2 uv : TEXCOORD0`. -/
  uv : Fin 2 → F

/-- The constant array `corners` of the geometry shader: TL, TR, BL, BR. -/
def corners : Fin 4 → Fin 2 → F :=
  ![![-1, 1], ![1, 1], ![-1, -1], ![1, -1]]

/-- HLSL entry point `GS`: the vertices appended to the stream for one input
point, under the constant buffer `cb`. -/
def GS (cb : CBPerObject F) (input : VS_OUT F) : List (GS_OUT F) :=
  let c := input.clip
  let h : Fin 2 → F := ![cb.pointSize / cb.vpWidth * c 3, cb.pointSize / cb.vpHeight * c 3]
  (List.finRange 4).map fun k =>
    { clip := ![c 0 + corners k 0 * h 0, c 1 + corners k 1 * h 1, c 2 + 0, c 3 + 0],
      col := input.col,
      uv := corners k }

/-- The perspective divide of the x and y clip coordinates. -/
def ndcXY (clip : Fin 4 → F) : Fin 2 → F :=
  ![clip 0 / clip 3, clip 1 / clip 3]

end Model

/-! ## An instance of the float library over ℚ, to run the reader on files -/

/-- The rational value of a binary32 bit pattern (zero for the patterns that
encode no finite number). -/
def ieeeValue (w : Nat) : ℚ :=
  let e : Nat := w / 2 ^ 23 % 256
  let m : Nat := w % 2 ^ 23
  let mag : ℚ :=
    if e = 0 then (m : ℚ) / 2 ^ 149
    else if e = 255 then 0
    else ((2 ^ 23 + m : Nat) : ℚ) * 2 ^ e / 2 ^ 150
  if (w / 2 ^ 31 % 2 : Nat) = 1 then -mag else mag

/-- Numeric extraction of a plain decimal numeral `[sign] digits [. digits]`
(no exponent part) with its exact value; fails, storing zero, when there is no
digit. -/
def decimalGet (s : List Char) : ℚ × Bool × List Char :=
  let s1 := if s.head? = some '-' ∨ s.head? = some '+' then s.tail else s
  let ip := s1.takeWhile Char.isDigit
  let s2 := s1.dropWhile Char.isDigit
  let fp := if s2.head? = some '.' then s2.tail.takeWhile Char.isDigit else []
  let s3 := if s2.head? = some '.' then s2.tail.dropWhile Char.isDigit else s2
  if ip = [] ∧ fp = [] then (0, false, s3)
  else
    let mag : ℚ := (digitsValue (ip ++ fp) : ℚ) / 10 ^ fp.length
    (if s.head? = some '-' then -mag else mag, true, s3)

/-- The (2,2) Padé approximant of the exponential. -/
def expPade (x : ℚ) : ℚ := ((x + 3) ^ 2 + 3) / ((x - 3) ^ 2 + 3)

/-- Exact rational arithmetic as the float library: IEEE-754 values of bit
patterns, exact decimal extraction, a rational approximant for `exp`. -/
def ratLib : FloatLib ℚ :=
  { exp := expPade, ofBits := ieeeValue, numGet := decimalGet }

/-- A file system holding one file. -/
def oneFile (path : String) (content : List Char) : String → Option (List Char) :=
  fun p => if p = path then some content else none

/-! ## Sample inputs -/

/-- The four bytes of a 32-bit word, least significant first. -/
def bytesLE (w : Nat) : List Char :=
  [Char.ofNat (w % 256), Char.ofNat (w / 256 % 256), Char.ofNat (w / 65536 % 256),
   Char.ofNat (w / 16777216 % 256)]

/-- The header of the end-to-end scenario: seven float properties, two vertices. -/
def scenarioHeader : List Char :=
  ("ply\nformat binary_little_endian 1.0\nelement vertex 2\nproperty float x\n"
    ++ "property float y\nproperty float z\nproperty float f_dc_0\nproperty float f_dc_1\n"
    ++ "property float f_dc_2\nproperty float opacity\nend_header\n").toList

/-- A 28-byte row: position (1, 2, 3), colour coefficients (0, 0.5, -1), opacity 0. -/
def scenarioRowA : List Char :=
  bytesLE 0x3f800000 ++ bytesLE 0x40000000 ++ bytesLE 0x40400000 ++ bytesLE 0
    ++ bytesLE 0x3f000000 ++ bytesLE 0xbf800000 ++ bytesLE 0

/-- A 28-byte row: position (4, 5, 6), colour coefficients (2, -2, 0), opacity 1. -/
def scenarioRowB : List Char :=
  bytesLE 0x40800000 ++ bytesLE 0x40a00000 ++ bytesLE 0x40c00000 ++ bytesLE 0x40000000
    ++ bytesLE 0xc0000000 ++ bytesLE 0 ++ bytesLE 0x3f800000

/-- The file of the end-to-end scenario: the header and two rows. -/
def scenarioFile : List Char := scenarioHeader ++ scenarioRowA ++ scenarioRowB

/-- The scenario file cut after its first row. -/
def cutFile : List Char := scenarioHeader ++ scenarioRowA

/-- A binary file declaring ten vertices of three floats and holding five rows. -/
def tenFiveFile : List Char :=
  ("ply\nformat binary_little_endian 1.0\nelement vertex 10\nproperty float x\n"
    ++ "property float y\nproperty float z\nend_header\n").toList
    ++ (List.replicate 5 (bytesLE 0x3f800000 ++ bytesLE 0x40000000 ++ bytesLE 0x40400000)).flatten

/-- An ASCII file whose schema has `X` in place of `x`, and all the other
consumed properties. -/
def upperXFile : List Char :=
  ("ply\nformat ascii 1.0\nelement vertex 1\nproperty float X\nproperty float y\n"
    ++ "property float z\nproperty float f_dc_0\nproperty float f_dc_1\n"
    ++ "property float f_dc_2\nproperty float opacity\nend_header\n1 2 3 4 5 6 7\n").toList

/-- An ASCII file with two `format` directives, the second one unrecognised. -/
def twoFormatFile : List Char :=
  ("ply\nformat ascii 1.0\nformat binary_big_endian 1.0\nelement vertex 1\n"
    ++ "property float x\nproperty float y\nproperty float z\nend_header\n1 2 3\n").toList

/-- A file whose only `format` directive names `binary_big_endian`. -/
def bigEndianFile : List Char :=
  ("ply\nformat binary_big_endian 1.0\nelement vertex 1\n"
    ++ "property float x\nproperty float y\nproperty float z\nend_header\n").toList

/-- An ASCII file with one row whose second token is not a number. -/
def stickyFile : List Char :=
  ("ply\nformat ascii 1.0\nelement vertex 1\n"
    ++ "property float x\nproperty float y\nproperty float z\nend_header\n1 abc 3\n").toList

/-- An ASCII file with `\r\n` line ends, a `uchar` property among the consumed
ones, and a row with more tokens than properties. -/
def asciiFile : List Char :=
  ("ply\r\nformat ascii 1.0\r\nelement vertex 2\r\nproperty float x\r\nproperty uchar y\r\n"
    ++ "property float z\r\nend_header\r\n1 2 3 4 5\r\n7 8\r\n").toList

/-- The text made of the given lines, each ended by `\n`, followed by `rest`. -/
def unlines (ls : List (List Char)) (rest : List Char) : List Char :=
  ls.foldr (fun l acc => l ++ '\n' :: acc) rest

/-- The lines of the scenario header between the magic line and `end_header`. -/
def scenarioLines : List (List Char) :=
  ["format binary_little_endian 1.0".toList, "element vertex 2".toList,
   "property float x".toList, "property float y".toList, "property float z".toList,
   "property float f_dc_0".toList, "property float f_dc_1".toList,
   "property float f_dc_2".toList, "property float opacity".toList]

/-- The header locals and data section of a file, with defaults when the magic
line is rejected. -/
def headerOfD (file : List Char) : HeaderState × List Char :=
  (headerOf file).getD (HeaderState.init, [])

/-- The identity matrix. -/
def identity4 : Fin 4 → Fin 4 → ℚ := fun i j => if i = j then 1 else 0

/-- A frame in which the device is available, every device call succeeds, and
the node's `filePath` is `path`. -/
def goodFrame (path : String) : FrameInput ℚ :=
  { device := true, filePath := path, pointSize := 4, world := identity4,
    viewProj := identity4, vpW := 1280, vpH := 720,
    initOutcomes :=
      { compileVS := true, compileGS := true, compilePS := true, createVS := true,
        createGS := true, createPS := true, createLayout := true, createCB := true,
        createBlend := true, createRS := true },
    uploadOutcomes := { createPos := true, createCol := true } }

/-- A draw override on a node with an empty dataset and no path loaded yet. -/
def freshOverride : DrawOverride ℚ :=
  { m_node := some GaussianData.init, m_loadedPath := "" }

/-- A dataset of one splat with stale flattened arrays. -/
def sampleData : GaussianData ℚ :=
  { splats := [{ position := ![1, 2, 3], f_dc := ![0, 2, -2], opacity := 0,
                 scale := fun _ => 0, rotation := fun _ => 0 }],
    positions := [9, 9], colors := [9] }

/-! ## Views of the header and sample inputs for the vertex count -/

/-- The text after `element vertex` on a header line that is such a directive:
what the count is extracted from. -/
def vertexCountText (line : List Char) : Option (List Char) :=
  if (extractWord line).1 = "element".toList
      ∧ (extractWord (extractWord line).2).1 = "vertex".toList then
    some (extractWord (extractWord line).2).2
  else none

/-- Whether a text starts, after white space and an optional sign, with a digit:
whether `operator>>` can extract an `int` from it. -/
def hasNumericCount (t : List Char) : Bool :=
  match t.dropWhile isSpace with
  | [] => false
  | c :: cs => ((if c = '-' ∨ c = '+' then cs else c :: cs).head?).any Char.isDigit

/-- A file with a recognised format, an `element vertex` directive without a
numeric count, and no `x` property. -/
def noCountFile : List Char :=
  ("ply\nformat ascii 1.0\nelement vertex many\nproperty float y\n"
    ++ "property float z\nend_header\n1 2\n").toList

/-! ## Sample states of the plug-in and of the device context -/

/-- The state after one prepare that loads and uploads the scenario file. -/
def loadedState : PluginState ℚ :=
  runPrepares ratLib PluginState.init
    [{ fs := oneFile "scene.ply" scenarioFile, frame := goodFrame "scene.ply" }]

/-- The user data of `loadedState`. -/
def loadedData : GaussianDrawData ℚ := loadedState.data.getD GaussianDrawData.init

/-- A frame like `goodFrame` in which the creation of the position buffer fails. -/
def failPosFrame (path : String) : FrameInput ℚ :=
  { goodFrame path with uploadOutcomes := { createPos := false, createCol := true } }

/-- The result of a first prepare of the scenario file in which the position
buffer cannot be created. -/
def failedUpload : DrawOverride ℚ × GaussianDrawData ℚ × Gpu :=
  prepareForDraw ratLib (oneFile "scene.ply" scenarioFile) freshOverride
    (failPosFrame "scene.ply") none Gpu.init

/-- A file with the scenario's schema, three vertices declared and three rows. -/
def threeFile : List Char :=
  ("ply\nformat binary_little_endian 1.0\nelement vertex 3\nproperty float x\n"
    ++ "property float y\nproperty float z\nproperty float f_dc_0\nproperty float f_dc_1\n"
    ++ "property float f_dc_2\nproperty float opacity\nend_header\n").toList
    ++ scenarioRowA ++ scenarioRowB ++ scenarioRowA

/-- A device context as the host may leave it before `draw`: triangle-list
topology (value 4) and objects of the host bound to the slots `draw` uses. -/
def hostContext : DeviceContext ℚ :=
  { blendState := some 100, blendFactor := fun _ => 0, sampleMask := 1, rsState := some 101,
    inputLayout := some 102, topology := 4,
    vertexBuffers := fun slot =>
      if slot = 0 then { buffer := some 103, stride := 32, offset := 0 }
      else { buffer := none, stride := 0, offset := 0 },
    vsShader := some 104,
    vsConstantBuffers := fun slot => if slot = 0 then some 105 else none,
    gsShader := none, gsConstantBuffers := fun _ => none, psShader := some 106,
    constantData := [], draws := [], refLog := [] }

/-- A uniform block: point size 4 on a 1280 by 720 viewport. -/
def sampleCB : CBPerObject ℚ :=
  { wvp := fun _ => 0, pointSize := 4, vpWidth := 1280, vpHeight := 720, pad := 0 }

/-- A vertex-shader output at clip position (2, 4, 1, 2). -/
def samplePoint : VS_OUT ℚ := { clip := ![2, 4, 1, 2], col := ![1, 1, 1, 1] }

/-! ## Ownership of the device objects -/

/-- The objects a `GaussianDrawData` holds: its non-null resource pointers. -/
def GaussianDrawData.held {F : Type} (d : GaussianDrawData F) : List Handle :=
  d.slots.reduceOption

/-- Every object created on the device is either held by exactly one pointer
of the user data and never released, or held by none and released exactly once;
and no other handle is held or released. -/
def ResourcesOwned {F : Type} (d : GaussianDrawData F) (g : Gpu) : Prop :=
  (d.held ++ g.released).Perm (List.range g.created.length)

/-- While `shadersReady` is false, the seven pointers `initShaders` assigns are
null. -/
def ShadersNull {F : Type} (d : GaussianDrawData F) : Prop :=
  d.shadersReady = false →
    d.vs = none ∧ d.gs = none ∧ d.ps = none ∧ d.inputLayout = none ∧ d.constBuf = none ∧
    d.blendState = none ∧ d.rsState = none

/-- One prepare that loads the scenario file, every device call succeeding. -/
def scenePrepares : List (PrepareInput ℚ) :=
  [{ fs := oneFile "scene.ply" scenarioFile, frame := goodFrame "scene.ply" }]

/-- A prepare whose path changed to the three-vertex file, every device call
succeeding. -/
def threePrepare : PrepareInput ℚ :=
  { fs := oneFile "three.ply" threeFile, frame := goodFrame "three.ply" }

/-- A prepare whose path changed to the three-vertex file, with a device on
which the position buffer cannot be created. -/
def threePrepareFailing : PrepareInput ℚ :=
  { fs := oneFile "three.ply" threeFile, frame := failPosFrame "three.ply" }

/-! ## Sample inputs for the shader step -/

/-- A frame like `goodFrame` in which `CreateVertexShader` fails. -/
def failVSFrame (path : String) : FrameInput ℚ :=
  { goodFrame path with
    initOutcomes := { (goodFrame path).initOutcomes with createVS := false } }

/-- A prepare of the scenario file in which `CreateVertexShader` fails and both
vertex buffers are created. -/
def sceneFailVS : PrepareInput ℚ :=
  { fs := oneFile "scene.ply" scenarioFile, frame := failVSFrame "scene.ply" }

/-- A prepare of the scenario file in which every device call succeeds. -/
def sceneGood : PrepareInput ℚ :=
  { fs := oneFile "scene.ply" scenarioFile, frame := goodFrame "scene.ply" }

/-- The dirty-flag invariant of a user data against the node's dataset: when
`vertexDirty` is false and the dataset is not empty, both vertex buffers are
non-null and `vertexCount` is the record count. -/
def UploadCurrent {F : Type} (node : Option (GaussianData F)) (d : GaussianDrawData F) : Prop :=
  d.vertexDirty = false → ∀ m, node = some m → m.empty = false →
    d.posBuf ≠ none ∧ d.colBuf ≠ none ∧ d.vertexCount = m.count

/-- Whether every object creation of an `initShaders` call succeeds (the three
compiles apart). -/
def InitOutcomes.createsOk (o : InitOutcomes) : Bool :=
  o.createVS && o.createGS && o.createPS && o.createLayout && o.createCB && o.createBlend
    && o.createRS

/-- A file of 109 bytes: an ASCII header declaring 4294967297 vertices with
`x`, `y` and `z`, and no data. -/
def hugeCountFile : List Char :=
  ("ply\nformat ascii 1.0\nelement vertex 4294967297\nproperty float x\n"
    ++ "property float y\nproperty float z\nend_header\n").toList

/-- A heap that provides a block of up to 16 GiB. -/
def heap16GiB : Nat → Bool := fun n => decide (n ≤ 17179869184)

/-! # Theorems -/

section Theorems

variable {F : Type} [LinearOrderedField F]

/-! ## Flattening and colour conversion -/

/-- The loop of `buildGPUArrays` appends to each accumulator a list of three,
respectively four, entries per splat, in splat order. -/
theorem foldl_pushSplat (L : FloatLib F) (splats : List (GaussianSplat F)) :
    ∀ acc : List F × List F, ∃ p q : List F,
      splats.foldl (pushSplat L) acc = (acc.1 ++ p, acc.2 ++ q) ∧
      p.length = 3 * splats.length ∧ q.length = 4 * splats.length ∧
      ∀ (i : Nat) (s : GaussianSplat F), splats[i]? = some s →
        p[3 * i]? = some (s.position 0) ∧ p[3 * i + 1]? = some (s.position 1) ∧
        p[3 * i + 2]? = some (s.position 2) ∧
        q[4 * i]? = some (shToLinear kSH_C0 (s.f_dc 0)) ∧
        q[4 * i + 1]? = some (shToLinear kSH_C0 (s.f_dc 1)) ∧
        q[4 * i + 2]? = some (shToLinear kSH_C0 (s.f_dc 2)) ∧
        q[4 * i + 3]? = some (sigmoid L.exp s.opacity) := by
  induction splats with
  | nil => intro acc; exact ⟨[], [], by simp⟩
  | cons s ss ih =>
    intro acc
    obtain ⟨p, q, hfold, hp, hc, hidx⟩ := ih (pushSplat L acc s)
    refine ⟨[s.position 0, s.position 1, s.position 2] ++ p,
      [shToLinear kSH_C0 (s.f_dc 0), shToLinear kSH_C0 (s.f_dc 1),
        shToLinear kSH_C0 (s.f_dc 2), sigmoid L.exp s.opacity] ++ q, ?_, ?_, ?_, ?_⟩
    · rw [List.foldl_cons, hfold]; simp [pushSplat]
    · simp [hp]; ring
    · simp [hc]; ring
    · intro i t hi
      cases i with
      | zero =>
        simp at hi; subst hi; simp
      | succ j =>
        simp at hi
        obtain ⟨h0, h1, h2, h3, h4, h5, h6⟩ := hidx j t hi
        have e3 : 3 * (j + 1) = (3 * j) + 3 := by ring
        have e4 : 4 * (j + 1) = (4 * j) + 4 := by ring
        rw [e3, e4]
        refine ⟨?_, ?_, ?_, ?_, ?_, ?_, ?_⟩
        · simpa using h0
        · have : 3 * j + 3 + 1 = (3 * j + 1) + 3 := by ring
          rw [this]; simpa using h1
        · have : 3 * j + 3 + 2 = (3 * j + 2) + 3 := by ring
          rw [this]; simpa using h2
        · simpa using h3
        · have : 4 * j + 4 + 1 = (4 * j + 1) + 4 := by ring
          rw [this]; simpa using h4
        · have : 4 * j + 4 + 2 = (4 * j + 2) + 4 := by ring
          rw [this]; simpa using h5
        · have : 4 * j + 4 + 3 = (4 * j + 3) + 4 := by ring
          rw [this]; simpa using h6


/-- Claim C6. For every dataset, whatever its `positions` and `colors` hold,
`buildGPUArrays` leaves `positions` with `3 * splats.length` entries and
`colors` with `4 * splats.length` entries, and for every record `i`:
`positions[3i+k] = splats[i].position[k]`, `colors[4i+k] =
shToLinear(splats[i].f_dc[k])` for `k = 0, 1, 2`, and `colors[4i+3] =
sigmoid(splats[i].opacity)`. -/
theorem buildGPUArrays_layout (L : FloatLib F) (d : GaussianData F) :
    (d.buildGPUArrays L).positions.length = 3 * d.splats.length ∧
    (d.buildGPUArrays L).colors.length = 4 * d.splats.length ∧
    ∀ (i : Nat) (s : GaussianSplat F), d.splats[i]? = some s →
      (∀ k : Fin 3, (d.buildGPUArrays L).positions[3 * i + k.val]? = some (s.position k)) ∧
      (∀ k : Fin 3, (d.buildGPUArrays L).colors[4 * i + k.val]?
          = some (shToLinear kSH_C0 (s.f_dc k))) ∧
      (d.buildGPUArrays L).colors[4 * i + 3]? = some (sigmoid L.exp s.opacity) := by
  obtain ⟨p, q, hfold, hp, hc, hidx⟩ := foldl_pushSplat L d.splats ([], [])
  have hP : (d.buildGPUArrays L).positions = p := by
    simp [GaussianData.buildGPUArrays, hfold]
  have hC : (d.buildGPUArrays L).colors = q := by
    simp [GaussianData.buildGPUArrays, hfold]
  rw [hP, hC]
  refine ⟨hp, hc, ?_⟩
  intro i s hi
  obtain ⟨h0, h1, h2, h3, h4, h5, h6⟩ := hidx i s hi
  refine ⟨?_, ?_, h6⟩
  · intro k; fin_cases k
    · simpa using h0
    · simpa using h1
    · simpa using h2
  · intro k; fin_cases k
    · simpa using h3
    · simpa using h4
    · simpa using h5

/-- Witness of C6 on `sampleData`, whose arrays are stale before the call. -/
theorem buildGPUArrays_layout_witness :
    sampleData.splats[0]? = some
        { position := ![1, 2, 3], f_dc := ![0, 2, -2], opacity := 0,
          scale := fun _ => 0, rotation := fun _ => 0 } ∧
      (sampleData.buildGPUArrays ratLib).positions[3 * 0 + (1 : Fin 3).val]? = some 2 :=
  ⟨rfl, ((buildGPUArrays_layout ratLib sampleData).2.2 0 _ rfl).1 1⟩

/-- Claim C7. Over exact arithmetic, `shToLinear` with a positive constant `K0`
is `clamp(0.5 + K0 * c, 0, 1)`: it is monotonically non-decreasing, takes values
in `[0, 1]`, is `0.5` at `0`, is `1` for every `c ≥ 0.5 / K0` and `0` for every
`c ≤ -0.5 / K0`. -/
theorem shToLinear_clamp (K0 : F) (hK : 0 < K0) :
    (∀ c : F, shToLinear K0 c = max 0 (min 1 (1 / 2 + K0 * c))) ∧
    Monotone (shToLinear K0) ∧
    (∀ c : F, 0 ≤ shToLinear K0 c ∧ shToLinear K0 c ≤ 1) ∧
    shToLinear K0 0 = 1 / 2 ∧
    (∀ c : F, (1 / 2) / K0 ≤ c → shToLinear K0 c = 1) ∧
    (∀ c : F, c ≤ -((1 / 2) / K0) → shToLinear K0 c = 0) := by
  have hform : ∀ c : F, shToLinear K0 c = max 0 (min 1 (1 / 2 + K0 * c)) := by
    intro c
    unfold shToLinear
    simp only
    split_ifs with h1 h2
    · rw [max_eq_left]; exact le_trans (min_le_right _ _) (le_of_lt h1)
    · rw [min_eq_left (le_of_lt h2), max_eq_right]; exact zero_le_one
    · rw [min_eq_right (not_lt.mp h2), max_eq_right (not_lt.mp h1)]
  refine ⟨hform, ?_, ?_, ?_, ?_, ?_⟩
  · intro a b hab
    rw [hform a, hform b]
    have : 1 / 2 + K0 * a ≤ 1 / 2 + K0 * b :=
      add_le_add_left (mul_le_mul_of_nonneg_left hab (le_of_lt hK)) _
    exact max_le_max le_rfl (min_le_min le_rfl this)
  · intro c
    rw [hform c]
    exact ⟨le_max_left _ _, max_le zero_le_one (min_le_left _ _)⟩
  · rw [hform 0]
    have h1 : (1 / 2 : F) + K0 * 0 = 1 / 2 := by ring
    have h2 : (0 : F) ≤ 1 / 2 := by positivity
    have h3 : (1 / 2 : F) ≤ 1 := by
      rw [div_le_iff₀ (by norm_num : (0 : F) < 2)]; norm_num
    rw [h1, min_eq_right h3, max_eq_right h2]
  · intro c hc
    rw [hform c]
    have h : (1 : F) ≤ 1 / 2 + K0 * c := by
      have := (div_le_iff₀ hK).mp hc
      rw [mul_comm] at this
      linarith
    rw [min_eq_left h, max_eq_right zero_le_one]
  · intro c hc
    rw [hform c]
    have h : 1 / 2 + K0 * c ≤ (0 : F) := by
      have h' : (1 / 2) / K0 ≤ -c := by linarith
      have := (div_le_iff₀ hK).mp h'
      rw [mul_comm] at this
      linarith
    rw [max_eq_left (le_trans (min_le_right _ _) h)]


/-- Witness of C7 at the program's constant `kSH_C0`. -/
theorem shToLinear_clamp_witness :
    (0 : ℚ) < kSH_C0 ∧ shToLinear (kSH_C0 : ℚ) 0 = 1 / 2 :=
  ⟨by norm_num [kSH_C0], (shToLinear_clamp (kSH_C0 : ℚ) (by norm_num [kSH_C0])).2.2.2.1⟩


/-! ## Streams and loops of the reader -/

theorem getline_length {s raw rest : List Char} (h : getline s = some (raw, rest)) :
    rest.length < s.length := by
  cases s with
  | nil => simp [getline] at h
  | cons c cs =>
    simp only [getline, Option.some.injEq, Prod.mk.injEq] at h
    rw [← h.2]
    have h1 : ((c :: cs).dropWhile (fun c => c != '\n')).length ≤ (c :: cs).length :=
      (List.dropWhile_sublist _).length_le
    rw [List.length_drop]
    have : 0 < (c :: cs).length := by simp
    omega

theorem parseHeader_fuel (n : Nat) : ∀ (st : HeaderState) (s : List Char), s.length ≤ n →
    parseHeader n st s = parseHeader s.length st s := by
  induction n using Nat.strong_induction_on with
  | _ n ih =>
    intro st s hs
    cases n with
    | zero =>
      have : s = [] := List.length_eq_zero.mp (Nat.le_zero.mp hs)
      subst this; rfl
    | succ m =>
      cases hg : getline s with
      | none =>
        cases s with
        | nil => simp [parseHeader, getline]
        | cons c cs => simp [getline] at hg
      | some p =>
        obtain ⟨raw, rest⟩ := p
        have hlt := getline_length hg
        cases s with
        | nil => simp [getline] at hg
        | cons c cs =>
          simp only [List.length_cons] at hlt hs ⊢
          simp only [parseHeader, hg]
          split_ifs with he
          · rfl
          · rw [ih m (Nat.lt_succ_self m) _ rest (by omega)]
            exact (ih cs.length (by omega) _ rest (by omega)).symm

theorem readBinaryRows_length (L : FloatLib F) (props : List PropDef) (offsets : List Nat)
    (rowBytes : Nat) (ix : FieldIdx) (n : Nat) :
    ∀ (i : Nat) (s : List Char) (splats : List (GaussianSplat F)),
      (readBinaryRows L props offsets rowBytes ix n i s splats).2.length = splats.length := by
  induction n with
  | zero => intro i s splats; rfl
  | succ n ih =>
    intro i s splats
    simp only [readBinaryRows]
    split_ifs with h
    · rfl
    · rw [ih]; simp

theorem readBinaryRows_ok (L : FloatLib F) (props : List PropDef) (offsets : List Nat)
    (rowBytes : Nat) (ix : FieldIdx) (n : Nat) :
    ∀ (i : Nat) (s : List Char) (splats : List (GaussianSplat F)),
      ((readBinaryRows L props offsets rowBytes ix n i s splats).1 = true ↔
        n * rowBytes ≤ s.length) := by
  induction n with
  | zero => intro i s splats; simp [readBinaryRows]
  | succ n ih =>
    intro i s splats
    simp only [readBinaryRows]
    split_ifs with h
    · constructor
      · intro hf; cases hf
      · intro hle
        have : rowBytes ≤ (n + 1) * rowBytes := Nat.le_mul_of_pos_left _ (Nat.succ_pos n)
        omega
    · rw [ih, List.length_drop, Nat.succ_mul]
      omega

theorem readBinaryRows_get (L : FloatLib F) (props : List PropDef) (offsets : List Nat)
    (rowBytes : Nat) (ix : FieldIdx) (n : Nat) :
    ∀ (i : Nat) (s : List Char) (splats : List (GaussianSplat F)),
      i + n ≤ splats.length →
      (∀ j, j < i → (readBinaryRows L props offsets rowBytes ix n i s splats).2[j]? = splats[j]?) ∧
      (∀ k, k < n → (k + 1) * rowBytes ≤ s.length →
        (readBinaryRows L props offsets rowBytes ix n i s splats).2[i + k]? =
          some (decodeBinaryRow L props offsets ix ((s.drop (k * rowBytes)).take rowBytes)
            (splats.getD (i + k) GaussianSplat.zero))) := by
  induction n with
  | zero => intro i s splats _; simp [readBinaryRows]
  | succ n ih =>
    intro i s splats hlen
    by_cases h : s.length < rowBytes
    · simp only [readBinaryRows, h, if_true]
      refine ⟨fun j _ => trivial, fun k _ hk => ?_⟩
      have : rowBytes ≤ (k + 1) * rowBytes := Nat.le_mul_of_pos_left _ (Nat.succ_pos k)
      omega
    · simp only [readBinaryRows, h, if_false]
      obtain ⟨hlow, hhigh⟩ := ih (i + 1) (s.drop rowBytes)
        (splats.set i (decodeBinaryRow L props offsets ix (s.take rowBytes)
          (splats.getD i GaussianSplat.zero))) (by simp; omega)
      constructor
      · intro j hj
        rw [hlow j (by omega), List.getElem?_set_ne (by omega)]
      · intro k hk hrow
        cases k with
        | zero =>
          have h0 := hlow i (by omega)
          simp only [Nat.add_zero, Nat.zero_mul, List.drop_zero]
          rw [h0, List.getElem?_set_self (by omega)]
        | succ k =>
          have hrow2 : (k + 1) * rowBytes ≤ (s.drop rowBytes).length := by
            rw [List.length_drop]
            have : (k + 1 + 1) * rowBytes = (k + 1) * rowBytes + rowBytes := Nat.succ_mul _ _
            omega
          have := hhigh k (by omega) hrow2
          rw [show i + (k + 1) = i + 1 + k by omega, this]
          congr 2
          · rw [List.drop_drop]; congr 1; ring_nf
          · simp only [List.getD_eq_getElem?_getD]
            rw [List.getElem?_set_ne (by omega)]

theorem lineCount_nil : lineCount [] = 0 := by simp [lineCount]

theorem lineCount_cons_newline (cs : List Char) :
    lineCount ('\n' :: cs) = lineCount cs + 1 := by
  cases cs with
  | nil => simp [lineCount]
  | cons d ds =>
    simp only [lineCount, List.count_cons_self, List.getLast?_cons_cons]
    simp
    omega

theorem lineCount_cons_other (c : Char) (cs : List Char) (hc : c ≠ '\n') (hcs : cs ≠ []) :
    lineCount (c :: cs) = lineCount cs := by
  cases cs with
  | nil => exact absurd rfl hcs
  | cons d ds =>
    simp only [lineCount, List.getLast?_cons_cons]
    rw [List.count_cons_of_ne (Ne.symm hc)]
    simp

theorem lineCount_single (c : Char) (hc : c ≠ '\n') : lineCount [c] = 1 := by
  simp [lineCount, List.count_cons_of_ne (Ne.symm hc), hc]

theorem getline_cons_newline (cs : List Char) : getline ('\n' :: cs) = some ([], cs) := by
  simp [getline]

theorem getline_cons_other (c : Char) (cs : List Char) (hc : c ≠ '\n') :
    getline (c :: cs) = some (c :: cs.takeWhile (fun c => c != '\n'),
      (cs.dropWhile (fun c => c != '\n')).drop 1) := by
  simp [getline, hc]

theorem getline_lineCount : ∀ (s raw rest : List Char), getline s = some (raw, rest) →
    lineCount s = lineCount rest + 1 := by
  intro s
  induction s with
  | nil => intro raw rest h; simp [getline] at h
  | cons c cs ih =>
    intro raw rest h
    by_cases hc : c = '\n'
    · subst hc
      rw [getline_cons_newline] at h
      simp only [Option.some.injEq, Prod.mk.injEq] at h
      rw [← h.2, lineCount_cons_newline]
    · rw [getline_cons_other c cs hc] at h
      simp only [Option.some.injEq, Prod.mk.injEq] at h
      cases cs with
      | nil =>
        simp at h
        obtain ⟨_, h2⟩ := h
        subst h2
        rw [lineCount_single c hc, lineCount_nil]
      | cons d ds =>
        rw [lineCount_cons_other c (d :: ds) hc (by simp)]
        have := ih ((d :: ds).takeWhile (fun c => c != '\n'))
          (((d :: ds).dropWhile (fun c => c != '\n')).drop 1) rfl
        rw [this, ← h.2]

theorem getline_none {s : List Char} (h : getline s = none) : s = [] := by
  cases s with
  | nil => rfl
  | cons c cs => simp [getline] at h

theorem readAsciiRows_length (L : FloatLib F) (props : List PropDef) (ix : FieldIdx) (n : Nat) :
    ∀ (i : Nat) (s : List Char) (splats : List (GaussianSplat F)),
      (readAsciiRows L props ix n i s splats).2.length = splats.length := by
  induction n with
  | zero => intro i s splats; rfl
  | succ n ih =>
    intro i s splats
    cases hg : getline s with
    | none => simp [readAsciiRows, hg]
    | some p => simp [readAsciiRows, hg, ih]

theorem readAsciiRows_ok (L : FloatLib F) (props : List PropDef) (ix : FieldIdx) (n : Nat) :
    ∀ (i : Nat) (s : List Char) (splats : List (GaussianSplat F)),
      ((readAsciiRows L props ix n i s splats).1 = true ↔ n ≤ lineCount s) := by
  induction n with
  | zero => intro i s splats; simp [readAsciiRows]
  | succ n ih =>
    intro i s splats
    cases hg : getline s with
    | none =>
      have := getline_none hg
      subst this
      simp [readAsciiRows, getline, lineCount_nil]
    | some p =>
      obtain ⟨raw, rest⟩ := p
      simp only [readAsciiRows, hg]
      rw [ih, getline_lineCount s raw rest hg]
      omega

theorem readAsciiRows_get (L : FloatLib F) (props : List PropDef) (ix : FieldIdx) (n : Nat) :
    ∀ (i : Nat) (s : List Char) (splats : List (GaussianSplat F)),
      i + n ≤ splats.length →
      (∀ j, j < i → (readAsciiRows L props ix n i s splats).2[j]? = splats[j]?) ∧
      (∀ k, k < n → ∀ line, nthLine k s = some line →
        (readAsciiRows L props ix n i s splats).2[i + k]? =
          some (decodeAsciiRow L props ix line (splats.getD (i + k) GaussianSplat.zero))) := by
  induction n with
  | zero => intro i s splats _; simp [readAsciiRows]
  | succ n ih =>
    intro i s splats hlen
    cases hg : getline s with
    | none =>
      simp only [readAsciiRows, hg]
      refine ⟨fun j _ => trivial, fun k _ line hline => ?_⟩
      cases k <;> simp [nthLine, hg] at hline
    | some p =>
      obtain ⟨raw, rest⟩ := p
      simp only [readAsciiRows, hg]
      obtain ⟨hlow, hhigh⟩ := ih (i + 1) rest
        (splats.set i (decodeAsciiRow L props ix (stripCR raw)
          (splats.getD i GaussianSplat.zero))) (by simp; omega)
      constructor
      · intro j hj
        rw [hlow j (by omega), List.getElem?_set_ne (by omega)]
      · intro k hk line hline
        cases k with
        | zero =>
          simp only [nthLine, hg, Option.map_some', Option.some.injEq] at hline
          have h0 := hlow i (by omega)
          simp only [Nat.add_zero]
          rw [h0, List.getElem?_set_self (by omega), hline]
        | succ k =>
          simp only [nthLine, hg, Option.some_bind] at hline
          have hval := hhigh k (by omega) line hline
          rw [show i + (k + 1) = i + 1 + k by omega, hval]
          congr 2
          simp only [List.getD_eq_getElem?_getD]
          rw [List.getElem?_set_ne (by omega)]

/-! ## Property lookup and row layout -/

theorem findFrom_eq (name : List Char) : ∀ (props : List PropDef) (i : Nat),
    findFrom name props i =
      if props.findIdx (fun p => decide (p.name = name)) < props.length
      then ((i + props.findIdx (fun p => decide (p.name = name)) : Nat) : Int) else -1 := by
  intro props
  induction props with
  | nil => intro i; simp [findFrom]
  | cons p ps ih =>
    intro i
    by_cases hp : p.name = name
    · simp [findFrom, hp, List.findIdx_cons]
    · simp only [findFrom, hp, if_false, List.findIdx_cons, decide_False, cond_false,
        List.length_cons, Nat.succ_lt_succ_iff]
      rw [ih (i + 1)]
      split_ifs with h
      · congr 1; omega
      · rfl

theorem find_eq (props : List PropDef) (name : String) :
    find props name =
      if firstNamed props name < props.length then (firstNamed props name : Int) else -1 := by
  unfold find firstNamed
  rw [findFrom_eq]
  simp

theorem firstNamed_lt_iff (props : List PropDef) (name : String) :
    firstNamed props name < props.length ↔ ∃ p ∈ props, p.name = name.toList := by
  unfold firstNamed
  rw [List.findIdx_lt_length]
  simp

theorem find_neg_iff (props : List PropDef) (name : String) :
    find props name < 0 ↔ ∀ p ∈ props, p.name ≠ name.toList := by
  rw [find_eq]
  have := firstNamed_lt_iff props name
  split_ifs with h
  · constructor
    · intro hneg; omega
    · intro hall
      obtain ⟨p, hp, hn⟩ := this.mp h
      exact absurd hn (hall p hp)
  · constructor
    · intro _ p hp hn
      exact h (this.mpr ⟨p, hp, hn⟩)
    · intro _; omega

theorem layout_foldl : ∀ (props : List PropDef) (offs : List Nat) (rb : Nat),
    props.foldl (fun acc p => (acc.1 ++ [acc.2], acc.2 + p.byteSize)) (offs, rb) =
      (offs ++ (List.range props.length).map (fun j => rb + widthSum (props.take j)),
        rb + widthSum props) := by
  intro props
  induction props with
  | nil => intro offs rb; simp [widthSum]
  | cons p ps ih =>
    intro offs rb
    rw [List.foldl_cons, ih]
    simp only [List.length_cons, List.range_succ_eq_map, List.map_cons, List.map_map,
      List.append_assoc, List.singleton_append, Prod.mk.injEq]
    constructor
    · congr 1
      simp only [widthSum, List.take_zero, List.map_nil, List.sum_nil, Nat.add_zero,
        List.cons.injEq, true_and]
      apply List.map_congr_left
      intro j _
      simp [Nat.add_assoc]
    · simp [widthSum, Nat.add_assoc]

theorem layout_rowBytes (props : List PropDef) : (layout props).2 = widthSum props := by
  unfold layout; rw [layout_foldl]; simp

theorem layout_offsets (props : List PropDef) (j : Nat) (hj : j < props.length) :
    (layout props).1.getD j 0 = widthSum (props.take j) := by
  unfold layout; rw [layout_foldl]
  simp [hj]

theorem getf_eq_rowField (L : FloatLib F) (props : List PropDef) (row : List Char)
    (name : String) :
    getf L props (layout props).1 row (find props name) = rowField L props row name := by
  unfold getf rowField
  rw [find_eq]
  by_cases h : firstNamed props name < props.length
  · simp only [h, if_true, true_and]
    have hnn : ¬ ((firstNamed props name : Int) < 0) := by omega
    simp only [hnn, false_or, Int.toNat_ofNat]
    rw [layout_offsets props _ h]
    generalize (props.getD (firstNamed props name) default).isFloat = b
    cases b <;> simp
  · simp [h]

/-! ## The reader -/

theorem read_of_headerOf (L : FloatLib F) (fs : String → Option (List Char)) (path : String)
    (out : GaussianData F) (err : String) (file : List Char) (st : HeaderState)
    (data : List Char) (hf : fs path = some file) (hh : headerOf file = some (st, data)) :
    read L fs path out err = readBody L st data out err := by
  cases hg : getline file with
  | none => simp [headerOf, hg] at hh
  | some p =>
    obtain ⟨first, rest⟩ := p
    cases hc : containsSub "ply".toList first with
    | false =>
      simp only [headerOf, hg, hc] at hh
      simp at hh
    | true =>
      simp only [headerOf, hg, hc] at hh
      simp only [Bool.true_eq_false, if_false, Option.some.injEq] at hh
      simp only [read, hf, hg, hc, Bool.true_eq_false, if_false, hh]

theorem read_ok_headerOf (L : FloatLib F) (fs : String → Option (List Char)) (path : String)
    (out : GaussianData F) (err : String) (hok : (read L fs path out err).ok = true) :
    ∃ file st data, fs path = some file ∧ headerOf file = some (st, data) := by
  cases hf : fs path with
  | none => simp [read, hf] at hok
  | some file =>
    cases hg : getline file with
    | none => simp [read, hf, hg] at hok
    | some p =>
      obtain ⟨first, rest⟩ := p
      cases hc : containsSub "ply".toList first with
      | false =>
        simp only [read, hf, hg, hc] at hok
        simp at hok
      | true =>
        refine ⟨file, (parseHeader rest.length HeaderState.init rest).1,
          (parseHeader rest.length HeaderState.init rest).2, rfl, ?_⟩
        simp only [headerOf, hg, hc, Bool.true_eq_false, if_false]

theorem accepted_iff (st : HeaderState) :
    st.accepted ↔ st.format ≠ PLYFormat.Unknown ∧ 0 < st.vertexCount ∧
      ¬ ((fieldIdx st.props).iX < 0 ∨ (fieldIdx st.props).iY < 0 ∨ (fieldIdx st.props).iZ < 0) := by
  unfold HeaderState.accepted fieldIdx
  simp only [find_neg_iff]
  constructor
  · rintro ⟨h1, h2, ⟨p, hp, hpx⟩, ⟨q, hq, hqy⟩, ⟨r, hr, hrz⟩⟩
    refine ⟨h1, h2, ?_⟩
    rintro (h | h | h)
    · exact h p hp hpx
    · exact h q hq hqy
    · exact h r hr hrz
  · rintro ⟨h1, h2, h3⟩
    push_neg at h3
    exact ⟨h1, h2, h3.1, h3.2.1, h3.2.2⟩

/-- On an accepted header the reader's result is decided by the row loop of the
declared format. -/
theorem readBody_accepted (L : FloatLib F) (st : HeaderState) (data : List Char)
    (out : GaussianData F) (err : String) (hacc : st.accepted) :
    readBody L st data out err =
      if st.format = PLYFormat.BinaryLE then
        (let r := readBinaryRows L st.props (layout st.props).1 (layout st.props).2
            (fieldIdx st.props) st.vertexCount.toNat 0 data
            (List.replicate st.vertexCount.toNat GaussianSplat.zero)
         if r.1 = false then
           { ok := false, outData := { out.clear with splats := r.2 },
             errorMsg := "Unexpected EOF in binary data" }
         else
           { ok := true, outData := GaussianData.buildGPUArrays L { out.clear with splats := r.2 },
             errorMsg := err })
      else
        (let r := readAsciiRows L st.props (fieldIdx st.props) st.vertexCount.toNat 0 data
            (List.replicate st.vertexCount.toNat GaussianSplat.zero)
         if r.1 = false then
           { ok := false, outData := { out.clear with splats := r.2 },
             errorMsg := "Unexpected EOF in ASCII data" }
         else
           { ok := true, outData := GaussianData.buildGPUArrays L { out.clear with splats := r.2 },
             errorMsg := err }) := by
  obtain ⟨h1, h2, h3⟩ := (accepted_iff st).mp hacc
  unfold readBody
  rw [if_neg h1, if_neg (not_le.mpr h2)]
  simp only
  rw [if_neg h3]

theorem readBody_ok_accepted (L : FloatLib F) (st : HeaderState) (data : List Char)
    (out : GaussianData F) (err : String) (hok : (readBody L st data out err).ok = true) :
    st.accepted := by
  rw [accepted_iff]
  unfold readBody at hok
  by_cases h1 : st.format = PLYFormat.Unknown
  · rw [if_pos h1] at hok; simp at hok
  · rw [if_neg h1] at hok
    by_cases h2 : st.vertexCount ≤ 0
    · rw [if_pos h2] at hok; simp at hok
    · rw [if_neg h2] at hok
      simp only at hok
      by_cases h3 : (fieldIdx st.props).iX < 0 ∨ (fieldIdx st.props).iY < 0 ∨
          (fieldIdx st.props).iZ < 0
      · rw [if_pos h3] at hok; simp at hok
      · exact ⟨h1, not_le.mp h2, h3⟩

theorem readBody_ok_splats (L : FloatLib F) (st : HeaderState) (data : List Char)
    (out : GaussianData F) (err : String) (hok : (readBody L st data out err).ok = true) :
    (readBody L st data out err).outData.splats.length = st.vertexCount.toNat := by
  have hacc := readBody_ok_accepted L st data out err hok
  rw [readBody_accepted L st data out err hacc] at hok ⊢
  split_ifs at hok ⊢ with hb
  · simp only at hok ⊢
    split_ifs at hok ⊢ with hr
    simp [GaussianData.buildGPUArrays, readBinaryRows_length]
  · simp only at hok ⊢
    split_ifs at hok ⊢ with hr
    simp [GaussianData.buildGPUArrays, readAsciiRows_length]

theorem isDigit_not_special (d : Char) (hd : d.isDigit = true) :
    isSpace d = false ∧ d ≠ '-' ∧ d ≠ '+' ∧ d ≠ '.' := by
  refine ⟨?_, ?_, ?_, ?_⟩
  · cases h : isSpace d with
    | false => rfl
    | true =>
      simp only [isSpace, Bool.or_eq_true, decide_eq_true_eq] at h
      rcases h with ((((h | h) | h) | h) | h) | h <;> subst h <;> simp at hd
  · intro h; subst h; simp at hd
  · intro h; subst h; simp at hd
  · intro h; subst h; simp at hd

/-- Claim C3. On a file with a valid magic line whose header gives a recognised
format and a positive vertex count, if the vertex schema has no property named
exactly `x`, or none named exactly `y`, or none named exactly `z`, `read`
returns false with the missing-position message, whatever other properties
are present, and leaves the dataset as it was. -/
theorem read_missing_position (L : FloatLib F) (fs : String → Option (List Char))
    (path : String) (out : GaussianData F) (err : String) (file : List Char)
    (st : HeaderState) (data : List Char)
    (hf : fs path = some file) (hh : headerOf file = some (st, data))
    (hfmt : st.format ≠ PLYFormat.Unknown) (hcnt : 0 < st.vertexCount)
    (hmiss : (∀ p ∈ st.props, p.name ≠ "x".toList) ∨ (∀ p ∈ st.props, p.name ≠ "y".toList)
      ∨ (∀ p ∈ st.props, p.name ≠ "z".toList)) :
    (read L fs path out err).ok = false ∧
    (read L fs path out err).errorMsg = "PLY missing position properties (x/y/z)" ∧
    (read L fs path out err).outData = out := by
  rw [read_of_headerOf L fs path out err file st data hf hh]
  have h3 : (fieldIdx st.props).iX < 0 ∨ (fieldIdx st.props).iY < 0 ∨
      (fieldIdx st.props).iZ < 0 := by
    unfold fieldIdx
    simp only [find_neg_iff]
    exact hmiss
  unfold readBody
  rw [if_neg hfmt, if_neg (not_le.mpr hcnt)]
  simp only
  rw [if_pos h3]
  exact ⟨rfl, rfl, rfl⟩

/-- Truncated data in a run in which the records are allocated.  On a file
whose header is accepted: in binary mode, if the data section holds fewer than
`vertexCount * rowBytes` bytes, `read` returns false with the binary
unexpected-EOF message; in ASCII mode, if it holds fewer than `vertexCount`
lines, `read` returns false with the ASCII unexpected-EOF message; and whenever
`read` returns true the dataset holds all `vertexCount` records, never fewer. -/
theorem read_truncated (L : FloatLib F) (fs : String → Option (List Char))
    (path : String) (out : GaussianData F) (err : String) (file : List Char)
    (st : HeaderState) (data : List Char)
    (hf : fs path = some file) (hh : headerOf file = some (st, data))
    (hacc : st.accepted) :
    (st.format = PLYFormat.BinaryLE →
      data.length < st.vertexCount.toNat * widthSum st.props →
      (read L fs path out err).ok = false ∧
      (read L fs path out err).errorMsg = "Unexpected EOF in binary data") ∧
    (st.format = PLYFormat.ASCII →
      lineCount data < st.vertexCount.toNat →
      (read L fs path out err).ok = false ∧
      (read L fs path out err).errorMsg = "Unexpected EOF in ASCII data") ∧
    ((read L fs path out err).ok = true →
      (read L fs path out err).outData.count = st.vertexCount.toNat) := by
  rw [read_of_headerOf L fs path out err file st data hf hh]
  refine ⟨?_, ?_, fun hok => readBody_ok_splats L st data out err hok⟩
  · intro hb hlen
    rw [readBody_accepted L st data out err hacc, if_pos hb]
    simp only
    have hr : (readBinaryRows L st.props (layout st.props).1 (layout st.props).2
        (fieldIdx st.props) st.vertexCount.toNat 0 data
        (List.replicate st.vertexCount.toNat GaussianSplat.zero)).1 = false := by
      rw [Bool.eq_false_iff, Ne, readBinaryRows_ok, layout_rowBytes]
      omega
    rw [if_pos hr]
    exact ⟨rfl, rfl⟩
  · intro ha hlen
    have hb : st.format ≠ PLYFormat.BinaryLE := by rw [ha]; decide
    rw [readBody_accepted L st data out err hacc, if_neg hb]
    simp only
    have hr : (readAsciiRows L st.props (fieldIdx st.props) st.vertexCount.toNat 0 data
        (List.replicate st.vertexCount.toNat GaussianSplat.zero)).1 = false := by
      rw [Bool.eq_false_iff, Ne, readAsciiRows_ok]
      omega
    rw [if_pos hr]
    exact ⟨rfl, rfl⟩

/-! ## Binary rows -/

theorem mkProp_eq (ty nm : List Char) :
    mkProp ty nm = { name := nm, byteSize := declaredWidth ty, isFloat := declaredFloat ty } := by
  unfold mkProp declaredWidth declaredFloat
  by_cases h1 : ty = "float".toList ∨ ty = "float32".toList
  · rcases h1 with h | h <;> subst h <;> simp
  · rw [if_neg h1]
    by_cases h2 : ty = "double".toList ∨ ty = "float64".toList
    · rcases h2 with h | h <;> subst h <;> simp
    · rw [if_neg h2]
      by_cases h3 : ty = "uchar".toList ∨ ty = "uint8".toList
      · rcases h3 with h | h <;> subst h <;> simp
      · rw [if_neg h3, if_neg h2, if_neg h3]
        simp only [h1, decide_False, ite_self]

theorem readBody_binary_splats (L : FloatLib F) (st : HeaderState) (data : List Char)
    (out : GaussianData F) (err : String) (hacc : st.accepted)
    (hfmt : st.format = PLYFormat.BinaryLE) :
    (readBody L st data out err).outData.splats =
      (readBinaryRows L st.props (layout st.props).1 (layout st.props).2
        (fieldIdx st.props) st.vertexCount.toNat 0 data
        (List.replicate st.vertexCount.toNat GaussianSplat.zero)).2 := by
  rw [readBody_accepted L st data out err hacc, if_pos hfmt]
  simp only
  split_ifs <;> rfl

theorem readBody_ascii_splats (L : FloatLib F) (st : HeaderState) (data : List Char)
    (out : GaussianData F) (err : String) (hacc : st.accepted)
    (hfmt : st.format = PLYFormat.ASCII) :
    (readBody L st data out err).outData.splats =
      (readAsciiRows L st.props (fieldIdx st.props) st.vertexCount.toNat 0 data
        (List.replicate st.vertexCount.toNat GaussianSplat.zero)).2 := by
  have hb : st.format ≠ PLYFormat.BinaryLE := by rw [hfmt]; decide
  rw [readBody_accepted L st data out err hacc, if_neg hb]
  simp only
  split_ifs <;> rfl

theorem decodeBinaryRow_field (L : FloatLib F) (props : List PropDef) (row : List Char)
    (s : GaussianSplat F) (name : String) (hname : name ∈ consumedNames) :
    (decodeBinaryRow L props (layout props).1 (fieldIdx props) row s).field name =
      rowField L props row name := by
  simp only [consumedNames, List.mem_cons, List.mem_singleton, List.not_mem_nil, or_false] at hname
  rcases hname with h | h | h | h | h | h | h <;> subst h <;>
    simp [GaussianSplat.field, decodeBinaryRow, setFields, fieldIdx, getf_eq_rowField]

/-! ## Headers given line by line, and the end-to-end scenario -/

theorem takeWhile_append_stop {α : Type} (p : α → Bool) (l : List α) (x : α) (r : List α)
    (hl : ∀ a ∈ l, p a = true) (hx : p x = false) :
    (l ++ x :: r).takeWhile p = l ∧ (l ++ x :: r).dropWhile p = x :: r := by
  induction l with
  | nil => simp [List.takeWhile_cons, List.dropWhile_cons, hx]
  | cons a as ih =>
    have ha : p a = true := hl a (List.mem_cons_self _ _)
    have := ih (fun b hb => hl b (List.mem_cons_of_mem _ hb))
    simp [List.takeWhile_cons, List.dropWhile_cons, ha, this.1, this.2]

theorem getline_append (line rest : List Char) (hline : '\n' ∉ line) :
    getline (line ++ '\n' :: rest) = some (line, rest) := by
  have h := takeWhile_append_stop (fun c => c != '\n') line '\n' rest
    (by
      intro a ha
      have : a ≠ '\n' := fun h => hline (h ▸ ha)
      simpa using this)
    (by simp)
  cases line with
  | nil => simp [getline]
  | cons c cs =>
    have hs : (c :: cs) ++ '\n' :: rest = c :: (cs ++ '\n' :: rest) := rfl
    rw [hs] at h ⊢
    simp only [getline, h.1, h.2, List.drop_succ_cons, List.drop_zero]

theorem unlines_append (ls : List (List Char)) (r d : List Char) :
    unlines ls r ++ d = unlines ls (r ++ d) := by
  induction ls with
  | nil => rfl
  | cons l ls ih => simp [unlines] at ih ⊢; exact ih

/-- The header loop on a header given line by line: the locals are the fold of
the loop body over the lines, and the unread input is what follows the
`end_header` line. -/
theorem parseHeader_unlines (ls : List (List Char)) :
    ∀ (st : HeaderState) (data : List Char) (n : Nat),
      (∀ l ∈ ls, '\n' ∉ l ∧ stripCR l ≠ "end_header".toList) →
      (unlines ls ("end_header".toList ++ '\n' :: data)).length ≤ n →
      parseHeader n st (unlines ls ("end_header".toList ++ '\n' :: data)) =
        (ls.foldl (fun st l => headerLine st (stripCR l)) st, data) := by
  induction ls with
  | nil =>
    intro st data n _ hn
    have hg : getline ("end_header".toList ++ '\n' :: data) = some ("end_header".toList, data) :=
      getline_append _ _ (by decide)
    cases n with
    | zero => simp [unlines] at hn
    | succ n =>
      simp only [unlines, List.foldr_nil, parseHeader, hg, List.foldl_nil]
      rw [if_pos (by decide)]
  | cons l ls ih =>
    intro st data n hall hn
    have hl := hall l (List.mem_cons_self _ _)
    have hg : getline (l ++ '\n' :: unlines ls ("end_header".toList ++ '\n' :: data)) =
        some (l, unlines ls ("end_header".toList ++ '\n' :: data)) :=
      getline_append _ _ hl.1
    have hu : unlines (l :: ls) ("end_header".toList ++ '\n' :: data) =
        l ++ '\n' :: unlines ls ("end_header".toList ++ '\n' :: data) := rfl
    rw [hu] at hn ⊢
    cases n with
    | zero => simp at hn
    | succ n =>
      simp only [parseHeader, hg]
      rw [if_neg hl.2, List.foldl_cons]
      apply ih _ data n (fun l' hl' => hall l' (List.mem_cons_of_mem _ hl'))
      simp only [List.length_append, List.length_cons] at hn
      omega

theorem headerOf_unlines (first : List Char) (ls : List (List Char)) (data : List Char)
    (hfirst : '\n' ∉ first) (hmagic : containsSub "ply".toList first = true)
    (hall : ∀ l ∈ ls, '\n' ∉ l ∧ stripCR l ≠ "end_header".toList) :
    headerOf (first ++ '\n' :: unlines ls ("end_header".toList ++ '\n' :: data)) =
      some (ls.foldl (fun st l => headerLine st (stripCR l)) HeaderState.init, data) := by
  simp only [headerOf, getline_append first _ hfirst, hmagic, Bool.true_eq_false, if_false]
  rw [parseHeader_unlines ls _ data _ hall (Nat.le_refl _)]

theorem scenarioHeader_unlines (data : List Char) :
    scenarioHeader ++ data =
      "ply".toList ++ '\n' :: unlines scenarioLines ("end_header".toList ++ '\n' :: data) := by
  have h : scenarioHeader =
      "ply".toList ++ '\n' :: unlines scenarioLines ("end_header".toList ++ '\n' :: []) := by
    decide!
  rw [h, List.append_assoc, List.cons_append, unlines_append]
  simp

/-- The header locals of the end-to-end scenario. -/
theorem headerOf_scenario (data : List Char) :
    headerOf (scenarioHeader ++ data) = some ((headerOfD scenarioFile).1, data) := by
  rw [scenarioHeader_unlines, headerOf_unlines _ _ _ (by decide) (by decide) (by decide)]
  have : scenarioLines.foldl (fun st l => headerLine st (stripCR l)) HeaderState.init =
      (headerOfD scenarioFile).1 := by decide!
  rw [this]

theorem scenario_props :
    (headerOfD scenarioFile).1.props =
      [{ name := "x".toList, byteSize := 4, isFloat := true },
       { name := "y".toList, byteSize := 4, isFloat := true },
       { name := "z".toList, byteSize := 4, isFloat := true },
       { name := "f_dc_0".toList, byteSize := 4, isFloat := true },
       { name := "f_dc_1".toList, byteSize := 4, isFloat := true },
       { name := "f_dc_2".toList, byteSize := 4, isFloat := true },
       { name := "opacity".toList, byteSize := 4, isFloat := true }] := by
  decide!

theorem take_drop_take (l : List Char) (a n m : Nat) (h : a + m ≤ n) :
    ((l.take n).drop a).take m = (l.drop a).take m := by
  rw [List.drop_take, List.take_take]
  congr 1
  omega

theorem scenario_rowField (L : FloatLib F) (rows : List Char) (i : Nat) :
    rowField L (headerOfD scenarioFile).1.props ((rows.drop (i * 28)).take 28) "x"
      = L.ofBits (le32 ((rows.drop (i * 28 + 0)).take 4)) ∧
    rowField L (headerOfD scenarioFile).1.props ((rows.drop (i * 28)).take 28) "y"
      = L.ofBits (le32 ((rows.drop (i * 28 + 4)).take 4)) ∧
    rowField L (headerOfD scenarioFile).1.props ((rows.drop (i * 28)).take 28) "z"
      = L.ofBits (le32 ((rows.drop (i * 28 + 8)).take 4)) := by
  rw [scenario_props]
  refine ⟨?_, ?_, ?_⟩
  · simp [rowField, firstNamed, List.findIdx_cons, widthSum, List.take_take]
  · simp [rowField, firstNamed, List.findIdx_cons, widthSum, take_drop_take, Nat.add_comm]
  · simp [rowField, firstNamed, List.findIdx_cons, widthSum, take_drop_take, Nat.add_comm]

theorem read_binary_rows (L : FloatLib F) (fs : String → Option (List Char))
    (path : String) (out : GaussianData F) (err : String) (file : List Char)
    (st : HeaderState) (data : List Char)
    (hf : fs path = some file) (hh : headerOf file = some (st, data))
    (hacc : st.accepted) (hfmt : st.format = PLYFormat.BinaryLE) (i : Nat)
    (hi : i < st.vertexCount.toNat) (hrow : (i + 1) * widthSum st.props ≤ data.length) :
    ∃ s : GaussianSplat F, (read L fs path out err).outData.splats[i]? = some s ∧
      ∀ name ∈ consumedNames, s.field name =
        rowField L st.props ((data.drop (i * widthSum st.props)).take (widthSum st.props))
          name := by
  rw [read_of_headerOf L fs path out err file st data hf hh,
    readBody_binary_splats L st data out err hacc hfmt]
  have hget := (readBinaryRows_get L st.props (layout st.props).1 (layout st.props).2
    (fieldIdx st.props) st.vertexCount.toNat 0 data
    (List.replicate st.vertexCount.toNat GaussianSplat.zero) (by simp)).2 i hi
    (by rw [layout_rowBytes]; exact hrow)
  rw [Nat.zero_add] at hget
  refine ⟨_, hget, ?_⟩
  intro name hname
  rw [layout_rowBytes, decodeBinaryRow_field L st.props _ _ name hname]

theorem scenario_positions (L : FloatLib F) (fs : String → Option (List Char))
    (path : String) (out : GaussianData F) (err : String) (rows : List Char) (i : Nat)
    (hf : fs path = some (scenarioHeader ++ rows)) (hi : i < 2)
    (hrow : (i + 1) * 28 ≤ rows.length) :
    ∃ s : GaussianSplat F, (read L fs path out err).outData.splats[i]? = some s ∧
      ∀ k : Fin 3, s.position k = L.ofBits (le32 ((rows.drop (i * 28 + 4 * k.val)).take 4)) := by
  have hw : widthSum (headerOfD scenarioFile).1.props = 28 := by decide!
  obtain ⟨s, hs, hfield⟩ := read_binary_rows L fs path out err (scenarioHeader ++ rows)
    (headerOfD scenarioFile).1 rows hf (headerOf_scenario rows) (by decide!) (by decide!) i
    (by
      have : (headerOfD scenarioFile).1.vertexCount.toNat = 2 := by decide!
      omega)
    (by rw [hw]; exact hrow)
  refine ⟨s, hs, ?_⟩
  rw [hw] at hfield
  obtain ⟨hx, hy, hz⟩ := scenario_rowField L rows i
  have fx := hfield "x" (by simp [consumedNames])
  have fy := hfield "y" (by simp [consumedNames])
  have fz := hfield "z" (by simp [consumedNames])
  rw [hx] at fx
  rw [hy] at fy
  rw [hz] at fz
  intro k
  fin_cases k
  · simpa [GaussianSplat.field] using fx
  · simpa [GaussianSplat.field] using fy
  · simpa [GaussianSplat.field] using fz

/-! ## The format directive -/

theorem parseHeader_fold (n : Nat) : ∀ (st : HeaderState) (s : List Char),
    (parseHeader n st s).1 = (headerLines n s).foldl headerLine st := by
  induction n with
  | zero => intro st s; rfl
  | succ n ih =>
    intro st s
    cases hg : getline s with
    | none => simp [parseHeader, headerLines, hg]
    | some p =>
      obtain ⟨raw, rest⟩ := p
      simp only [parseHeader, headerLines, hg]
      split_ifs with he
      · rfl
      · rw [List.foldl_cons, ih]

theorem headerLine_format (st : HeaderState) (line : List Char)
    (h1 : formatName line ≠ some "ascii".toList)
    (h2 : formatName line ≠ some "binary_little_endian".toList) :
    (headerLine st line).format = st.format := by
  unfold formatName at h1 h2
  unfold headerLine
  simp only
  by_cases hf : (extractWord line).1 = "format".toList
  · rw [if_pos hf] at h1 h2
    rw [if_pos hf]
    have h1' : (extractWord (extractWord line).2).1 ≠ "ascii".toList :=
      fun h => h1 (congrArg some h)
    have h2' : (extractWord (extractWord line).2).1 ≠ "binary_little_endian".toList :=
      fun h => h2 (congrArg some h)
    rw [if_neg h1', if_neg h2']
  · rw [if_neg hf]
    split_ifs <;> rfl

theorem foldl_headerLine_format (lines : List (List Char)) :
    ∀ st : HeaderState,
      (∀ l ∈ lines, formatName l ≠ some "ascii".toList ∧
        formatName l ≠ some "binary_little_endian".toList) →
      (lines.foldl headerLine st).format = st.format := by
  induction lines with
  | nil => intro st _; rfl
  | cons l ls ih =>
    intro st h
    rw [List.foldl_cons, ih _ (fun l' hl' => h l' (List.mem_cons_of_mem _ hl'))]
    exact headerLine_format st l (h l (List.mem_cons_self _ _)).1 (h l (List.mem_cons_self _ _)).2

theorem headerOf_headerLinesOf (file : List Char) (st : HeaderState) (data : List Char)
    (hh : headerOf file = some (st, data)) :
    st = (headerLinesOf file).foldl headerLine HeaderState.init := by
  cases hg : getline file with
  | none => simp [headerOf, hg] at hh
  | some p =>
    obtain ⟨first, rest⟩ := p
    cases hc : containsSub "ply".toList first with
    | false =>
      simp only [headerOf, hg, hc] at hh
      simp at hh
    | true =>
      simp only [headerOf, hg, hc, Bool.true_eq_false, if_false, Option.some.injEq] at hh
      simp only [headerLinesOf, hg]
      rw [← parseHeader_fold, hh]

/-- Claim C9, amended. On a file with a valid magic line whose header contains
no `format` directive naming `ascii` or `binary_little_endian` (so in
particular when its only `format` directive names something else, such as
`binary_big_endian`), `read` fails with the unknown-format message and leaves
the dataset as it was. -/
theorem read_unknown_format (L : FloatLib F) (fs : String → Option (List Char))
    (path : String) (out : GaussianData F) (err : String) (file : List Char)
    (st : HeaderState) (data : List Char)
    (hf : fs path = some file) (hh : headerOf file = some (st, data))
    (hnone : ∀ l ∈ headerLinesOf file, formatName l ≠ some "ascii".toList ∧
      formatName l ≠ some "binary_little_endian".toList) :
    (read L fs path out err).ok = false ∧
    (read L fs path out err).errorMsg = "Unknown PLY format" ∧
    (read L fs path out err).outData = out := by
  have hfmt : st.format = PLYFormat.Unknown := by
    rw [headerOf_headerLinesOf file st data hh, foldl_headerLine_format _ _ hnone]
    rfl
  rw [read_of_headerOf L fs path out err file st data hf hh]
  unfold readBody
  rw [if_pos hfmt]
  exact ⟨rfl, rfl, rfl⟩


/-! ## The schema and the binary fields -/

theorem headerLine_props (st : HeaderState) (line : List Char) :
    (headerLine st line).props = st.props ∨
    ((extractWord line).1 = "property".toList ∧
      (headerLine st line).props = st.props ++
        [mkProp (extractWord (extractWord line).2).1
          (extractWord (extractWord (extractWord line).2).2).1]) := by
  unfold headerLine
  simp only
  by_cases h1 : (extractWord line).1 = "format".toList
  · rw [if_pos h1]
    left
    split_ifs <;> rfl
  · rw [if_neg h1]
    by_cases h2 : (extractWord line).1 = "element".toList
    · rw [if_pos h2]
      left
      split_ifs <;> rfl
    · rw [if_neg h2]
      by_cases h3 : (extractWord line).1 = "property".toList ∧ st.inVertexElem = true
      · rw [if_pos h3]
        right
        exact ⟨h3.1, rfl⟩
      · rw [if_neg h3]
        left
        rfl

/-- Every property of the schema comes from a `property <type> <name>` line of
the header and is the `PropDef` that `mkProp` builds from its type and name. -/
theorem foldl_headerLine_props (lines : List (List Char)) :
    ∀ st : HeaderState, ∀ p ∈ (lines.foldl headerLine st).props,
      p ∈ st.props ∨ ∃ l ∈ lines, (extractWord l).1 = "property".toList ∧
        p = mkProp (extractWord (extractWord l).2).1
          (extractWord (extractWord (extractWord l).2).2).1 := by
  induction lines with
  | nil => intro st p hp; left; exact hp
  | cons l ls ih =>
    intro st p hp
    rw [List.foldl_cons] at hp
    rcases ih (headerLine st l) p hp with h | ⟨l', hl', h1, h2⟩
    · rcases headerLine_props st l with e | ⟨e1, e2⟩
      · left; rw [e] at h; exact h
      · rw [e2, List.mem_append, List.mem_singleton] at h
        rcases h with h | h
        · left; exact h
        · right; exact ⟨l, List.mem_cons_self _ _, e1, h⟩
    · right; exact ⟨l', List.mem_cons_of_mem _ hl', h1, h2⟩

theorem headerOf_props (file : List Char) (st : HeaderState) (data : List Char)
    (hh : headerOf file = some (st, data)) :
    ∀ p ∈ st.props, ∃ l ∈ headerLinesOf file, (extractWord l).1 = "property".toList ∧
      p = mkProp (extractWord (extractWord l).2).1
        (extractWord (extractWord (extractWord l).2).2).1 := by
  intro p hp
  rw [headerOf_headerLinesOf file st data hh] at hp
  rcases foldl_headerLine_props _ _ p hp with h | h
  · simp [HeaderState.init] at h
  · exact h

/-- Claim C2. In binary mode, on an accepted header: every property of the
schema comes from a `property <type> <name>` line, with width 8 for
`double`/`float64`, 1 for `uchar`/`uint8` and 4 for any other type name, and is
decoded only for `float`/`float32`; for every row `i` that the data section
holds in full, each consumed field (`x`, `y`, `z`, `f_dc_0`, `f_dc_1`,
`f_dc_2`, `opacity`) of record `i` is the float made of the four bytes of row
`i` at the offset given by the widths of the properties declared before the
first property of that name, when that property is declared as a float, and
zero when it is absent or declared with another type; and on the header of the
scenario followed by any rows, the position of record `i` is made of the first
three little-endian words of the 28-byte row `i`. -/
theorem read_binary_fields (L : FloatLib F) (fs : String → Option (List Char))
    (path : String) (out : GaussianData F) (err : String) (file : List Char)
    (st : HeaderState) (data : List Char)
    (hf : fs path = some file) (hh : headerOf file = some (st, data))
    (hacc : st.accepted) (hfmt : st.format = PLYFormat.BinaryLE) :
    (∀ p ∈ st.props, ∃ l ∈ headerLinesOf file, (extractWord l).1 = "property".toList ∧
      p = mkProp (extractWord (extractWord l).2).1
        (extractWord (extractWord (extractWord l).2).2).1) ∧
    (∀ ty nm : List Char, mkProp ty nm =
      { name := nm, byteSize := declaredWidth ty, isFloat := declaredFloat ty }) ∧
    (∀ i : Nat, i < st.vertexCount.toNat → (i + 1) * widthSum st.props ≤ data.length →
      ∃ s : GaussianSplat F, (read L fs path out err).outData.splats[i]? = some s ∧
        ∀ name ∈ consumedNames, s.field name =
          rowField L st.props ((data.drop (i * widthSum st.props)).take (widthSum st.props))
            name) ∧
    (∀ (fs2 : String → Option (List Char)) (path2 : String) (rows : List Char) (i : Nat),
      fs2 path2 = some (scenarioHeader ++ rows) → i < 2 → (i + 1) * 28 ≤ rows.length →
      ∃ s : GaussianSplat F, (read L fs2 path2 out err).outData.splats[i]? = some s ∧
        ∀ k : Fin 3,
          s.position k = L.ofBits (le32 ((rows.drop (i * 28 + 4 * k.val)).take 4))) :=
  ⟨headerOf_props file st data hh, mkProp_eq,
   fun i hi hrow => read_binary_rows L fs path out err file st data hf hh hacc hfmt i hi hrow,
   fun fs2 path2 rows i h2 hi hrow => scenario_positions L fs2 path2 out err rows i h2 hi hrow⟩

/-! ## ASCII rows -/

theorem tokens_nil : tokens [] = [] := by
  simp [tokens, List.splitOnP_nil]

theorem tokens_cons_space (c : Char) (cs : List Char) (hc : isSpace c = true) :
    tokens (c :: cs) = tokens cs := by
  simp [tokens, List.splitOnP_cons, hc]

theorem tokens_dropWhile_space (s : List Char) : tokens (s.dropWhile isSpace) = tokens s := by
  induction s with
  | nil => rfl
  | cons c cs ih =>
    by_cases hc : isSpace c = true
    · rw [List.dropWhile_cons_of_pos hc, ih, tokens_cons_space c cs hc]
    · rw [List.dropWhile_cons_of_neg hc]

theorem tokens_word (s : List Char) (hne : s.takeWhile (fun c => !isSpace c) ≠ []) :
    tokens s = s.takeWhile (fun c => !isSpace c) ::
      tokens (s.dropWhile (fun c => !isSpace c)) := by
  have hsplit := List.takeWhile_append_dropWhile (fun c => !isSpace c) s
  have hno : ∀ x ∈ s.takeWhile (fun c => !isSpace c), ¬ (isSpace x = true) := by
    intro x hx
    have := List.mem_takeWhile_imp hx
    simpa using this
  cases hd : s.dropWhile (fun c => !isSpace c) with
  | nil =>
    rw [hd, List.append_nil] at hsplit
    rw [tokens_nil]
    conv_lhs => rw [← hsplit]
    unfold tokens
    rw [List.splitOnP_eq_single _ _ hno]
    simp [hne]
  | cons sep rest =>
    have hsep : isSpace sep = true := by
      have := List.head_dropWhile_not (fun c => !isSpace c) s (by rw [hd]; simp)
      simp only [hd, List.head_cons] at this
      simpa using this
    rw [hd] at hsplit
    rw [tokens_cons_space sep rest hsep]
    conv_lhs => rw [← hsplit]
    unfold tokens
    rw [List.splitOnP_first _ _ hno sep hsep]
    simp [hne]

theorem dropWhile_notSpace_tokenEnd (s : List Char) :
    TokenEnd (s.dropWhile (fun c => !isSpace c)) := by
  cases hd : s.dropWhile (fun c => !isSpace c) with
  | nil => exact Or.inl rfl
  | cons sep rest =>
    right
    refine ⟨sep, rest, rfl, ?_⟩
    have := List.head_dropWhile_not (fun c => !isSpace c) s (by rw [hd]; simp)
    simp only [hd, List.head_cons] at this
    simpa using this

/-- A line whose unread part starts, after white space, with the character `c`:
its first token is the run of non-space characters from `c`, and its other
tokens are those of what follows that run. -/
theorem tokens_of_dropWhile (buf : List Char) (c : Char) (cs : List Char)
    (h : buf.dropWhile isSpace = c :: cs) :
    tokens buf = (c :: cs).takeWhile (fun c => !isSpace c) ::
        tokens ((c :: cs).dropWhile (fun c => !isSpace c)) ∧
      (c :: cs).takeWhile (fun c => !isSpace c) ≠ [] := by
  have hc : ¬ (isSpace c = true) := by
    have := List.head_dropWhile_not isSpace buf (by rw [h]; simp)
    simp only [h, List.head_cons] at this
    simpa using this
  have hne : (c :: cs).takeWhile (fun c => !isSpace c) ≠ [] := by
    rw [List.takeWhile_cons_of_pos (by simpa using hc)]
    simp
  refine ⟨?_, hne⟩
  rw [← tokens_dropWhile_space buf, h]
  exact tokens_word (c :: cs) hne

theorem tokens_of_dropWhile_nil (buf : List Char) (h : buf.dropWhile isSpace = []) :
    tokens buf = [] := by
  rw [← tokens_dropWhile_space buf, h, tokens_nil]

omit [LinearOrderedField F] in
theorem readVals_failed (L : FloatLib F) (vs : List F) (b : List Char) :
    readVals L vs { buf := b, failed := true } = vs := by
  induction vs with
  | nil => rfl
  | cons v vs ih => simp [readVals, extractFloat, ih]

omit [LinearOrderedField F] in
theorem readVals_length (L : FloatLib F) (vs : List F) :
    ∀ ss : RowStream, (readVals L vs ss).length = vs.length := by
  induction vs with
  | nil => intro ss; rfl
  | cons v vs ih => intro ss; simp [readVals, ih]

omit [LinearOrderedField F] in
theorem extractFloat_parsed (L : FloatLib F) (buf : List Char) (c : Char) (cs : List Char)
    (v0 x : F) (h : buf.dropWhile isSpace = c :: cs)
    (hp : ParsesAs L ((c :: cs).takeWhile (fun c => !isSpace c)) x) :
    extractFloat L { buf := buf, failed := false } v0 =
      ({ buf := (c :: cs).dropWhile (fun c => !isSpace c), failed := false }, x) := by
  have hsplit := List.takeWhile_append_dropWhile (fun c => !isSpace c) (c :: cs)
  have hn := hp _ (dropWhile_notSpace_tokenEnd (c :: cs))
  rw [hsplit] at hn
  simp only [extractFloat, h, hn]
  simp

theorem extractFloat_fails (L : FloatLib F) (buf : List Char) (c : Char) (cs : List Char)
    (v0 : F) (h : buf.dropWhile isSpace = c :: cs)
    (hp : FailsOn L ((c :: cs).takeWhile (fun c => !isSpace c))) :
    ∃ b, extractFloat L { buf := buf, failed := false } v0 = ({ buf := b, failed := true }, 0) := by
  have hsplit := List.takeWhile_append_dropWhile (fun c => !isSpace c) (c :: cs)
  have hn := hp _ (dropWhile_notSpace_tokenEnd (c :: cs))
  rw [hsplit] at hn
  refine ⟨(L.numGet (c :: cs)).2.2, ?_⟩
  simp only [extractFloat, h, hn.1, hn.2]
  simp

omit [LinearOrderedField F] in
theorem extractFloat_eof (L : FloatLib F) (buf : List Char) (v0 : F)
    (h : buf.dropWhile isSpace = []) :
    extractFloat L { buf := buf, failed := false } v0 = ({ buf := [], failed := true }, v0) := by
  simp [extractFloat, h]

theorem readVals_zero_failed (L : FloatLib F) (m : Nat) (b : List Char) (j : Nat)
    (hj : j < m + 1) :
    ((0 : F) :: readVals L (List.replicate m 0) { buf := b, failed := true })[j]? = some 0 := by
  rw [readVals_failed]
  have : (0 : F) :: List.replicate m 0 = List.replicate (m + 1) 0 := rfl
  rw [this, List.getElem?_replicate_of_lt hj]

theorem readVals_parsed (L : FloatLib F) (m : Nat) :
    ∀ (buf : List Char) (j : Nat) (v : Nat → F), j < m →
      (∀ k, k ≤ j → ∃ t, (tokens buf)[k]? = some t ∧ ParsesAs L t (v k)) →
      (readVals L (List.replicate m 0) { buf := buf, failed := false })[j]? = some (v j) := by
  induction m with
  | zero => intro buf j v hj; omega
  | succ m ih =>
    intro buf j v hj hall
    obtain ⟨t0, ht0, hp0⟩ := hall 0 (Nat.zero_le _)
    cases hd : buf.dropWhile isSpace with
    | nil =>
      rw [tokens_of_dropWhile_nil buf hd] at ht0
      simp at ht0
    | cons c cs =>
      obtain ⟨htok, _⟩ := tokens_of_dropWhile buf c cs hd
      rw [htok] at ht0
      simp only [List.getElem?_cons_zero, Option.some.injEq] at ht0
      subst ht0
      have hstep := extractFloat_parsed L buf c cs 0 (v 0) hd hp0
      simp only [List.replicate_succ, readVals, hstep]
      cases j with
      | zero => simp
      | succ j =>
        rw [List.getElem?_cons_succ]
        apply ih _ j (fun k => v (k + 1)) (by omega)
        intro k hk
        obtain ⟨t, ht, hp⟩ := hall (k + 1) (by omega)
        rw [htok, List.getElem?_cons_succ] at ht
        exact ⟨t, ht, hp⟩

theorem readVals_unparsed (L : FloatLib F) (m : Nat) :
    ∀ (buf : List Char) (j k0 : Nat), j < m → k0 ≤ j →
      (∀ k, k < k0 → ∃ t v, (tokens buf)[k]? = some t ∧ ParsesAs L t v) →
      ((tokens buf)[k0]? = none ∨ ∃ t, (tokens buf)[k0]? = some t ∧ FailsOn L t) →
      (readVals L (List.replicate m 0) { buf := buf, failed := false })[j]? = some 0 := by
  induction m with
  | zero => intro buf j k0 hj; omega
  | succ m ih =>
    intro buf j k0 hj hk0 hbefore hat
    cases hd : buf.dropWhile isSpace with
    | nil =>
      simp only [List.replicate_succ, readVals, extractFloat_eof L buf 0 hd]
      exact readVals_zero_failed L m [] j hj
    | cons c cs =>
      obtain ⟨htok, _⟩ := tokens_of_dropWhile buf c cs hd
      cases k0 with
      | zero =>
        rw [htok] at hat
        simp only [List.getElem?_cons_zero, Option.some.injEq, reduceCtorEq, false_or,
          exists_eq_left'] at hat
        obtain ⟨b, hstep⟩ := extractFloat_fails L buf c cs 0 hd hat
        simp only [List.replicate_succ, readVals, hstep]
        exact readVals_zero_failed L m b j hj
      | succ k0 =>
        obtain ⟨t0, x, ht0, hp0⟩ := hbefore 0 (Nat.succ_pos _)
        rw [htok] at ht0
        simp only [List.getElem?_cons_zero, Option.some.injEq] at ht0
        subst ht0
        have hstep := extractFloat_parsed L buf c cs 0 x hd hp0
        simp only [List.replicate_succ, readVals, hstep]
        cases j with
        | zero => omega
        | succ j =>
          rw [List.getElem?_cons_succ]
          apply ih _ j k0 (by omega) (by omega)
          · intro k hk
            obtain ⟨t, y, ht, hp⟩ := hbefore (k + 1) (by omega)
            rw [htok, List.getElem?_cons_succ] at ht
            exact ⟨t, y, ht, hp⟩
          · rw [htok, List.getElem?_cons_succ] at hat
            exact hat

theorem decodeAsciiRow_field (L : FloatLib F) (props : List PropDef) (line : List Char)
    (s : GaussianSplat F) (name : String) (hname : name ∈ consumedNames) :
    (decodeAsciiRow L props (fieldIdx props) line s).field name =
      valAt (readVals L (List.replicate props.length (0 : F)) { buf := line, failed := false })
        (find props name) := by
  simp only [consumedNames, List.mem_cons, List.mem_singleton, List.not_mem_nil, or_false] at hname
  rcases hname with h | h | h | h | h | h | h <;> subst h <;>
    simp [GaussianSplat.field, decodeAsciiRow, setFields, fieldIdx]

theorem valAt_find (vals : List F) (props : List PropDef) (name : String) :
    valAt vals (find props name) =
      if firstNamed props name < props.length then (vals[firstNamed props name]?).getD 0
      else 0 := by
  unfold valAt
  rw [find_eq]
  split_ifs with h1 h2 h3
  · simp
  · omega
  · omega
  · rfl

/-- Claim C10, amended. In ASCII mode, on an accepted header, `read` succeeds
exactly when the data section has at least `vertexCount` lines, whatever the
lines hold (so tokens beyond the schema length are ignored); and for every data
row and every consumed field, whose property is the first of its name at schema
index `j`, whatever that property's declared type: the decoded field is the
numeric value of the row's `j`-th white-space-delimited token when that token
and every token before it parse as numbers; it is zero when some token at an
index `k0 ≤ j` is missing or is one the extraction fails on (storing zero) while
all tokens before `k0` parse; and it is zero when the property is absent. -/
theorem read_ascii_fields (L : FloatLib F) (fs : String → Option (List Char))
    (path : String) (out : GaussianData F) (err : String) (file : List Char)
    (st : HeaderState) (data : List Char)
    (hf : fs path = some file) (hh : headerOf file = some (st, data))
    (hacc : st.accepted) (hfmt : st.format = PLYFormat.ASCII) :
    ((read L fs path out err).ok = true ↔ st.vertexCount.toNat ≤ lineCount data) ∧
    ∀ (i : Nat) (line : List Char), i < st.vertexCount.toNat → nthLine i data = some line →
      ∃ s : GaussianSplat F, (read L fs path out err).outData.splats[i]? = some s ∧
        ∀ name ∈ consumedNames,
          (firstNamed st.props name = st.props.length → s.field name = 0) ∧
          (∀ v : Nat → F, firstNamed st.props name < st.props.length →
            (∀ k, k ≤ firstNamed st.props name →
              ∃ t, (tokens line)[k]? = some t ∧ ParsesAs L t (v k)) →
            s.field name = v (firstNamed st.props name)) ∧
          (∀ k0 : Nat, k0 ≤ firstNamed st.props name →
            firstNamed st.props name < st.props.length →
            (∀ k, k < k0 → ∃ t v, (tokens line)[k]? = some t ∧ ParsesAs L t v) →
            ((tokens line)[k0]? = none ∨ ∃ t, (tokens line)[k0]? = some t ∧ FailsOn L t) →
            s.field name = 0) := by
  have hb : st.format ≠ PLYFormat.BinaryLE := by rw [hfmt]; decide
  rw [read_of_headerOf L fs path out err file st data hf hh]
  constructor
  · rw [readBody_accepted L st data out err hacc, if_neg hb]
    simp only
    rw [← readAsciiRows_ok L st.props (fieldIdx st.props) st.vertexCount.toNat 0 data
      (List.replicate st.vertexCount.toNat GaussianSplat.zero)]
    split_ifs with hr
    · simp [hr]
    · simp at hr; simp [hr]
  · intro i line hi hline
    rw [readBody_ascii_splats L st data out err hacc hfmt]
    have hget := (readAsciiRows_get L st.props (fieldIdx st.props) st.vertexCount.toNat 0 data
      (List.replicate st.vertexCount.toNat GaussianSplat.zero) (by simp)).2 i hi line hline
    rw [Nat.zero_add] at hget
    refine ⟨_, hget, ?_⟩
    intro name hname
    rw [decodeAsciiRow_field L st.props line _ name hname, valAt_find]
    refine ⟨?_, ?_, ?_⟩
    · intro habs
      rw [if_neg (by omega)]
    · intro v hlt hall
      rw [if_pos hlt, readVals_parsed L st.props.length line _ v hlt hall]
      rfl
    · intro k0 hk0 hlt hbefore hat
      rw [if_pos hlt, readVals_unparsed L st.props.length line _ k0 hlt hk0 hbefore hat]
      rfl


/-! ## The dataset after a failed read -/

/-- A failed `read` either leaves the dataset untouched (a failure before the
data section) or, on an accepted header, leaves it with `vertexCount` records
and empty flattened arrays (a failure in the data section). -/
theorem read_failed_outData (L : FloatLib F) (fs : String → Option (List Char))
    (path : String) (out : GaussianData F) (err : String)
    (hfail : (read L fs path out err).ok = false) :
    (read L fs path out err).outData = out ∨
    ∃ file st data, fs path = some file ∧ headerOf file = some (st, data) ∧ st.accepted ∧
      (read L fs path out err).outData.splats.length = st.vertexCount.toNat ∧
      (read L fs path out err).outData.positions = [] ∧
      (read L fs path out err).outData.colors = [] := by
  cases hf : fs path with
  | none => left; simp [read, hf]
  | some file =>
    cases hg : getline file with
    | none => left; simp [read, hf, hg]
    | some p =>
      obtain ⟨first, rest⟩ := p
      cases hc : containsSub "ply".toList first with
      | false =>
        left
        simp only [read, hf, hg, hc]
        simp
      | true =>
        have hh : headerOf file = some ((parseHeader rest.length HeaderState.init rest).1,
            (parseHeader rest.length HeaderState.init rest).2) := by
          simp only [headerOf, hg, hc, Bool.true_eq_false, if_false]
        generalize (parseHeader rest.length HeaderState.init rest).1 = st at hh
        generalize (parseHeader rest.length HeaderState.init rest).2 = data at hh
        rw [read_of_headerOf L fs path out err file st data hf hh] at hfail ⊢
        by_cases hacc : st.accepted
        · right
          refine ⟨file, st, data, rfl, hh, hacc, ?_⟩
          rw [readBody_accepted L st data out err hacc] at hfail ⊢
          split_ifs at hfail ⊢ with hb
          · simp only at hfail ⊢
            split_ifs at hfail ⊢ with hr
            exact ⟨by simp [readBinaryRows_length], rfl, rfl⟩
          · simp only at hfail ⊢
            split_ifs at hfail ⊢ with hr
            exact ⟨by simp [readAsciiRows_length], rfl, rfl⟩
        · left
          rw [accepted_iff] at hacc
          unfold readBody
          by_cases h1 : st.format = PLYFormat.Unknown
          · rw [if_pos h1]
          · rw [if_neg h1]
            by_cases h2 : st.vertexCount ≤ 0
            · rw [if_pos h2]
            · rw [if_neg h2]
              simp only
              have h3 : (fieldIdx st.props).iX < 0 ∨ (fieldIdx st.props).iY < 0 ∨
                  (fieldIdx st.props).iZ < 0 := by
                by_contra h3
                exact hacc ⟨h1, not_le.mp h2, h3⟩
              rw [if_pos h3]

/-- The node's dataset after a prepare whose path changed to a non-empty path
is the one `read` leaves, started from the cleared dataset. -/
theorem prepareForDraw_reload (L : FloatLib F) (fs : String → Option (List Char))
    (ov : DrawOverride F) (inp : FrameInput F) (oldData : Option (GaussianDrawData F))
    (g : Gpu) (m_data : GaussianData F) (hnode : ov.m_node = some m_data)
    (hchg : inp.filePath ≠ ov.m_loadedPath) (hlen : inp.filePath.length > 0) :
    (prepareForDraw L fs ov inp oldData g).1.m_node =
      some (read L fs inp.filePath m_data.clear "").outData := by
  simp only [prepareForDraw, hnode, reloadIfChanged, if_pos hchg, if_pos hlen]

/-! ## The vertex count -/

omit [LinearOrderedField F] in
/-- Extraction of an `int` from a text with no number at its start leaves the
variable as it was (stream at its end) or sets it to zero. -/
theorem extractInt_not_numeric (cur : Int) (t : List Char) (h : hasNumericCount t = false) :
    extractInt cur t = cur ∨ extractInt cur t = 0 := by
  unfold hasNumericCount at h
  unfold extractInt
  cases hd : t.dropWhile isSpace with
  | nil => left; rfl
  | cons c cs =>
    right
    rw [hd] at h
    simp only at h ⊢
    have hnil : (if c = '-' ∨ c = '+' then cs else c :: cs).takeWhile Char.isDigit = [] := by
      cases hb : (if c = '-' ∨ c = '+' then cs else c :: cs) with
      | nil => rfl
      | cons b bs =>
        rw [hb] at h
        simp only [List.head?_cons, Option.any_some] at h
        rw [List.takeWhile_cons_of_neg (by rw [h]; exact Bool.false_ne_true)]
    rw [hnil]
    simp

omit [LinearOrderedField F] in
/-- The vertex count after a header line: extracted from the text after
`element vertex`, unchanged by any other line. -/
theorem headerLine_vertexCount (st : HeaderState) (line : List Char) :
    (headerLine st line).vertexCount =
      match vertexCountText line with
      | some t => extractInt st.vertexCount t
      | none => st.vertexCount := by
  by_cases h2 : (extractWord line).1 = "element".toList
  · have h1 : (extractWord line).1 ≠ "format".toList := by rw [h2]; decide
    by_cases h3 : (extractWord (extractWord line).2).1 = "vertex".toList
    · have e : vertexCountText line = some (extractWord (extractWord line).2).2 := by
        unfold vertexCountText; exact if_pos ⟨h2, h3⟩
      rw [e]
      unfold headerLine
      simp only
      rw [if_neg h1, if_pos h2, if_pos h3]
    · have e : vertexCountText line = none := by
        unfold vertexCountText; exact if_neg (fun h => h3 h.2)
      rw [e]
      unfold headerLine
      simp only
      rw [if_neg h1, if_pos h2, if_neg h3]
  · have e : vertexCountText line = none := by
      unfold vertexCountText; exact if_neg (fun h => h2 h.1)
    rw [e]
    unfold headerLine
    simp only
    by_cases h1 : (extractWord line).1 = "format".toList
    · rw [if_pos h1]
      split_ifs <;> rfl
    · rw [if_neg h1, if_neg h2]
      split_ifs <;> rfl

omit [LinearOrderedField F] in
/-- A header none of whose `element vertex` lines carries a number leaves the
vertex count at zero. -/
theorem foldl_headerLine_vertexCount (lines : List (List Char)) :
    ∀ st : HeaderState, st.vertexCount = 0 →
      (∀ l ∈ lines, ∀ t, vertexCountText l = some t → hasNumericCount t = false) →
      (lines.foldl headerLine st).vertexCount = 0 := by
  induction lines with
  | nil => intro st h _; exact h
  | cons l ls ih =>
    intro st h hall
    rw [List.foldl_cons]
    apply ih _ _ (fun l' hl' => hall l' (List.mem_cons_of_mem _ hl'))
    rw [headerLine_vertexCount]
    cases ht : vertexCountText l with
    | none => exact h
    | some t =>
      simp only
      rcases extractInt_not_numeric st.vertexCount t
        (hall l (List.mem_cons_self _ _) t ht) with e | e
      · rw [e, h]
      · exact e

/-- Claim C11.  For a file whose magic line is accepted and whose header, read
up to `end_header`, leaves a recognised format: when the vertex count is at
most zero, or when no `element vertex` line of the header carries a numeric
count, `read` fails with the message `No vertices in PLY` and leaves the
dataset as it was.  Nothing is assumed about the schema: the check comes before
the lookup of `x`, `y` and `z`. -/
theorem read_no_vertices (L : FloatLib F) (fs : String → Option (List Char))
    (path : String) (out : GaussianData F) (err : String) (file : List Char)
    (st : HeaderState) (data : List Char)
    (hf : fs path = some file) (hh : headerOf file = some (st, data))
    (hfmt : st.format ≠ PLYFormat.Unknown)
    (hcnt : st.vertexCount ≤ 0 ∨
      ∀ l ∈ headerLinesOf file, ∀ t, vertexCountText l = some t → hasNumericCount t = false) :
    (read L fs path out err).ok = false ∧
    (read L fs path out err).errorMsg = "No vertices in PLY" ∧
    (read L fs path out err).outData = out := by
  have hle : st.vertexCount ≤ 0 := by
    rcases hcnt with h | h
    · exact h
    · rw [headerOf_headerLinesOf file st data hh,
        foldl_headerLine_vertexCount _ _ rfl h]
  rw [read_of_headerOf L fs path out err file st data hf hh]
  unfold readBody
  rw [if_neg hfmt, if_pos hle]
  exact ⟨rfl, rfl, rfl⟩

/-! ## The guards of `prepareForDraw` -/

omit [LinearOrderedField F] in
/-- A non-null optional value is its own default-taking projection. -/
theorem some_getD_of_isSome {α : Type} (x : Option α) (d : α) (h : x.isSome = true) :
    x = some (x.getD d) := by
  cases x with
  | none => cases h
  | some v => rfl

/-- A prepare on an override without a node does nothing and calls nothing. -/
theorem prepare_no_node (L : FloatLib F) (fs : String → Option (List Char))
    (ov : DrawOverride F) (inp : FrameInput F) (oldData : Option (GaussianDrawData F))
    (g : Gpu) (h : ov.m_node = none) :
    prepareForDraw L fs ov inp oldData g = (ov, oldData.getD GaussianDrawData.init, g) ∧
    prepareCalls L fs ov inp oldData g =
      { initShaders := none, read := none, uploadVertices := none } := by
  simp only [prepareForDraw, prepareCalls, h, and_self]

/-- After a prepare on an override with a node, the loaded path is the node's
`filePath`. -/
theorem prepareForDraw_loadedPath (L : FloatLib F) (fs : String → Option (List Char))
    (ov : DrawOverride F) (inp : FrameInput F) (oldData : Option (GaussianDrawData F))
    (g : Gpu) (m_data : GaussianData F) (hnode : ov.m_node = some m_data) :
    (prepareForDraw L fs ov inp oldData g).1.m_loadedPath = inp.filePath := by
  simp only [prepareForDraw, hnode, reloadIfChanged]
  by_cases hchg : inp.filePath ≠ ov.m_loadedPath
  · rw [if_pos hchg]
    split_ifs <;> rfl
  · rw [if_neg hchg]
    exact (not_not.mp hchg).symm

/-- A prepare keeps the node pointer: null stays null. -/
theorem prepareForDraw_node_none (L : FloatLib F) (fs : String → Option (List Char))
    (ov : DrawOverride F) (inp : FrameInput F) (oldData : Option (GaussianDrawData F))
    (g : Gpu) :
    (prepareForDraw L fs ov inp oldData g).1.m_node = none ↔ ov.m_node = none := by
  cases h : ov.m_node with
  | none => simp only [prepareForDraw, h]
  | some m => simp only [prepareForDraw, h, reduceCtorEq]

/-- A prepare whose path is the loaded one does not call `read` and leaves the
override, and with it the node's dataset, as it was. -/
theorem prepare_unchanged_path (L : FloatLib F) (fs : String → Option (List Char))
    (ov : DrawOverride F) (inp : FrameInput F) (oldData : Option (GaussianDrawData F))
    (g : Gpu) (h : inp.filePath = ov.m_loadedPath) :
    (prepareCalls L fs ov inp oldData g).read = none ∧
    (prepareForDraw L fs ov inp oldData g).1 = ov := by
  cases hn : ov.m_node with
  | none =>
    have e := prepare_no_node L fs ov inp oldData g hn
    rw [e.1, e.2]
    exact ⟨rfl, rfl⟩
  | some m =>
    have hne : ¬ inp.filePath ≠ ov.m_loadedPath := not_not.mpr h
    simp only [prepareForDraw, prepareCalls, hn, reloadIfChanged, if_neg hne]
    refine ⟨if_neg (fun hc => hne hc.1), ?_⟩
    cases ov with
    | mk n p =>
      simp only at hn
      rw [hn]

/-- Claim C12.  For every state of the override, user data and device, every
file system and every frame input: after a prepare with file path `p`, a second
prepare with the same path, whatever the file system then holds and whatever
user data and device it is given, does not call `PLYReader::read` and leaves the
node's dataset (records, positions and colours) as the first left it.  Nothing
is assumed about the first load, so it may have succeeded or failed. -/
theorem prepareForDraw_same_path (L : FloatLib F) (fs1 fs2 : String → Option (List Char))
    (ov : DrawOverride F) (inp1 inp2 : FrameInput F)
    (old1 old2 : Option (GaussianDrawData F)) (g1 g2 : Gpu)
    (hp : inp2.filePath = inp1.filePath) :
    (prepareCalls L fs2 (prepareForDraw L fs1 ov inp1 old1 g1).1 inp2 old2 g2).read = none ∧
    (prepareForDraw L fs2 (prepareForDraw L fs1 ov inp1 old1 g1).1 inp2 old2 g2).1.m_node
      = (prepareForDraw L fs1 ov inp1 old1 g1).1.m_node := by
  cases hn : ov.m_node with
  | none =>
    have hn1 : (prepareForDraw L fs1 ov inp1 old1 g1).1.m_node = none :=
      (prepareForDraw_node_none L fs1 ov inp1 old1 g1).mpr hn
    have e := prepare_no_node L fs2 _ inp2 old2 g2 hn1
    rw [e.1, e.2]
    exact ⟨rfl, rfl⟩
  | some m =>
    have hl := prepareForDraw_loadedPath L fs1 ov inp1 old1 g1 m hn
    have e := prepare_unchanged_path L fs2 (prepareForDraw L fs1 ov inp1 old1 g1).1 inp2
      old2 g2 (by rw [hl, hp])
    rw [e.2]
    exact ⟨e.1, rfl⟩

/-! ## `uploadVertices` -/

omit [LinearOrderedField F] in
/-- Claim C14.  For every prior resource state and every device state:
`uploadVertices` called without a device or with `count == 0`, or in which
either of the two buffer creations fails, returns false and leaves `posBuf` and
`colBuf` null and `vertexCount` zero. -/
theorem uploadVertices_fails (d : GaussianDrawData F) (g : Gpu) (device : Bool) (count : Nat)
    (o : UploadOutcomes)
    (h : device = false ∨ count = 0 ∨ o.createPos = false ∨ o.createCol = false) :
    (d.uploadVertices g device count o).1 = false ∧
    (d.uploadVertices g device count o).2.1.posBuf = none ∧
    (d.uploadVertices g device count o).2.1.colBuf = none ∧
    (d.uploadVertices g device count o).2.1.vertexCount = 0 := by
  unfold GaussianDrawData.uploadVertices
  simp only
  by_cases h0 : device = false ∨ count = 0
  · rw [if_pos h0]
    exact ⟨rfl, rfl, rfl, rfl⟩
  · rw [if_neg h0]
    by_cases h1 : o.createPos = false
    · rw [if_pos h1]
      simp [Gpu.create, h1]
    · rw [if_neg h1]
      have h2 : o.createCol = false := by
        rcases h with h | h | h | h
        · exact absurd (Or.inl h) h0
        · exact absurd (Or.inr h) h0
        · exact absurd h h1
        · exact h
      rw [if_pos h2]
      simp [Gpu.create, h2]

omit [LinearOrderedField F] in
/-- What `uploadVertices` does to the dirty flag, the count and the buffers,
by its result. -/
theorem uploadVertices_result (d : GaussianDrawData F) (g : Gpu) (device : Bool) (count : Nat)
    (o : UploadOutcomes) :
    ((d.uploadVertices g device count o).1 = true →
      (d.uploadVertices g device count o).2.1.vertexDirty = false ∧
      (d.uploadVertices g device count o).2.1.vertexCount = count ∧
      (d.uploadVertices g device count o).2.1.posBuf ≠ none ∧
      (d.uploadVertices g device count o).2.1.colBuf ≠ none) ∧
    ((d.uploadVertices g device count o).1 = false →
      (d.uploadVertices g device count o).2.1.vertexDirty = d.vertexDirty) := by
  unfold GaussianDrawData.uploadVertices
  simp only
  by_cases h0 : device = false ∨ count = 0
  · rw [if_pos h0]
    exact ⟨fun h => absurd h Bool.false_ne_true, fun _ => rfl⟩
  · rw [if_neg h0]
    by_cases h1 : o.createPos = false
    · rw [if_pos h1]
      exact ⟨fun h => absurd h Bool.false_ne_true, fun _ => rfl⟩
    · rw [if_neg h1]
      by_cases h2 : o.createCol = false
      · rw [if_pos h2]
        exact ⟨fun h => absurd h Bool.false_ne_true, fun _ => rfl⟩
      · rw [if_neg h2]
        have e1 : o.createPos = true := by simpa using h1
        have e2 : o.createCol = true := by simpa using h2
        refine ⟨fun _ => ⟨rfl, rfl, ?_, ?_⟩, fun h => absurd h.symm Bool.false_ne_true⟩
        · simp [Gpu.create, e1]
        · simp [Gpu.create, e2]

omit [LinearOrderedField F] in
/-- The function `uploadVertices` leaves the shader and state objects and the
ready flag alone. -/
theorem uploadVertices_shaders (d : GaussianDrawData F) (g : Gpu) (device : Bool) (count : Nat)
    (o : UploadOutcomes) :
    (d.uploadVertices g device count o).2.1.vs = d.vs ∧
    (d.uploadVertices g device count o).2.1.gs = d.gs ∧
    (d.uploadVertices g device count o).2.1.ps = d.ps ∧
    (d.uploadVertices g device count o).2.1.inputLayout = d.inputLayout ∧
    (d.uploadVertices g device count o).2.1.constBuf = d.constBuf ∧
    (d.uploadVertices g device count o).2.1.blendState = d.blendState ∧
    (d.uploadVertices g device count o).2.1.rsState = d.rsState ∧
    (d.uploadVertices g device count o).2.1.shadersReady = d.shadersReady := by
  unfold GaussianDrawData.uploadVertices
  simp only
  split_ifs <;> exact ⟨rfl, rfl, rfl, rfl, rfl, rfl, rfl, rfl⟩

omit [LinearOrderedField F] in
/-- The function `initShaders` leaves the dirty flag alone. -/
theorem initShaders_vertexDirty (d : GaussianDrawData F) (g : Gpu) (o : InitOutcomes) :
    (d.initShaders g o).2.1.vertexDirty = d.vertexDirty := by
  rcases o with ⟨a1, a2, a3, a4, a5, a6, a7, a8, a9, a10⟩
  cases a1
  · rfl
  cases a2
  · rfl
  cases a3
  · rfl
  cases a4
  · rfl
  cases a5
  · rfl
  cases a6
  · rfl
  cases a7
  · rfl
  cases a8
  · rfl
  cases a9
  · rfl
  cases a10 <;> rfl

omit [LinearOrderedField F] in
/-- The shader step of a prepare leaves the dirty flag alone. -/
theorem ensureShaders_vertexDirty (d : GaussianDrawData F) (g : Gpu) (device : Bool)
    (o : InitOutcomes) :
    (ensureShaders d g device o).1.vertexDirty = d.vertexDirty := by
  unfold ensureShaders
  split_ifs
  · exact initShaders_vertexDirty d g o
  · rfl

/-- The dirty flag a prepare hands to its upload guard is set when the old user
data had it set. -/
theorem reloadIfChanged_dirty (L : FloatLib F) (fs : String → Option (List Char))
    (newPath loadedPath : String) (m_data : GaussianData F) :
    (reloadIfChanged L fs newPath loadedPath m_data true).2.2 = true := by
  unfold reloadIfChanged
  split_ifs <;> rfl

/-- A prepare whose upload was called and returned false leaves the dirty flag
set. -/
theorem prepare_upload_failed_dirty (L : FloatLib F) (fs : String → Option (List Char))
    (ov : DrawOverride F) (inp : FrameInput F) (oldData : Option (GaussianDrawData F))
    (g : Gpu) (n : Nat)
    (h : (prepareCalls L fs ov inp oldData g).uploadVertices = some (n, false)) :
    (prepareForDraw L fs ov inp oldData g).2.1.vertexDirty = true := by
  cases hn : ov.m_node with
  | none =>
    rw [(prepare_no_node L fs ov inp oldData g hn).2] at h
    cases h
  | some m =>
    simp only [prepareCalls, hn] at h
    simp only [prepareForDraw, hn]
    split_ifs at h with hg
    have hfalse := (Prod.mk.inj (Option.some.inj h)).2
    change (if _ then _ else _ : GaussianDrawData F × Gpu).1.vertexDirty = true
    rw [if_pos (by exact hg)]
    have hu := (uploadVertices_result _ _ _ _ _).2 hfalse
    exact hu.trans hg.1

/-- A prepare given user data with the dirty flag set, a device and, after its
reload step, a non-empty dataset calls `uploadVertices` with the record count. -/
theorem prepare_dirty_uploads (L : FloatLib F) (fs : String → Option (List Char))
    (ov : DrawOverride F) (inp : FrameInput F) (d : GaussianDrawData F)
    (g : Gpu) (m : GaussianData F) (hd : d.vertexDirty = true) (hdev : inp.device = true)
    (hm : (prepareForDraw L fs ov inp (some d) g).1.m_node = some m)
    (hne : m.empty = false) :
    ∃ b, (prepareCalls L fs ov inp (some d) g).uploadVertices = some (m.count % 2 ^ 32, b) := by
  cases hn : ov.m_node with
  | none =>
    rw [(prepareForDraw_node_none L fs ov inp (some d) g).mpr hn] at hm
    cases hm
  | some m0 =>
    simp only [prepareForDraw, hn, Option.some.injEq] at hm
    simp only [prepareCalls, hn]
    have hv : (ensureShaders (Option.getD (some d) GaussianDrawData.init) g inp.device
        inp.initOutcomes).1.vertexDirty = true := by
      rw [ensureShaders_vertexDirty]; exact hd
    have hm2 : (reloadIfChanged L fs inp.filePath ov.m_loadedPath m0
        (ensureShaders (Option.getD (some d) GaussianDrawData.init) g inp.device
          inp.initOutcomes).1.vertexDirty).2.1 = m := hm
    rw [hm2, hv]
    rw [if_pos ⟨reloadIfChanged_dirty L fs _ _ _, hdev, hne⟩]
    exact ⟨_, rfl⟩

/-- Claim C15.  The function `uploadVertices` clears the dirty flag exactly when
it returns true: on true, `vertexDirty` is false, `vertexCount` is the count
argument and both buffers are non-null; on false, `vertexDirty` keeps its
value.  Hence a prepare whose upload returned false leaves the flag set, and the
next prepare, given that user data, a device and a non-empty dataset, calls
`uploadVertices` again with the dataset's record count. -/
theorem uploadVertices_dirty_retry (L : FloatLib F) (d : GaussianDrawData F) (g : Gpu)
    (device : Bool) (count : Nat) (o : UploadOutcomes)
    (fs1 fs2 : String → Option (List Char)) (ov : DrawOverride F) (inp1 inp2 : FrameInput F)
    (old1 : Option (GaussianDrawData F)) (g1 : Gpu) :
    ((d.uploadVertices g device count o).1 = true →
      (d.uploadVertices g device count o).2.1.vertexDirty = false ∧
      (d.uploadVertices g device count o).2.1.vertexCount = count ∧
      (d.uploadVertices g device count o).2.1.posBuf ≠ none ∧
      (d.uploadVertices g device count o).2.1.colBuf ≠ none) ∧
    ((d.uploadVertices g device count o).1 = false →
      (d.uploadVertices g device count o).2.1.vertexDirty = d.vertexDirty) ∧
    (∀ n, (prepareCalls L fs1 ov inp1 old1 g1).uploadVertices = some (n, false) →
      (prepareForDraw L fs1 ov inp1 old1 g1).2.1.vertexDirty = true ∧
      (inp2.device = true →
        ∀ m, (prepareForDraw L fs2 (prepareForDraw L fs1 ov inp1 old1 g1).1 inp2
            (some (prepareForDraw L fs1 ov inp1 old1 g1).2.1)
            (prepareForDraw L fs1 ov inp1 old1 g1).2.2).1.m_node = some m →
          m.empty = false →
          ∃ b, (prepareCalls L fs2 (prepareForDraw L fs1 ov inp1 old1 g1).1 inp2
            (some (prepareForDraw L fs1 ov inp1 old1 g1).2.1)
            (prepareForDraw L fs1 ov inp1 old1 g1).2.2).uploadVertices
              = some (m.count % 2 ^ 32, b))) := by
  refine ⟨(uploadVertices_result d g device count o).1,
    (uploadVertices_result d g device count o).2, ?_⟩
  intro n hn
  have hd := prepare_upload_failed_dirty L fs1 ov inp1 old1 g1 n hn
  exact ⟨hd, fun hdev m hm hne => prepare_dirty_uploads L fs2 _ inp2 _ _ m hd hdev hm hne⟩

/-! ## The shader step of a prepare -/

omit [LinearOrderedField F] in
/-- The shader step of `prepareForDraw` is the statement modelled by
`ensureShaders`. -/
theorem ensureShaders_ready_eq (d : GaussianDrawData F) (g : Gpu) (device : Bool)
    (o : InitOutcomes) (h : d.shadersReady = true) : ensureShaders d g device o = (d, g) := by
  unfold ensureShaders
  rw [if_neg (fun hc => by rw [h] at hc; exact Bool.noConfusion hc.1)]

/-- Claim C17.  When the user data is already initialised (`shadersReady` true),
the shader step of a prepare does nothing: `initShaders` is not called, so
nothing is compiled; the user data and the device, with the objects created and
released on it, are returned as they were; and after the whole prepare the
handles `vs`, `gs`, `ps`, `inputLayout`, `constBuf`, `blendState` and `rsState`
are those from before the call and `shadersReady` is still true. -/
theorem ensureShaders_ready (L : FloatLib F) (fs : String → Option (List Char))
    (ov : DrawOverride F) (inp : FrameInput F) (d : GaussianDrawData F) (g : Gpu)
    (device : Bool) (o : InitOutcomes) (h : d.shadersReady = true) :
    ensureShaders d g device o = (d, g) ∧
    (prepareCalls L fs ov inp (some d) g).initShaders = none ∧
    (prepareForDraw L fs ov inp (some d) g).2.1.shadersReady = true ∧
    (prepareForDraw L fs ov inp (some d) g).2.1.vs = d.vs ∧
    (prepareForDraw L fs ov inp (some d) g).2.1.gs = d.gs ∧
    (prepareForDraw L fs ov inp (some d) g).2.1.ps = d.ps ∧
    (prepareForDraw L fs ov inp (some d) g).2.1.inputLayout = d.inputLayout ∧
    (prepareForDraw L fs ov inp (some d) g).2.1.constBuf = d.constBuf ∧
    (prepareForDraw L fs ov inp (some d) g).2.1.blendState = d.blendState ∧
    (prepareForDraw L fs ov inp (some d) g).2.1.rsState = d.rsState := by
  have hg : ¬ (d.shadersReady = false ∧ inp.device = true) :=
    fun hc => by rw [h] at hc; exact Bool.noConfusion hc.1
  refine ⟨ensureShaders_ready_eq d g device o h, ?_, ?_⟩
  · cases hn : ov.m_node with
    | none => rw [(prepare_no_node L fs ov inp (some d) g hn).2]
    | some m =>
      simp only [prepareCalls, hn, Option.getD_some]
      exact if_neg hg
  · cases hn : ov.m_node with
    | none =>
      rw [(prepare_no_node L fs ov inp (some d) g hn).1]
      exact ⟨h, rfl, rfl, rfl, rfl, rfl, rfl, rfl⟩
    | some m =>
      simp only [prepareForDraw, hn, Option.getD_some, if_neg hg]
      split_ifs
      · have e := uploadVertices_shaders
          ({ d with vertexDirty := (reloadIfChanged L fs inp.filePath ov.m_loadedPath m
              d.vertexDirty).2.2 }) g inp.device
          ((reloadIfChanged L fs inp.filePath ov.m_loadedPath m d.vertexDirty).2.1.count % 2 ^ 32)
          inp.uploadOutcomes
        exact ⟨e.2.2.2.2.2.2.2.trans h, e.1, e.2.1, e.2.2.1, e.2.2.2.1, e.2.2.2.2.1,
          e.2.2.2.2.2.1, e.2.2.2.2.2.2.1⟩
      · exact ⟨h, rfl, rfl, rfl, rfl, rfl, rfl, rfl⟩

/-! ## `draw` -/

/-- The result of `draw` when it reaches its `Draw` call: the uniform block is
written if `Map` succeeds, one `Draw(vertexCount, 0)` is issued, and of the
bindings set by the pipeline block the topology, the vertex buffers and the
constant buffers stay as set. -/
theorem draw_proceeds (ctx0 : DeviceContext F) (data : GaussianDrawData F) (mapOk : Bool)
    (hr : data.shadersReady = true) (hv : data.vertexCount ≠ 0) :
    draw ctx0 (some data) true true mapOk =
      { ctx0 with
        topology := D3D11_PRIMITIVE_TOPOLOGY_POINTLIST,
        vertexBuffers := (setPipeline ctx0 data).vertexBuffers,
        vsConstantBuffers := (setPipeline ctx0 data).vsConstantBuffers,
        gsConstantBuffers := (setPipeline ctx0 data).gsConstantBuffers,
        constantData := (updateConstantBuffer ctx0 data mapOk).constantData,
        draws := ctx0.draws ++ [(data.vertexCount, 0)],
        refLog := (draw ctx0 (some data) true true mapOk).refLog } := by
  have hg : ¬ (data.shadersReady = false ∨ data.vertexCount = 0) := by
    rintro (h | h)
    · rw [hr] at h; exact Bool.noConfusion h
    · exact hv h
  unfold draw
  simp only [if_neg hg, Bool.true_eq_false, if_false]
  rcases ctx0 with ⟨bs, bf, sm, rs, il, tp, vb, vs, vcb, gs, gcb, ps, cd, dr, rl⟩
  cases mapOk <;> cases bs <;> cases rs <;> cases il <;> cases vs <;> cases gs <;> cases ps <;> rfl

/-- The early exits of `draw`: null user data, shaders not ready or no vertex,
no device, or no immediate context; the context is not touched. -/
theorem draw_early (ctx0 : DeviceContext F) (userData : Option (GaussianDrawData F))
    (device hasContext mapOk : Bool)
    (h : userData = none ∨ device = false ∨ hasContext = false ∨
      ∃ data, userData = some data ∧ (data.shadersReady = false ∨ data.vertexCount = 0)) :
    draw ctx0 userData device hasContext mapOk = ctx0 := by
  cases userData with
  | none => rfl
  | some data =>
    unfold draw
    simp only
    by_cases hg : data.shadersReady = false ∨ data.vertexCount = 0
    · rw [if_pos hg]
    · rw [if_neg hg]
      rcases h with h | h | h | ⟨d, hd, h⟩
      · cases h
      · rw [if_pos h]
      · rw [if_pos h]
        split_ifs <;> rfl
      · cases hd
        exact absurd h hg

/-- The bindings `draw` saves are the same after `draw` as before, on every
path. -/
theorem draw_saved (ctx0 : DeviceContext F) (userData : Option (GaussianDrawData F))
    (device hasContext mapOk : Bool) :
    (draw ctx0 userData device hasContext mapOk).blendState = ctx0.blendState ∧
    (draw ctx0 userData device hasContext mapOk).blendFactor = ctx0.blendFactor ∧
    (draw ctx0 userData device hasContext mapOk).sampleMask = ctx0.sampleMask ∧
    (draw ctx0 userData device hasContext mapOk).rsState = ctx0.rsState ∧
    (draw ctx0 userData device hasContext mapOk).inputLayout = ctx0.inputLayout ∧
    (draw ctx0 userData device hasContext mapOk).vsShader = ctx0.vsShader ∧
    (draw ctx0 userData device hasContext mapOk).gsShader = ctx0.gsShader ∧
    (draw ctx0 userData device hasContext mapOk).psShader = ctx0.psShader := by
  by_cases h : userData = none ∨ device = false ∨ hasContext = false ∨
      ∃ data, userData = some data ∧ (data.shadersReady = false ∨ data.vertexCount = 0)
  · rw [draw_early ctx0 userData device hasContext mapOk h]
    exact ⟨rfl, rfl, rfl, rfl, rfl, rfl, rfl, rfl⟩
  · cases userData with
    | none => exact absurd (Or.inl rfl) h
    | some data =>
      have hd : device = true := by
        cases device
        · exact absurd (Or.inr (Or.inl rfl)) h
        · rfl
      have hc : hasContext = true := by
        cases hasContext
        · exact absurd (Or.inr (Or.inr (Or.inl rfl))) h
        · rfl
      have hr : data.shadersReady = true := by
        cases hs : data.shadersReady
        · exact absurd (Or.inr (Or.inr (Or.inr ⟨data, rfl, Or.inl hs⟩))) h
        · rfl
      have hv : data.vertexCount ≠ 0 :=
        fun hz => h (Or.inr (Or.inr (Or.inr ⟨data, rfl, Or.inr hz⟩)))
      rw [hd, hc, draw_proceeds ctx0 data mapOk hr hv]
      exact ⟨rfl, rfl, rfl, rfl, rfl, rfl, rfl, rfl⟩

/-- Claim C16.  For every initial state of the device context, every user data
and every outcome of `Map`: when `draw` returns, having issued its `Draw` call
or having left early, the bound blend state with its blend factor and sample
mask, the rasterizer state, the input layout and the vertex, geometry and pixel
shaders are those bound immediately before `draw` was called. -/
theorem draw_restores_saved_state (ctx0 : DeviceContext F)
    (userData : Option (GaussianDrawData F)) (device hasContext mapOk : Bool) :
    (draw ctx0 userData device hasContext mapOk).blendState = ctx0.blendState ∧
    (draw ctx0 userData device hasContext mapOk).blendFactor = ctx0.blendFactor ∧
    (draw ctx0 userData device hasContext mapOk).sampleMask = ctx0.sampleMask ∧
    (draw ctx0 userData device hasContext mapOk).rsState = ctx0.rsState ∧
    (draw ctx0 userData device hasContext mapOk).inputLayout = ctx0.inputLayout ∧
    (draw ctx0 userData device hasContext mapOk).vsShader = ctx0.vsShader ∧
    (draw ctx0 userData device hasContext mapOk).gsShader = ctx0.gsShader ∧
    (draw ctx0 userData device hasContext mapOk).psShader = ctx0.psShader :=
  draw_saved ctx0 userData device hasContext mapOk

/-- Claim C20, amended.  For every initial state of the device context: on the
early exits of `draw` (null user data, shaders not ready or no vertex, no
device, no immediate context) the context is left exactly as it was; on every
path the input layout, the three shaders, the blend state with its factor and
mask and the rasterizer state have their pre-draw values when `draw` returns;
and when `draw` reaches its `Draw` call it issues `Draw(vertexCount, 0)` and
leaves the primitive topology at point list, vertex-buffer slots 0 and 1 at the
position and colour buffers with strides 12 and 16 and offset 0, and
constant-buffer slot 0 of the vertex and geometry stages at the constant
buffer, all other slots being untouched. -/
theorem draw_context_after (ctx0 : DeviceContext F) (userData : Option (GaussianDrawData F))
    (device hasContext mapOk : Bool) :
    ((userData = none ∨ device = false ∨ hasContext = false ∨
      ∃ data, userData = some data ∧ (data.shadersReady = false ∨ data.vertexCount = 0)) →
      draw ctx0 userData device hasContext mapOk = ctx0) ∧
    ((draw ctx0 userData device hasContext mapOk).inputLayout = ctx0.inputLayout ∧
      (draw ctx0 userData device hasContext mapOk).vsShader = ctx0.vsShader ∧
      (draw ctx0 userData device hasContext mapOk).gsShader = ctx0.gsShader ∧
      (draw ctx0 userData device hasContext mapOk).psShader = ctx0.psShader ∧
      (draw ctx0 userData device hasContext mapOk).blendState = ctx0.blendState ∧
      (draw ctx0 userData device hasContext mapOk).blendFactor = ctx0.blendFactor ∧
      (draw ctx0 userData device hasContext mapOk).sampleMask = ctx0.sampleMask ∧
      (draw ctx0 userData device hasContext mapOk).rsState = ctx0.rsState) ∧
    (∀ data, userData = some data → data.shadersReady = true → data.vertexCount ≠ 0 →
      device = true → hasContext = true →
      (draw ctx0 userData device hasContext mapOk).draws
        = ctx0.draws ++ [(data.vertexCount, 0)] ∧
      (draw ctx0 userData device hasContext mapOk).topology
        = D3D11_PRIMITIVE_TOPOLOGY_POINTLIST ∧
      (draw ctx0 userData device hasContext mapOk).vertexBuffers 0
        = { buffer := data.posBuf, stride := 12, offset := 0 } ∧
      (draw ctx0 userData device hasContext mapOk).vertexBuffers 1
        = { buffer := data.colBuf, stride := 16, offset := 0 } ∧
      (draw ctx0 userData device hasContext mapOk).vsConstantBuffers 0 = data.constBuf ∧
      (draw ctx0 userData device hasContext mapOk).gsConstantBuffers 0 = data.constBuf ∧
      (∀ slot, 2 ≤ slot → (draw ctx0 userData device hasContext mapOk).vertexBuffers slot
        = ctx0.vertexBuffers slot) ∧
      (∀ slot, 1 ≤ slot → (draw ctx0 userData device hasContext mapOk).vsConstantBuffers slot
        = ctx0.vsConstantBuffers slot ∧
        (draw ctx0 userData device hasContext mapOk).gsConstantBuffers slot
        = ctx0.gsConstantBuffers slot)) := by
  refine ⟨draw_early ctx0 userData device hasContext mapOk, ?_, ?_⟩
  · have e := draw_saved ctx0 userData device hasContext mapOk
    exact ⟨e.2.2.2.2.1, e.2.2.2.2.2.1, e.2.2.2.2.2.2.1, e.2.2.2.2.2.2.2, e.1, e.2.1, e.2.2.1,
      e.2.2.2.1⟩
  · intro data hu hr hv hd hc
    rw [hu, hd, hc, draw_proceeds ctx0 data mapOk hr hv]
    refine ⟨rfl, rfl, rfl, rfl, rfl, rfl, ?_, ?_⟩
    · intro slot hs
      have h0 : slot ≠ 0 := by omega
      have h1 : slot ≠ 1 := by omega
      simp only [setPipeline, if_neg h0, if_neg h1]
    · intro slot hs
      have h0 : slot ≠ 0 := by omega
      simp only [setPipeline, if_neg h0, and_self]

/-! ## The geometry shader -/

/-- The four entries of `corners` are the four sign pairs. -/
theorem corners_signs :
    (∀ k : Fin 4, ((corners k 0 : F) = -1 ∨ (corners k 0 : F) = 1) ∧
      ((corners k 1 : F) = -1 ∨ (corners k 1 : F) = 1)) ∧
    (∀ sx sy : F, (sx = -1 ∨ sx = 1) → (sy = -1 ∨ sy = 1) →
      ∃ k : Fin 4, (corners k 0 : F) = sx ∧ (corners k 1 : F) = sy) := by
  constructor
  · intro k
    fin_cases k
    · exact ⟨Or.inl rfl, Or.inr rfl⟩
    · exact ⟨Or.inr rfl, Or.inr rfl⟩
    · exact ⟨Or.inl rfl, Or.inl rfl⟩
    · exact ⟨Or.inr rfl, Or.inl rfl⟩
  · intro sx sy hx hy
    rcases hx with rfl | rfl <;> rcases hy with rfl | rfl
    · exact ⟨2, rfl, rfl⟩
    · exact ⟨0, rfl, rfl⟩
    · exact ⟨3, rfl, rfl⟩
    · exact ⟨1, rfl, rfl⟩

/-- The vertex `GS` emits for corner `k`. -/
theorem GS_get (cb : CBPerObject F) (input : VS_OUT F) (k : Fin 4) :
    (GS cb input)[k.val]? = some
      { clip := ![input.clip 0 + corners k 0 * (cb.pointSize / cb.vpWidth * input.clip 3),
                  input.clip 1 + corners k 1 * (cb.pointSize / cb.vpHeight * input.clip 3),
                  input.clip 2 + 0, input.clip 3 + 0],
        col := input.col, uv := corners k } := by
  unfold GS
  simp only [List.getElem?_map]
  rw [List.getElem?_eq_getElem (by simp)]
  simp

/-- Claim C19.  Over any ordered field, so over the rationals: for every
clip-space position `c` with `c.w ≠ 0`, every point size `r` and every non-zero
viewport width `W` and height `H`, `GS` emits exactly four vertices; vertex `k`
is `c + (sx * h.x, sy * h.y, 0, 0)` with `(sx, sy) = corners k`,
`h = (r / W, r / H) * c.w`, carries `uv = (sx, sy)` and the input colour; the
four `(sx, sy)` are the four pairs of signs; and after the divide by `w` the
offset of each corner from the centre is `(sx * r / W, sy * r / H)`, in which
`c` does not occur. -/
theorem GS_quad (cb : CBPerObject F) (input : VS_OUT F) (hw : input.clip 3 ≠ 0)
    (hW : cb.vpWidth ≠ 0) (hH : cb.vpHeight ≠ 0) :
    (GS cb input).length = 4 ∧
    (∀ k : Fin 4, ∃ v, (GS cb input)[k.val]? = some v ∧
      v.clip 0 = input.clip 0 + corners k 0 * (cb.pointSize / cb.vpWidth * input.clip 3) ∧
      v.clip 1 = input.clip 1 + corners k 1 * (cb.pointSize / cb.vpHeight * input.clip 3) ∧
      v.clip 2 = input.clip 2 ∧ v.clip 3 = input.clip 3 ∧
      v.uv = corners k ∧ v.col = input.col ∧
      ndcXY v.clip 0 - ndcXY input.clip 0 = corners k 0 * cb.pointSize / cb.vpWidth ∧
      ndcXY v.clip 1 - ndcXY input.clip 1 = corners k 1 * cb.pointSize / cb.vpHeight) ∧
    (∀ k : Fin 4, ((corners k 0 : F) = -1 ∨ (corners k 0 : F) = 1) ∧
      ((corners k 1 : F) = -1 ∨ (corners k 1 : F) = 1)) ∧
    (∀ sx sy : F, (sx = -1 ∨ sx = 1) → (sy = -1 ∨ sy = 1) →
      ∃ k : Fin 4, (corners k 0 : F) = sx ∧ (corners k 1 : F) = sy) := by
  refine ⟨by simp [GS], ?_, corners_signs.1, corners_signs.2⟩
  intro k
  refine ⟨_, GS_get cb input k, ?_⟩
  refine ⟨rfl, rfl, add_zero _, add_zero _, rfl, rfl, ?_, ?_⟩
  · change (input.clip 0 + corners k 0 * (cb.pointSize / cb.vpWidth * input.clip 3))
        / (input.clip 3 + 0) - input.clip 0 / input.clip 3 = corners k 0 * cb.pointSize / cb.vpWidth
    rw [add_zero]
    field_simp
    ring
  · change (input.clip 1 + corners k 1 * (cb.pointSize / cb.vpHeight * input.clip 3))
        / (input.clip 3 + 0) - input.clip 1 / input.clip 3
          = corners k 1 * cb.pointSize / cb.vpHeight
    rw [add_zero]
    field_simp
    ring

/-! ## Ownership of the device objects -/

omit [LinearOrderedField F] in
/-- The guarded release appends the pointer, if any, to the release log. -/
theorem Gpu.safeRelease_eq (g : Gpu) (p : Option Handle) :
    g.safeRelease p = { g with released := g.released ++ p.toList } := by
  cases p with
  | none => simp [Gpu.safeRelease]
  | some h => rfl

omit [LinearOrderedField F] in
/-- The non-null entries of a list of pointers, one pointer at a time. -/
theorem reduceOption_cons_toList {α : Type} (a : Option α) (l : List (Option α)) :
    (a :: l).reduceOption = a.toList ++ l.reduceOption := by
  cases a with
  | none => simp [List.reduceOption_cons_of_none]
  | some v => simp [List.reduceOption_cons_of_some]

omit [LinearOrderedField F] in
/-- Ownership, handle by handle: the number of pointers holding a handle plus
the number of times it was released is one for a created object and zero
otherwise. -/
theorem resourcesOwned_iff (d : GaussianDrawData F) (g : Gpu) :
    ResourcesOwned d g ↔ ∀ h : Handle,
      d.vs.toList.count h + d.gs.toList.count h + d.ps.toList.count h
        + d.inputLayout.toList.count h + d.posBuf.toList.count h + d.colBuf.toList.count h
        + d.constBuf.toList.count h + d.blendState.toList.count h + d.rsState.toList.count h
        + g.released.count h = (List.range g.created.length).count h := by
  unfold ResourcesOwned GaussianDrawData.held GaussianDrawData.slots
  rw [List.perm_iff_count]
  simp only [reduceOption_cons_toList, List.reduceOption_nil, List.count_append, List.count_nil,
    List.append_nil]
  constructor
  · intro h a
    have := h a
    omega
  · intro h a
    have := h a
    omega

omit [LinearOrderedField F] in
/-- The function `uploadVertices` keeps ownership. -/
theorem uploadVertices_owned (d : GaussianDrawData F) (g : Gpu) (device : Bool) (count : Nat)
    (o : UploadOutcomes) (h : ResourcesOwned d g) :
    ResourcesOwned (d.uploadVertices g device count o).2.1
      (d.uploadVertices g device count o).2.2 := by
  rw [resourcesOwned_iff] at h ⊢
  intro a
  have ha := h a
  unfold GaussianDrawData.uploadVertices
  simp only [Gpu.safeRelease_eq]
  by_cases h0 : device = false ∨ count = 0
  · rw [if_pos h0]
    simp only [Option.toList_none, List.count_nil, List.count_append]
    omega
  · rw [if_neg h0]
    cases h1 : o.createPos
    · simp only [if_true, Option.toList_none, List.count_nil, List.count_append, Gpu.create,
        Bool.false_eq_true, if_false]
      omega
    · cases h2 : o.createCol
      · simp only [Gpu.create, if_true, Bool.true_eq_false, Bool.false_eq_true, if_false,
          Option.toList_none, Option.toList_some, List.count_nil, List.count_append,
          List.length_append, List.length_singleton, List.range_succ]
        omega
      · simp only [Gpu.create, if_true, Bool.true_eq_false, if_false,
          Option.toList_none, Option.toList_some, List.count_nil, List.count_append,
          List.length_append, List.length_singleton, List.range_succ]
        omega

omit [LinearOrderedField F] in
/-- The function `initShaders`, entered with its seven pointers null, keeps
ownership. -/
theorem initShaders_owned (d : GaussianDrawData F) (g : Gpu) (o : InitOutcomes)
    (hn : d.vs = none ∧ d.gs = none ∧ d.ps = none ∧ d.inputLayout = none ∧ d.constBuf = none ∧
      d.blendState = none ∧ d.rsState = none)
    (h : ResourcesOwned d g) :
    ResourcesOwned (d.initShaders g o).2.1 (d.initShaders g o).2.2 := by
  rw [resourcesOwned_iff] at h ⊢
  intro a
  have ha := h a
  obtain ⟨n1, n2, n3, n4, n5, n6, n7⟩ := hn
  rw [n1, n2, n3, n4, n5, n6, n7] at ha
  simp only [Option.toList_none, List.count_nil] at ha
  rcases o with ⟨a1, a2, a3, a4, a5, a6, a7, a8, a9, a10⟩
  cases a1
  · simp only [GaussianDrawData.initShaders, if_true, n1, n2, n3, n4, n5, n6, n7,
      Option.toList_none, List.count_nil]
    omega
  cases a2
  · simp only [GaussianDrawData.initShaders, if_true, Bool.true_eq_false, if_false,
      n1, n2, n3, n4, n5, n6, n7, Option.toList_none, List.count_nil]
    omega
  cases a3
  · simp only [GaussianDrawData.initShaders, if_true, Bool.true_eq_false, if_false,
      n1, n2, n3, n4, n5, n6, n7, Option.toList_none, List.count_nil]
    omega
  cases a4
  · simp only [GaussianDrawData.initShaders, initCleanupFailed, GaussianDrawData.releaseAll,
      Gpu.safeRelease_eq, Gpu.create, if_true, Bool.true_eq_false, Bool.false_eq_true, if_false,
      n2, n3, n4, n5, n6, n7, Option.toList_none, Option.toList_some, List.count_nil,
      List.count_append, List.append_nil, List.length_append, List.length_singleton,
      List.range_succ, Nat.add_assoc, Nat.reduceAdd]
    omega
  cases a5
  · simp only [GaussianDrawData.initShaders, initCleanupFailed, GaussianDrawData.releaseAll,
      Gpu.safeRelease_eq, Gpu.create, if_true, Bool.true_eq_false, Bool.false_eq_true, if_false,
      n2, n3, n4, n5, n6, n7, Option.toList_none, Option.toList_some, List.count_nil,
      List.count_append, List.append_nil, List.length_append, List.length_singleton,
      List.range_succ, Nat.add_assoc, Nat.reduceAdd]
    omega
  cases a6
  · simp only [GaussianDrawData.initShaders, initCleanupFailed, GaussianDrawData.releaseAll,
      Gpu.safeRelease_eq, Gpu.create, if_true, Bool.true_eq_false, Bool.false_eq_true, if_false,
      n2, n3, n4, n5, n6, n7, Option.toList_none, Option.toList_some, List.count_nil,
      List.count_append, List.append_nil, List.length_append, List.length_singleton,
      List.range_succ, Nat.add_assoc, Nat.reduceAdd]
    omega
  cases a7
  · simp only [GaussianDrawData.initShaders, initCleanupFailed, GaussianDrawData.releaseAll,
      Gpu.safeRelease_eq, Gpu.create, if_true, Bool.true_eq_false, Bool.false_eq_true, if_false,
      n2, n3, n4, n5, n6, n7, Option.toList_none, Option.toList_some, List.count_nil,
      List.count_append, List.append_nil, List.length_append, List.length_singleton,
      List.range_succ, Nat.add_assoc, Nat.reduceAdd]
    omega
  cases a8
  · simp only [GaussianDrawData.initShaders, initCleanupFailed, GaussianDrawData.releaseAll,
      Gpu.safeRelease_eq, Gpu.create, if_true, Bool.true_eq_false, Bool.false_eq_true, if_false,
      n2, n3, n4, n5, n6, n7, Option.toList_none, Option.toList_some, List.count_nil,
      List.count_append, List.append_nil, List.length_append, List.length_singleton,
      List.range_succ, Nat.add_assoc, Nat.reduceAdd]
    omega
  cases a9
  · simp only [GaussianDrawData.initShaders, initCleanupFailed, GaussianDrawData.releaseAll,
      Gpu.safeRelease_eq, Gpu.create, if_true, Bool.true_eq_false, Bool.false_eq_true, if_false,
      n2, n3, n4, n5, n6, n7, Option.toList_none, Option.toList_some, List.count_nil,
      List.count_append, List.append_nil, List.length_append, List.length_singleton,
      List.range_succ, Nat.add_assoc, Nat.reduceAdd]
    omega
  cases a10
  · simp only [GaussianDrawData.initShaders, initCleanupFailed, GaussianDrawData.releaseAll,
      Gpu.safeRelease_eq, Gpu.create, if_true, Bool.true_eq_false, Bool.false_eq_true, if_false,
      n2, n3, n4, n5, n6, n7, Option.toList_none, Option.toList_some, List.count_nil,
      List.count_append, List.append_nil, List.length_append, List.length_singleton,
      List.range_succ, Nat.add_assoc, Nat.reduceAdd]
    omega
  · simp only [GaussianDrawData.initShaders, Gpu.create, if_true, Bool.true_eq_false, if_false,
      Option.toList_none, Option.toList_some, List.count_nil,
      List.count_append, List.append_nil, List.length_append, List.length_singleton,
      List.range_succ, Nat.add_assoc, Nat.reduceAdd]
    omega

omit [LinearOrderedField F] in
/-- The function `initShaders`, entered with its seven pointers null, leaves
them null unless it sets `shadersReady`. -/
theorem initShaders_shadersNull (d : GaussianDrawData F) (g : Gpu) (o : InitOutcomes)
    (hn : d.vs = none ∧ d.gs = none ∧ d.ps = none ∧ d.inputLayout = none ∧ d.constBuf = none ∧
      d.blendState = none ∧ d.rsState = none) :
    ShadersNull (d.initShaders g o).2.1 := by
  rcases o with ⟨a1, a2, a3, a4, a5, a6, a7, a8, a9, a10⟩
  intro hs
  cases a1
  · exact hn
  cases a2
  · exact hn
  cases a3
  · exact hn
  cases a4
  · exact ⟨rfl, rfl, rfl, rfl, rfl, rfl, rfl⟩
  cases a5
  · exact ⟨rfl, rfl, rfl, rfl, rfl, rfl, rfl⟩
  cases a6
  · exact ⟨rfl, rfl, rfl, rfl, rfl, rfl, rfl⟩
  cases a7
  · exact ⟨rfl, rfl, rfl, rfl, rfl, rfl, rfl⟩
  cases a8
  · exact ⟨rfl, rfl, rfl, rfl, rfl, rfl, rfl⟩
  cases a9
  · exact ⟨rfl, rfl, rfl, rfl, rfl, rfl, rfl⟩
  cases a10
  · exact ⟨rfl, rfl, rfl, rfl, rfl, rfl, rfl⟩
  · exact Bool.noConfusion hs

omit [LinearOrderedField F] in
/-- What `initShaders` does to the device logs and to the vertex buffers: the
creation log is extended, the release log is extended, and the two vertex
buffers are either kept or both released and set to null. -/
theorem initShaders_trace (d : GaussianDrawData F) (g : Gpu) (o : InitOutcomes) :
    (∃ l, (d.initShaders g o).2.2.created = g.created ++ l) ∧
    (∀ h ∈ g.released, h ∈ (d.initShaders g o).2.2.released) ∧
    (((d.initShaders g o).2.1.posBuf = d.posBuf ∧ (d.initShaders g o).2.1.colBuf = d.colBuf) ∨
      ∀ h, d.posBuf = some h ∨ d.colBuf = some h → h ∈ (d.initShaders g o).2.2.released) := by
  rcases o with ⟨a1, a2, a3, a4, a5, a6, a7, a8, a9, a10⟩
  cases a1
  · exact ⟨⟨[], (List.append_nil _).symm⟩, fun _ h => h, Or.inl ⟨rfl, rfl⟩⟩
  cases a2
  · exact ⟨⟨[], (List.append_nil _).symm⟩, fun _ h => h, Or.inl ⟨rfl, rfl⟩⟩
  cases a3
  · exact ⟨⟨[], (List.append_nil _).symm⟩, fun _ h => h, Or.inl ⟨rfl, rfl⟩⟩
  cases a4
  · simp only [GaussianDrawData.initShaders, initCleanupFailed, GaussianDrawData.releaseAll,
      Gpu.safeRelease_eq, Gpu.create, if_true, Bool.true_eq_false, Bool.false_eq_true, if_false,
      Option.toList_none, List.append_nil, List.mem_append, Option.mem_toList, Option.mem_def]
    exact ⟨⟨[], (List.append_nil _).symm⟩, fun _ h => by tauto, Or.inr (fun _ h => by tauto)⟩
  cases a5
  · simp only [GaussianDrawData.initShaders, initCleanupFailed, GaussianDrawData.releaseAll,
      Gpu.safeRelease_eq, Gpu.create, if_true, Bool.true_eq_false, Bool.false_eq_true, if_false,
      Option.toList_none, List.append_nil, List.mem_append, Option.mem_toList, Option.mem_def]
    exact ⟨⟨_, rfl⟩, fun _ h => by tauto, Or.inr (fun _ h => by tauto)⟩
  cases a6
  · simp only [GaussianDrawData.initShaders, initCleanupFailed, GaussianDrawData.releaseAll,
      Gpu.safeRelease_eq, Gpu.create, if_true, Bool.true_eq_false, Bool.false_eq_true, if_false,
      Option.toList_none, List.append_nil, List.mem_append, Option.mem_toList, Option.mem_def,
      List.append_assoc]
    exact ⟨⟨_, rfl⟩, fun _ h => by tauto, Or.inr (fun _ h => by tauto)⟩
  cases a7
  · simp only [GaussianDrawData.initShaders, initCleanupFailed, GaussianDrawData.releaseAll,
      Gpu.safeRelease_eq, Gpu.create, if_true, Bool.true_eq_false, Bool.false_eq_true, if_false,
      Option.toList_none, List.append_nil, List.mem_append, Option.mem_toList, Option.mem_def,
      List.append_assoc]
    exact ⟨⟨_, rfl⟩, fun _ h => by tauto, Or.inr (fun _ h => by tauto)⟩
  cases a8
  · simp only [GaussianDrawData.initShaders, initCleanupFailed, GaussianDrawData.releaseAll,
      Gpu.safeRelease_eq, Gpu.create, if_true, Bool.true_eq_false, Bool.false_eq_true, if_false,
      Option.toList_none, List.append_nil, List.mem_append, Option.mem_toList, Option.mem_def,
      List.append_assoc]
    exact ⟨⟨_, rfl⟩, fun _ h => by tauto, Or.inr (fun _ h => by tauto)⟩
  cases a9
  · simp only [GaussianDrawData.initShaders, initCleanupFailed, GaussianDrawData.releaseAll,
      Gpu.safeRelease_eq, Gpu.create, if_true, Bool.true_eq_false, Bool.false_eq_true, if_false,
      Option.toList_none, List.append_nil, List.mem_append, Option.mem_toList, Option.mem_def,
      List.append_assoc]
    exact ⟨⟨_, rfl⟩, fun _ h => by tauto, Or.inr (fun _ h => by tauto)⟩
  cases a10
  · simp only [GaussianDrawData.initShaders, initCleanupFailed, GaussianDrawData.releaseAll,
      Gpu.safeRelease_eq, Gpu.create, if_true, Bool.true_eq_false, Bool.false_eq_true, if_false,
      Option.toList_none, List.append_nil, List.mem_append, Option.mem_toList, Option.mem_def,
      List.append_assoc]
    exact ⟨⟨_, rfl⟩, fun _ h => by tauto, Or.inr (fun _ h => by tauto)⟩
  · refine ⟨?_, fun _ h => h, Or.inl ⟨rfl, rfl⟩⟩
    simp only [GaussianDrawData.initShaders, Gpu.create, if_true, Bool.true_eq_false, if_false,
      List.append_assoc]
    exact ⟨_, rfl⟩

omit [LinearOrderedField F] in
/-- The function `uploadVertices` releases the two buffers it is entered with
and keeps the release log it is entered with. -/
theorem uploadVertices_released (d : GaussianDrawData F) (g : Gpu) (device : Bool) (count : Nat)
    (o : UploadOutcomes) (h : Handle)
    (hh : h ∈ g.released ∨ d.posBuf = some h ∨ d.colBuf = some h) :
    h ∈ (d.uploadVertices g device count o).2.2.released := by
  unfold GaussianDrawData.uploadVertices
  simp only [Gpu.safeRelease_eq]
  have hm : h ∈ g.released ++ d.posBuf.toList ++ d.colBuf.toList := by
    simp only [List.mem_append, Option.mem_toList, Option.mem_def]
    tauto
  by_cases h0 : device = false ∨ count = 0
  · rw [if_pos h0]
    exact hm
  · rw [if_neg h0]
    cases h1 : o.createPos
    · simp only [Gpu.create, if_true, Bool.false_eq_true, if_false]
      exact hm
    · cases h2 : o.createCol
      · simp only [Gpu.create, if_true, Bool.true_eq_false, Bool.false_eq_true, if_false,
          Option.toList_some]
        exact List.mem_append_left _ hm
      · simp only [Gpu.create, if_true, Bool.true_eq_false, if_false]
        exact hm

omit [LinearOrderedField F] in
/-- The function `uploadVertices` with a device, a non-zero count and both
creations succeeding: the two buffers are the next two handles of the device,
created with `ByteWidth` twelve and sixteen bytes per vertex as 32-bit values. -/
theorem uploadVertices_ok (d : GaussianDrawData F) (g : Gpu) (count : Nat)
    (hc : count ≠ 0) :
    (d.uploadVertices g true count { createPos := true, createCol := true }).1 = true ∧
    (d.uploadVertices g true count { createPos := true, createCol := true }).2.1.vertexCount
      = count ∧
    (d.uploadVertices g true count { createPos := true, createCol := true }).2.1.posBuf
      = some g.created.length ∧
    (d.uploadVertices g true count { createPos := true, createCol := true }).2.1.colBuf
      = some (g.created.length + 1) ∧
    (d.uploadVertices g true count { createPos := true, createCol := true }).2.2.created
      = g.created ++ [count * 3 * 4 % 2 ^ 32, count * 4 * 4 % 2 ^ 32] := by
  unfold GaussianDrawData.uploadVertices
  simp only [Gpu.safeRelease_eq, Gpu.create, Bool.true_eq_false, false_or, if_neg hc, if_true,
    if_false, List.length_append, List.length_singleton, List.append_assoc, List.singleton_append,
    and_self]

omit [LinearOrderedField F] in
/-- An extracted `int` is at most `INT_MAX` when the variable was. -/
theorem extractInt_le (cur : Int) (s : List Char) (h : cur ≤ INT_MAX) :
    extractInt cur s ≤ INT_MAX := by
  unfold extractInt
  cases hd : s.dropWhile isSpace with
  | nil => exact h
  | cons c cs =>
    simp only
    generalize (if c = '-' ∨ c = '+' then cs else c :: cs).takeWhile Char.isDigit = ds
    split_ifs
    · decide
    · exact le_trans (max_le (by decide) (neg_nonpos.mpr (Int.natCast_nonneg _))) (by decide)
    · exact min_le_left _ _

omit [LinearOrderedField F] in
/-- The vertex count of the header loop stays at most `INT_MAX`. -/
theorem foldl_headerLine_vertexCount_le (lines : List (List Char)) :
    ∀ st : HeaderState, st.vertexCount ≤ INT_MAX →
      (lines.foldl headerLine st).vertexCount ≤ INT_MAX := by
  induction lines with
  | nil => intro st h; exact h
  | cons l ls ih =>
    intro st h
    rw [List.foldl_cons]
    apply ih
    rw [headerLine_vertexCount]
    cases vertexCountText l with
    | none => exact h
    | some t => exact extractInt_le _ _ h

/-- A successful `read` leaves a dataset that is not empty and whose record
count fits an `unsigned int`. -/
theorem read_ok_count (L : FloatLib F) (fs : String → Option (List Char)) (path : String)
    (out : GaussianData F) (err : String) (hok : (read L fs path out err).ok = true) :
    (read L fs path out err).outData.empty = false ∧
    (read L fs path out err).outData.count < 2 ^ 32 := by
  obtain ⟨file, st, data, hf, hh⟩ := read_ok_headerOf L fs path out err hok
  have hle : st.vertexCount ≤ INT_MAX := by
    rw [headerOf_headerLinesOf file st data hh]
    exact foldl_headerLine_vertexCount_le _ _ (by decide)
  rw [read_of_headerOf L fs path out err file st data hf hh] at hok ⊢
  have hacc := readBody_ok_accepted L st data out err hok
  have hlen := readBody_ok_splats L st data out err hok
  have hpos : 0 < st.vertexCount := hacc.2.1
  have hI : INT_MAX = 2147483647 := rfl
  rw [hI] at hle
  constructor
  · unfold GaussianData.empty
    rw [List.isEmpty_eq_false_iff_exists_mem]
    cases hs : (readBody L st data out err).outData.splats with
    | nil =>
      rw [hs] at hlen
      simp only [List.length_nil] at hlen
      omega
    | cons x xs => exact ⟨x, List.mem_cons_self _ _⟩
  · unfold GaussianData.count
    rw [hlen]
    omega

omit [LinearOrderedField F] in
/-- The shader step of a prepare keeps ownership and the null pointers of a
user data that is not ready. -/
theorem ensureShaders_owned (d : GaussianDrawData F) (g : Gpu) (device : Bool)
    (o : InitOutcomes) (h : ResourcesOwned d g) (hn : ShadersNull d) :
    ResourcesOwned (ensureShaders d g device o).1 (ensureShaders d g device o).2 ∧
    ShadersNull (ensureShaders d g device o).1 := by
  unfold ensureShaders
  by_cases hg : d.shadersReady = false ∧ device = true
  · rw [if_pos hg]
    exact ⟨initShaders_owned d g o (hn hg.1) h, initShaders_shadersNull d g o (hn hg.1)⟩
  · rw [if_neg hg]
    exact ⟨h, hn⟩

omit [LinearOrderedField F] in
/-- What the shader step of a prepare does to the device logs and to the vertex
buffers. -/
theorem ensureShaders_trace (d : GaussianDrawData F) (g : Gpu) (device : Bool)
    (o : InitOutcomes) :
    (∃ l, (ensureShaders d g device o).2.created = g.created ++ l) ∧
    (∀ h ∈ g.released, h ∈ (ensureShaders d g device o).2.released) ∧
    (((ensureShaders d g device o).1.posBuf = d.posBuf ∧
        (ensureShaders d g device o).1.colBuf = d.colBuf) ∨
      ∀ h, d.posBuf = some h ∨ d.colBuf = some h →
        h ∈ (ensureShaders d g device o).2.released) := by
  unfold ensureShaders
  by_cases hg : d.shadersReady = false ∧ device = true
  · rw [if_pos hg]
    exact initShaders_trace d g o
  · rw [if_neg hg]
    exact ⟨⟨[], (List.append_nil _).symm⟩, fun _ h => h, Or.inl ⟨rfl, rfl⟩⟩

omit [LinearOrderedField F] in
/-- The function `uploadVertices` keeps the null pointers of a user data that
is not ready. -/
theorem uploadVertices_shadersNull (d : GaussianDrawData F) (g : Gpu) (device : Bool)
    (count : Nat) (o : UploadOutcomes) (hn : ShadersNull d) :
    ShadersNull (d.uploadVertices g device count o).2.1 := by
  have e := uploadVertices_shaders d g device count o
  unfold ShadersNull
  rw [e.1, e.2.1, e.2.2.1, e.2.2.2.1, e.2.2.2.2.1, e.2.2.2.2.2.1, e.2.2.2.2.2.2.1,
    e.2.2.2.2.2.2.2]
  exact hn

/-- A prepare keeps ownership and the null pointers of a user data that is not
ready. -/
theorem prepareForDraw_owned (L : FloatLib F) (fs : String → Option (List Char))
    (ov : DrawOverride F) (inp : FrameInput F) (oldData : Option (GaussianDrawData F))
    (g : Gpu) (h : ResourcesOwned (oldData.getD GaussianDrawData.init) g)
    (hn : ShadersNull (oldData.getD GaussianDrawData.init)) :
    ResourcesOwned (prepareForDraw L fs ov inp oldData g).2.1
      (prepareForDraw L fs ov inp oldData g).2.2 ∧
    ShadersNull (prepareForDraw L fs ov inp oldData g).2.1 := by
  cases hnode : ov.m_node with
  | none =>
    rw [(prepare_no_node L fs ov inp oldData g hnode).1]
    exact ⟨h, hn⟩
  | some m =>
    have e1 := ensureShaders_owned (oldData.getD GaussianDrawData.init) g inp.device
      inp.initOutcomes h hn
    unfold ensureShaders at e1
    simp only [prepareForDraw, hnode]
    generalize (if (oldData.getD GaussianDrawData.init).shadersReady = false ∧ inp.device = true
      then ((oldData.getD GaussianDrawData.init).initShaders g inp.initOutcomes).2
      else (oldData.getD GaussianDrawData.init, g)) = r1 at e1 ⊢
    split_ifs
    · exact ⟨uploadVertices_owned _ _ _ _ _ e1.1, uploadVertices_shadersNull _ _ _ _ _ e1.2⟩
    · exact e1

/-- Every state reached by a sequence of prepares from the initial state keeps
ownership. -/
theorem runPrepares_owned (L : FloatLib F) (is : List (PrepareInput F)) :
    ∀ s : PluginState F,
      ResourcesOwned (s.data.getD GaussianDrawData.init) s.gpu →
      ShadersNull (s.data.getD GaussianDrawData.init) →
      ResourcesOwned ((runPrepares L s is).data.getD GaussianDrawData.init)
        (runPrepares L s is).gpu ∧
      ShadersNull ((runPrepares L s is).data.getD GaussianDrawData.init) := by
  induction is with
  | nil => intro s h hn; exact ⟨h, hn⟩
  | cons i is ih =>
    intro s h hn
    have e := prepareForDraw_owned L i.fs s.ov i.frame s.data s.gpu h hn
    exact ih (stepPrepare L s i) e.1 e.2

/-- The initial state owns nothing on a device on which nothing was created. -/
theorem init_owned :
    ResourcesOwned (GaussianDrawData.init : GaussianDrawData F) Gpu.init ∧
    ShadersNull (GaussianDrawData.init : GaussianDrawData F) :=
  ⟨List.Perm.refl _, fun _ => ⟨rfl, rfl, rfl, rfl, rfl, rfl, rfl⟩⟩

omit [LinearOrderedField F] in
/-- A handle occurs once in the list of the handles below `n`, and no other
handle occurs in it. -/
theorem count_range (n h : Nat) : (List.range n).count h = if h < n then 1 else 0 := by
  by_cases hlt : h < n
  · rw [if_pos hlt]
    exact List.count_eq_one_of_mem (List.nodup_range n) (List.mem_range.mpr hlt)
  · rw [if_neg hlt]
    exact List.count_eq_zero_of_not_mem (fun hm => hlt (List.mem_range.mp hm))

omit [LinearOrderedField F] in
/-- The number of pointers equal to a handle is the number of times the handle
occurs among the non-null pointers. -/
theorem count_some_reduceOption (l : List (Option Handle)) (h : Handle) :
    l.count (some h) = l.reduceOption.count h := by
  induction l with
  | nil => rfl
  | cons a l ih =>
    rw [reduceOption_cons_toList, List.count_append, ← ih, List.count_cons]
    cases a with
    | none => simp
    | some v =>
      by_cases hv : v = h
      · simp [hv, Nat.add_comm]
      · simp [hv, List.count_singleton]

omit [LinearOrderedField F] in
/-- Ownership in terms of the pointers and the release counter. -/
theorem resourcesOwned_count (d : GaussianDrawData F) (g : Gpu) (ho : ResourcesOwned d g)
    (h : Handle) :
    d.slots.count (some h) + g.releaseCount h = if h < g.created.length then 1 else 0 := by
  rw [count_some_reduceOption, ← count_range]
  have := List.perm_iff_count.mp ho h
  rw [List.count_append] at this
  exact this

omit [LinearOrderedField F] in
/-- The function `releaseAll` releases the held objects, each once. -/
theorem releaseAll_released (d : GaussianDrawData F) (g : Gpu) :
    (d.releaseAll g).2.released = g.released ++ d.held ∧
    (d.releaseAll g).2.created = g.created := by
  unfold GaussianDrawData.releaseAll GaussianDrawData.held GaussianDrawData.slots
  simp only [Gpu.safeRelease_eq, reduceOption_cons_toList, List.reduceOption_nil,
    List.append_nil, List.append_assoc, and_self]

/-- After tear-down of a state that keeps ownership, every object created has
been released exactly once, and nothing else has been released. -/
theorem teardown_released (s : PluginState F)
    (ho : ResourcesOwned (s.data.getD GaussianDrawData.init) s.gpu) (h : Handle) :
    s.teardown.releaseCount h = (if h < s.gpu.created.length then 1 else 0) ∧
    s.teardown.created = s.gpu.created := by
  have hc := List.perm_iff_count.mp ho h
  rw [List.count_append, count_range] at hc
  unfold PluginState.teardown Gpu.releaseCount
  cases hd : s.data with
  | none =>
    rw [hd] at hc
    simp only
    refine ⟨?_, trivial⟩
    rw [← hc]
    simp [GaussianDrawData.held, GaussianDrawData.slots, GaussianDrawData.init]
  | some d =>
    rw [hd] at hc
    simp only [Option.getD_some] at hc ⊢
    rw [(releaseAll_released d s.gpu).1, (releaseAll_released d s.gpu).2, List.count_append]
    refine ⟨?_, rfl⟩
    omega

omit [LinearOrderedField F] in
/-- The two entries appended to a list are found at its length and after. -/
theorem getElem?_append_two {α : Type} (l : List α) (x y : α) :
    (l ++ [x, y])[l.length]? = some x ∧ (l ++ [x, y])[l.length + 1]? = some y := by
  constructor
  · rw [List.getElem?_append_right (le_refl _)]
    simp
  · rw [List.getElem?_append_right (Nat.le_add_right _ _)]
    simp

/-- A prepare with a device whose `read` is called and returns true: the node
holds the dataset read, and the user data and the device are those left by
`uploadVertices`, called with the record count after the shader step. -/
theorem prepareForDraw_loaded (L : FloatLib F) (fs : String → Option (List Char))
    (ov : DrawOverride F) (inp : FrameInput F) (oldData : Option (GaussianDrawData F))
    (g : Gpu) (p : String) (hdev : inp.device = true)
    (hread : (prepareCalls L fs ov inp oldData g).read = some (p, true)) :
    ∃ m0, ov.m_node = some m0 ∧ (read L fs inp.filePath m0.clear "").ok = true ∧
      (prepareForDraw L fs ov inp oldData g).1.m_node
        = some (read L fs inp.filePath m0.clear "").outData ∧
      (prepareForDraw L fs ov inp oldData g).2.1.posBuf
        = (({ (ensureShaders (oldData.getD GaussianDrawData.init) g inp.device
              inp.initOutcomes).1 with vertexDirty := true }).uploadVertices
            (ensureShaders (oldData.getD GaussianDrawData.init) g inp.device inp.initOutcomes).2
            true (read L fs inp.filePath m0.clear "").outData.count
            inp.uploadOutcomes).2.1.posBuf ∧
      (prepareForDraw L fs ov inp oldData g).2.1.colBuf
        = (({ (ensureShaders (oldData.getD GaussianDrawData.init) g inp.device
              inp.initOutcomes).1 with vertexDirty := true }).uploadVertices
            (ensureShaders (oldData.getD GaussianDrawData.init) g inp.device inp.initOutcomes).2
            true (read L fs inp.filePath m0.clear "").outData.count
            inp.uploadOutcomes).2.1.colBuf ∧
      (prepareForDraw L fs ov inp oldData g).2.1.vertexCount
        = (({ (ensureShaders (oldData.getD GaussianDrawData.init) g inp.device
              inp.initOutcomes).1 with vertexDirty := true }).uploadVertices
            (ensureShaders (oldData.getD GaussianDrawData.init) g inp.device inp.initOutcomes).2
            true (read L fs inp.filePath m0.clear "").outData.count
            inp.uploadOutcomes).2.1.vertexCount ∧
      (prepareForDraw L fs ov inp oldData g).2.2
        = (({ (ensureShaders (oldData.getD GaussianDrawData.init) g inp.device
              inp.initOutcomes).1 with vertexDirty := true }).uploadVertices
            (ensureShaders (oldData.getD GaussianDrawData.init) g inp.device inp.initOutcomes).2
            true (read L fs inp.filePath m0.clear "").outData.count inp.uploadOutcomes).2.2 := by
  cases hnode : ov.m_node with
  | none =>
    rw [(prepare_no_node L fs ov inp oldData g hnode).2] at hread
    cases hread
  | some m0 =>
    simp only [prepareCalls, hnode] at hread
    split_ifs at hread with hc
    have hok : (read L fs inp.filePath m0.clear "").ok = true :=
      (Prod.mk.inj (Option.some.inj hread)).2
    have hcnt := read_ok_count L fs inp.filePath m0.clear "" hok
    refine ⟨m0, rfl, hok, ?_⟩
    unfold ensureShaders
    simp only [prepareForDraw, hnode, reloadIfChanged, if_pos hc.1, if_pos hc.2, hdev,
      hcnt.1, Nat.mod_eq_of_lt hcnt.2, and_self, if_true]


/-- A prepare with a device in which the path changed, `read` returned true and
both buffer creations succeed: the two vertex buffers are objects created
during this prepare, with `ByteWidth` twelve and sixteen bytes per record as
32-bit values, `vertexCount` is the record count, and the buffers held before
have each been released exactly once. -/
theorem prepare_replaces (L : FloatLib F) (fs : String → Option (List Char))
    (ov : DrawOverride F) (inp : FrameInput F) (oldData : Option (GaussianDrawData F))
    (g : Gpu) (p : String)
    (ho : ResourcesOwned (oldData.getD GaussianDrawData.init) g)
    (hn : ShadersNull (oldData.getD GaussianDrawData.init))
    (hdev : inp.device = true) (hpos : inp.uploadOutcomes.createPos = true)
    (hcol : inp.uploadOutcomes.createCol = true)
    (hread : (prepareCalls L fs ov inp oldData g).read = some (p, true)) :
    ∃ m a, (prepareForDraw L fs ov inp oldData g).1.m_node = some m ∧
      (prepareForDraw L fs ov inp oldData g).2.1.vertexCount = m.count ∧
      (prepareForDraw L fs ov inp oldData g).2.1.posBuf = some a ∧
      (prepareForDraw L fs ov inp oldData g).2.1.colBuf = some (a + 1) ∧
      g.created.length ≤ a ∧
      (prepareForDraw L fs ov inp oldData g).2.2.created[a]? = some (m.count * 3 * 4 % 2 ^ 32) ∧
      (prepareForDraw L fs ov inp oldData g).2.2.created[a + 1]?
        = some (m.count * 4 * 4 % 2 ^ 32) ∧
      ∀ h, (oldData.getD GaussianDrawData.init).posBuf = some h ∨
          (oldData.getD GaussianDrawData.init).colBuf = some h →
        (prepareForDraw L fs ov inp oldData g).2.2.releaseCount h = 1 := by
  obtain ⟨m0, hnode, hok, hm, hp, hc, hv, hg⟩ :=
    prepareForDraw_loaded L fs ov inp oldData g p hdev hread
  have hcnt := read_ok_count L fs inp.filePath m0.clear "" hok
  have hne : (read L fs inp.filePath m0.clear "").outData.count ≠ 0 := by
    intro hz
    have he := hcnt.1
    unfold GaussianData.empty at he
    unfold GaussianData.count at hz
    rw [List.length_eq_zero.mp hz] at he
    exact Bool.noConfusion he
  have hout : inp.uploadOutcomes = { createPos := true, createCol := true } := by
    cases hu : inp.uploadOutcomes with
    | mk a b =>
      rw [hu] at hpos hcol
      simp only at hpos hcol
      rw [hpos, hcol]
  rw [hout] at hp hc hv hg
  have hu := uploadVertices_ok
    ({ (ensureShaders (oldData.getD GaussianDrawData.init) g inp.device
        inp.initOutcomes).1 with vertexDirty := true })
    (ensureShaders (oldData.getD GaussianDrawData.init) g inp.device inp.initOutcomes).2
    _ hne
  have ht := ensureShaders_trace (oldData.getD GaussianDrawData.init) g inp.device
    inp.initOutcomes
  obtain ⟨l, hl⟩ := ht.1
  refine ⟨_, _, hm, hv.trans hu.2.1, hp.trans hu.2.2.1, hc.trans hu.2.2.2.1, ?_, ?_, ?_, ?_⟩
  · rw [hl, List.length_append]
    exact Nat.le_add_right _ _
  · rw [hg, hu.2.2.2.2]
    exact (getElem?_append_two _ _ _).1
  · rw [hg, hu.2.2.2.2]
    exact (getElem?_append_two _ _ _).2
  · intro h hh
    have hmem : h ∈ (prepareForDraw L fs ov inp oldData g).2.2.released := by
      rw [hg]
      apply uploadVertices_released
      rcases ht.2.2 with ⟨e1, e2⟩ | hr
      · right
        rcases hh with hh | hh
        · exact Or.inl (e1.trans hh)
        · exact Or.inr (e2.trans hh)
      · exact Or.inl (hr h hh)
    have hown := (prepareForDraw_owned L fs ov inp oldData g ho hn).1
    have hnd : ((prepareForDraw L fs ov inp oldData g).2.1.held ++
        (prepareForDraw L fs ov inp oldData g).2.2.released).Nodup :=
      (List.Perm.nodup_iff hown).mpr (List.nodup_range _)
    exact List.count_eq_one_of_mem (List.Nodup.of_append_right hnd) hmem

omit [LinearOrderedField F] in
/-- An `uploadVertices` in which a buffer creation fails returns false with
both buffers null and `vertexCount` zero. -/
theorem uploadVertices_create_fails (d : GaussianDrawData F) (g : Gpu) (device : Bool)
    (count : Nat) (o : UploadOutcomes)
    (h : o.createPos = false ∨ o.createCol = false) :
    (d.uploadVertices g device count o).1 = false ∧
    (d.uploadVertices g device count o).2.1.posBuf = none ∧
    (d.uploadVertices g device count o).2.1.colBuf = none ∧
    (d.uploadVertices g device count o).2.1.vertexCount = 0 := by
  unfold GaussianDrawData.uploadVertices
  simp only
  by_cases h0 : device = false ∨ count = 0
  · rw [if_pos h0]
    exact ⟨rfl, rfl, rfl, rfl⟩
  · rw [if_neg h0]
    by_cases h1 : o.createPos = false
    · rw [if_pos h1]
      simp [Gpu.create, h1]
    · rw [if_neg h1]
      have h2 : o.createCol = false := by
        rcases h with h | h
        · exact absurd h h1
        · exact h
      rw [if_pos h2]
      simp [Gpu.create, h2]

/-- A prepare with a device in which the path changed, `read` returned true and
a buffer creation fails: the node holds the dataset read, which is not empty,
both vertex buffers are null and `vertexCount` is zero, and the buffers held
before have each been released exactly once. -/
theorem prepare_replace_fails (L : FloatLib F) (fs : String → Option (List Char))
    (ov : DrawOverride F) (inp : FrameInput F) (oldData : Option (GaussianDrawData F))
    (g : Gpu) (p : String)
    (ho : ResourcesOwned (oldData.getD GaussianDrawData.init) g)
    (hn : ShadersNull (oldData.getD GaussianDrawData.init))
    (hdev : inp.device = true)
    (hfail : inp.uploadOutcomes.createPos = false ∨ inp.uploadOutcomes.createCol = false)
    (hread : (prepareCalls L fs ov inp oldData g).read = some (p, true)) :
    (∃ m, (prepareForDraw L fs ov inp oldData g).1.m_node = some m ∧ m.empty = false) ∧
    (prepareForDraw L fs ov inp oldData g).2.1.posBuf = none ∧
    (prepareForDraw L fs ov inp oldData g).2.1.colBuf = none ∧
    (prepareForDraw L fs ov inp oldData g).2.1.vertexCount = 0 ∧
    ∀ h, (oldData.getD GaussianDrawData.init).posBuf = some h ∨
        (oldData.getD GaussianDrawData.init).colBuf = some h →
      (prepareForDraw L fs ov inp oldData g).2.2.releaseCount h = 1 := by
  obtain ⟨m0, hnode, hok, hm, hp, hc, hv, hg⟩ :=
    prepareForDraw_loaded L fs ov inp oldData g p hdev hread
  have hcnt := read_ok_count L fs inp.filePath m0.clear "" hok
  have hu := uploadVertices_create_fails
    ({ (ensureShaders (oldData.getD GaussianDrawData.init) g inp.device
        inp.initOutcomes).1 with vertexDirty := true })
    (ensureShaders (oldData.getD GaussianDrawData.init) g inp.device inp.initOutcomes).2
    true (read L fs inp.filePath m0.clear "").outData.count inp.uploadOutcomes hfail
  have ht := ensureShaders_trace (oldData.getD GaussianDrawData.init) g inp.device
    inp.initOutcomes
  refine ⟨⟨_, hm, hcnt.1⟩, hp.trans hu.2.1, hc.trans hu.2.2.1, hv.trans hu.2.2.2, ?_⟩
  intro h hh
  have hmem : h ∈ (prepareForDraw L fs ov inp oldData g).2.2.released := by
    rw [hg]
    apply uploadVertices_released
    rcases ht.2.2 with ⟨e1, e2⟩ | hr
    · right
      rcases hh with hh | hh
      · exact Or.inl (e1.trans hh)
      · exact Or.inr (e2.trans hh)
    · exact Or.inl (hr h hh)
  have hown := (prepareForDraw_owned L fs ov inp oldData g ho hn).1
  have hnd : ((prepareForDraw L fs ov inp oldData g).2.1.held ++
      (prepareForDraw L fs ov inp oldData g).2.2.released).Nodup :=
    (List.Perm.nodup_iff hown).mpr (List.nodup_range _)
  exact List.count_eq_one_of_mem (List.Nodup.of_append_right hnd) hmem

/-- Claim C18, amended.  Over every sequence of prepares from the initial state,
whatever the device and the outcomes of the compile and creation calls at each
of them: in the state reached, every object created on the device is either
held by exactly one pointer of the user data and not released, or held by none
and released exactly once, and no other handle is held or released; after
tear-down every object created, so every vertex buffer, has been released
exactly once.  When a further prepare has a device, its path changed, `read`
returns true and both buffer creations succeed, the two vertex buffers after it
are objects created during that prepare, with `ByteWidth` twelve and sixteen
bytes per record (as 32-bit values), `vertexCount` is the new record count, and
each vertex buffer held before it has been released exactly once.  When instead
a buffer creation of that prepare fails, the node holds the dataset read, each
vertex buffer held before has still been released exactly once, and both
pointers are null and `vertexCount` is zero. -/
theorem runPrepares_buffers (L : FloatLib F) (is : List (PrepareInput F))
    (i : PrepareInput F) :
    (∀ h : Handle,
      ((runPrepares L PluginState.init is).data.getD GaussianDrawData.init).slots.count (some h)
        + (runPrepares L PluginState.init is).gpu.releaseCount h
        = if h < (runPrepares L PluginState.init is).gpu.created.length then 1 else 0) ∧
    (∀ h : Handle, (runPrepares L PluginState.init is).teardown.releaseCount h
        = if h < (runPrepares L PluginState.init is).gpu.created.length then 1 else 0) ∧
    (runPrepares L PluginState.init is).teardown.created
      = (runPrepares L PluginState.init is).gpu.created ∧
    (i.frame.device = true → i.frame.uploadOutcomes.createPos = true →
      i.frame.uploadOutcomes.createCol = true →
      ∀ p, (prepareCalls L i.fs (runPrepares L PluginState.init is).ov i.frame
          (runPrepares L PluginState.init is).data
          (runPrepares L PluginState.init is).gpu).read = some (p, true) →
      ∃ m a, (stepPrepare L (runPrepares L PluginState.init is) i).ov.m_node = some m ∧
        ((stepPrepare L (runPrepares L PluginState.init is) i).data.getD
          GaussianDrawData.init).vertexCount = m.count ∧
        ((stepPrepare L (runPrepares L PluginState.init is) i).data.getD
          GaussianDrawData.init).posBuf = some a ∧
        ((stepPrepare L (runPrepares L PluginState.init is) i).data.getD
          GaussianDrawData.init).colBuf = some (a + 1) ∧
        (runPrepares L PluginState.init is).gpu.created.length ≤ a ∧
        (stepPrepare L (runPrepares L PluginState.init is) i).gpu.created[a]?
          = some (m.count * 3 * 4 % 2 ^ 32) ∧
        (stepPrepare L (runPrepares L PluginState.init is) i).gpu.created[a + 1]?
          = some (m.count * 4 * 4 % 2 ^ 32) ∧
        ∀ h, ((runPrepares L PluginState.init is).data.getD GaussianDrawData.init).posBuf
              = some h ∨
            ((runPrepares L PluginState.init is).data.getD GaussianDrawData.init).colBuf
              = some h →
          (stepPrepare L (runPrepares L PluginState.init is) i).gpu.releaseCount h = 1) ∧
    (i.frame.device = true →
      (i.frame.uploadOutcomes.createPos = false ∨ i.frame.uploadOutcomes.createCol = false) →
      ∀ p, (prepareCalls L i.fs (runPrepares L PluginState.init is).ov i.frame
          (runPrepares L PluginState.init is).data
          (runPrepares L PluginState.init is).gpu).read = some (p, true) →
      (∃ m, (stepPrepare L (runPrepares L PluginState.init is) i).ov.m_node = some m ∧
        m.empty = false) ∧
      ((stepPrepare L (runPrepares L PluginState.init is) i).data.getD
        GaussianDrawData.init).posBuf = none ∧
      ((stepPrepare L (runPrepares L PluginState.init is) i).data.getD
        GaussianDrawData.init).colBuf = none ∧
      ((stepPrepare L (runPrepares L PluginState.init is) i).data.getD
        GaussianDrawData.init).vertexCount = 0 ∧
      ∀ h, ((runPrepares L PluginState.init is).data.getD GaussianDrawData.init).posBuf
            = some h ∨
          ((runPrepares L PluginState.init is).data.getD GaussianDrawData.init).colBuf
            = some h →
        (stepPrepare L (runPrepares L PluginState.init is) i).gpu.releaseCount h = 1) := by
  have ho := runPrepares_owned L is PluginState.init init_owned.1 init_owned.2
  refine ⟨resourcesOwned_count _ _ ho.1, fun h => (teardown_released _ ho.1 h).1,
    (teardown_released _ ho.1 0).2, ?_, ?_⟩
  · intro hdev hpos hcol p hread
    exact prepare_replaces L i.fs _ i.frame _ _ p ho.1 ho.2 hdev hpos hcol hread
  · intro hdev hfail p hread
    exact prepare_replace_fails L i.fs _ i.frame _ _ p ho.1 ho.2 hdev hfail hread

/-! ## Row offsets stay inside the row -/

omit [LinearOrderedField F] in
/-- A property that `mkProp` marks as a float has width 4. -/
theorem mkProp_float_width (ty nm : List Char) (h : (mkProp ty nm).isFloat = true) :
    (mkProp ty nm).byteSize = 4 := by
  rw [mkProp_eq] at h ⊢
  simp only [declaredFloat, decide_eq_true_eq] at h
  simp only
  rcases h with h | h <;> subst h <;> decide

omit [LinearOrderedField F] in
/-- The widths before a property and its own width are part of the total. -/
theorem widthSum_take_add : ∀ (props : List PropDef) (i : Nat) (p : PropDef),
    props[i]? = some p → widthSum (props.take i) + p.byteSize ≤ widthSum props := by
  intro props
  induction props with
  | nil => intro i p h; simp at h
  | cons q qs ih =>
    intro i p h
    cases i with
    | zero =>
      simp only [List.getElem?_cons_zero, Option.some.injEq] at h
      subst h
      simp [widthSum]
    | succ i =>
      simp only [List.getElem?_cons_succ] at h
      have := ih i p h
      simp only [widthSum, List.take_succ_cons, List.map_cons, List.sum_cons] at this ⊢
      omega

omit [LinearOrderedField F] in
/-- The table `offsets` has one entry per property. -/
theorem layout_length (props : List PropDef) : (layout props).1.length = props.length := by
  unfold layout
  rw [layout_foldl]
  simp

omit [LinearOrderedField F] in
/-- Every float property of a schema read from a header has width 4. -/
theorem headerOf_float_width (file : List Char) (st : HeaderState) (data : List Char)
    (hh : headerOf file = some (st, data)) :
    ∀ p ∈ st.props, p.isFloat = true → p.byteSize = 4 := by
  intro p hp hf
  obtain ⟨l, _, _, e⟩ := headerOf_props file st data hh p hp
  rw [e] at hf ⊢
  exact mkProp_float_width _ _ hf

omit [LinearOrderedField F] in
/-- The index returned by `find` is `-1` or the index of a property. -/
theorem find_range (props : List PropDef) (name : String) :
    -1 ≤ find props name ∧ find props name < props.length := by
  rw [find_eq]
  split_ifs with h
  · constructor
    · omega
    · exact_mod_cast h
  · constructor
    · exact le_refl _
    · omega

omit [LinearOrderedField F] in
/-- Claim C22.  For every schema the header loop produces from a file, with
`offsets` and `rowBytes` as computed by the layout loop: `rowBytes` is the sum
of the declared widths and `offsets` has one entry per property; every index
returned by `find` is `-1` or the index of a property; and for every index `idx`
that `getf` decodes (`idx ≥ 0`, a property of the schema, declared as a float),
`offsets[idx]` is the sum of the widths declared before it and
`offsets[idx] + 4 ≤ rowBytes`, so that in a row buffer of `rowBytes` bytes the
four bytes from `offsets[idx]` on all lie inside the buffer. -/
theorem getf_in_bounds (file : List Char) (st : HeaderState) (data : List Char)
    (hh : headerOf file = some (st, data)) :
    (layout st.props).2 = widthSum st.props ∧
    (layout st.props).1.length = st.props.length ∧
    (∀ name : String, -1 ≤ find st.props name ∧ find st.props name < st.props.length) ∧
    (∀ idx : Int, 0 ≤ idx → idx < st.props.length →
      (st.props.getD idx.toNat default).isFloat = true →
      (layout st.props).1.getD idx.toNat 0 = widthSum (st.props.take idx.toNat) ∧
      (layout st.props).1.getD idx.toNat 0 + 4 ≤ (layout st.props).2 ∧
      ∀ row : List Char, row.length = (layout st.props).2 →
        ((row.drop ((layout st.props).1.getD idx.toNat 0)).take 4).length = 4) := by
  refine ⟨layout_rowBytes _, layout_length _, find_range st.props, ?_⟩
  intro idx h0 hlt hf
  have hi : idx.toNat < st.props.length := by omega
  have hget : st.props[idx.toNat]? = some (st.props.getD idx.toNat default) := by
    rw [List.getD_eq_getElem?_getD, List.getElem?_eq_getElem hi]
    rfl
  have hw := headerOf_float_width file st data hh _
    (List.mem_iff_getElem?.mpr ⟨_, hget⟩) hf
  have hs := widthSum_take_add st.props idx.toNat _ hget
  rw [hw] at hs
  have ho := layout_offsets st.props idx.toNat hi
  rw [ho, layout_rowBytes]
  refine ⟨rfl, hs, ?_⟩
  intro row hrow
  rw [List.length_take, List.length_drop, hrow]
  omega

/-! ## The dirty flag and the vertex buffers -/

/-- The dataset `read` leaves has fewer than `2 ^ 32` records when the one it
was given has. -/
theorem read_count_lt (L : FloatLib F) (fs : String → Option (List Char)) (path : String)
    (out : GaussianData F) (err : String) (hout : out.count < 2 ^ 32) :
    (read L fs path out err).outData.count < 2 ^ 32 := by
  cases hok : (read L fs path out err).ok with
  | true => exact (read_ok_count L fs path out err hok).2
  | false =>
    rcases read_failed_outData L fs path out err hok with e | ⟨file, st, data, _, hh, _, hl, _⟩
    · rw [e]; exact hout
    · have hle : st.vertexCount ≤ INT_MAX := by
        rw [headerOf_headerLinesOf file st data hh]
        exact foldl_headerLine_vertexCount_le _ _ (by decide)
      have hI : INT_MAX = 2147483647 := rfl
      rw [hI] at hle
      unfold GaussianData.count
      rw [hl]
      omega

/-- The reload step of a prepare either sets the dirty flag or leaves the
dataset and the flag as they were; and it keeps the record count below
`2 ^ 32`. -/
theorem reloadIfChanged_cases (L : FloatLib F) (fs : String → Option (List Char))
    (newPath loadedPath : String) (m_data : GaussianData F) (vertexDirty : Bool) :
    ((reloadIfChanged L fs newPath loadedPath m_data vertexDirty).2.2 = true ∨
      ((reloadIfChanged L fs newPath loadedPath m_data vertexDirty).2.1 = m_data ∧
        (reloadIfChanged L fs newPath loadedPath m_data vertexDirty).2.2 = vertexDirty)) ∧
    (m_data.count < 2 ^ 32 →
      (reloadIfChanged L fs newPath loadedPath m_data vertexDirty).2.1.count < 2 ^ 32) := by
  unfold reloadIfChanged
  by_cases hchg : newPath ≠ loadedPath
  · rw [if_pos hchg]
    simp only
    by_cases hlen : newPath.length > 0
    · rw [if_pos hlen]
      exact ⟨Or.inl rfl, fun _ => read_count_lt L fs newPath m_data.clear ""
        (by unfold GaussianData.count GaussianData.clear; simp)⟩
    · rw [if_neg hlen]
      exact ⟨Or.inl rfl, fun _ => by unfold GaussianData.count GaussianData.clear; simp⟩
  · rw [if_neg hchg]
    exact ⟨Or.inr ⟨rfl, rfl⟩, fun h => h⟩

omit [LinearOrderedField F] in
/-- An `uploadVertices` entered with the dirty flag set, for a dataset of fewer
than `2 ^ 32` records, establishes the dirty-flag invariant. -/
theorem uploadVertices_current (d : GaussianDrawData F) (g : Gpu) (device : Bool)
    (o : UploadOutcomes) (m : GaussianData F) (hd : d.vertexDirty = true)
    (hm : m.count < 2 ^ 32) :
    UploadCurrent (some m) (d.uploadVertices g device (m.count % 2 ^ 32) o).2.1 := by
  intro hv m' hm' _
  cases Option.some.inj hm'
  have hr := uploadVertices_result d g device (m.count % 2 ^ 32) o
  cases hres : (d.uploadVertices g device (m.count % 2 ^ 32) o).1 with
  | false =>
    rw [hr.2 hres, hd] at hv
    exact Bool.noConfusion hv
  | true =>
    have h := hr.1 hres
    exact ⟨h.2.2.1, h.2.2.2, h.2.1.trans (Nat.mod_eq_of_lt hm)⟩

omit [LinearOrderedField F] in
/-- When every object creation of `initShaders` succeeds, the shader step of a
prepare leaves the vertex buffers, the vertex count and the dirty flag as they
were. -/
theorem ensureShaders_keeps_buffers (d : GaussianDrawData F) (g : Gpu) (device : Bool)
    (o : InitOutcomes) (ho : o.createsOk = true) :
    (ensureShaders d g device o).1.posBuf = d.posBuf ∧
    (ensureShaders d g device o).1.colBuf = d.colBuf ∧
    (ensureShaders d g device o).1.vertexCount = d.vertexCount ∧
    (ensureShaders d g device o).1.vertexDirty = d.vertexDirty := by
  unfold ensureShaders
  split_ifs
  · rcases o with ⟨a1, a2, a3, a4, a5, a6, a7, a8, a9, a10⟩
    simp only [InitOutcomes.createsOk, Bool.and_eq_true] at ho
    obtain ⟨⟨⟨⟨⟨⟨h4, h5⟩, h6⟩, h7⟩, h8⟩, h9⟩, h10⟩ := ho
    subst h4 h5 h6 h7 h8 h9 h10
    cases a1
    · exact ⟨rfl, rfl, rfl, rfl⟩
    cases a2
    · exact ⟨rfl, rfl, rfl, rfl⟩
    cases a3
    · exact ⟨rfl, rfl, rfl, rfl⟩
    · exact ⟨rfl, rfl, rfl, rfl⟩
  · exact ⟨rfl, rfl, rfl, rfl⟩

/-- A prepare in which every object creation of `initShaders` succeeds keeps
the dirty-flag invariant, whatever the device, the compiles and the buffer
creations do. -/
theorem prepareForDraw_upload_current (L : FloatLib F) (fs : String → Option (List Char))
    (ov : DrawOverride F) (inp : FrameInput F) (oldData : Option (GaussianDrawData F))
    (g : Gpu) (ho : inp.initOutcomes.createsOk = true)
    (hb : ∀ m, ov.m_node = some m → m.count < 2 ^ 32)
    (hinv : UploadCurrent ov.m_node (oldData.getD GaussianDrawData.init)) :
    UploadCurrent (prepareForDraw L fs ov inp oldData g).1.m_node
      (prepareForDraw L fs ov inp oldData g).2.1 ∧
    ∀ m, (prepareForDraw L fs ov inp oldData g).1.m_node = some m → m.count < 2 ^ 32 := by
  cases hnode : ov.m_node with
  | none =>
    rw [(prepare_no_node L fs ov inp oldData g hnode).1]
    simp only [hnode]
    exact ⟨fun _ m hm => (by cases hm), fun m hm => (by cases hm)⟩
  | some m0 =>
    have hK := ensureShaders_keeps_buffers (oldData.getD GaussianDrawData.init) g inp.device
      inp.initOutcomes ho
    unfold ensureShaders at hK
    simp only [prepareForDraw, hnode]
    generalize (if (oldData.getD GaussianDrawData.init).shadersReady = false ∧ inp.device = true
      then ((oldData.getD GaussianDrawData.init).initShaders g inp.initOutcomes).2
      else (oldData.getD GaussianDrawData.init, g)) = r1 at hK ⊢
    have hR := reloadIfChanged_cases L fs inp.filePath ov.m_loadedPath m0 r1.1.vertexDirty
    generalize reloadIfChanged L fs inp.filePath ov.m_loadedPath m0 r1.1.vertexDirty = rl
      at hR ⊢
    have hcnt : rl.2.1.count < 2 ^ 32 := hR.2 (hb m0 hnode)
    refine ⟨?_, fun m hm => by cases Option.some.inj hm; exact hcnt⟩
    by_cases hg : rl.2.2 = true ∧ inp.device = true ∧ rl.2.1.empty = false
    · rw [if_pos hg]
      exact uploadVertices_current _ _ _ _ rl.2.1 hg.1 hcnt
    · rw [if_neg hg]
      intro hv m hm hne
      cases Option.some.inj hm
      have hv' : rl.2.2 = false := hv
      rcases hR.1 with h | ⟨h1, h2⟩
      · rw [h] at hv'
        exact Bool.noConfusion hv'
      · rw [hnode] at hinv
        have hd0 : (oldData.getD GaussianDrawData.init).vertexDirty = false := by
          rw [← hK.2.2.2, ← h2]
          exact hv'
        have := hinv hd0 m0 rfl (by rw [← h1]; exact hne)
        refine ⟨?_, ?_, ?_⟩
        · show r1.1.posBuf ≠ none
          rw [hK.1]; exact this.1
        · show r1.1.colBuf ≠ none
          rw [hK.2.1]; exact this.2.1
        · show r1.1.vertexCount = rl.2.1.count
          rw [hK.2.2.1, h1]; exact this.2.2

/-- Over every sequence of prepares from the initial state in which no object
creation of `initShaders` fails, the dirty-flag invariant holds, whatever the
device, the compiles and the buffer creations do. -/
theorem runPrepares_upload_current (L : FloatLib F) (is : List (PrepareInput F))
    (ho : ∀ i ∈ is, i.frame.initOutcomes.createsOk = true) :
    UploadCurrent (runPrepares L PluginState.init is).ov.m_node
      ((runPrepares L PluginState.init is).data.getD GaussianDrawData.init) := by
  have key : ∀ (is : List (PrepareInput F)) (s : PluginState F),
      (∀ i ∈ is, i.frame.initOutcomes.createsOk = true) →
      (∀ m, s.ov.m_node = some m → m.count < 2 ^ 32) →
      UploadCurrent s.ov.m_node (s.data.getD GaussianDrawData.init) →
      UploadCurrent (runPrepares L s is).ov.m_node
        ((runPrepares L s is).data.getD GaussianDrawData.init) := by
    intro is
    induction is with
    | nil => intro s _ _ h; exact h
    | cons i is ih =>
      intro s hall hb hinv
      have e := prepareForDraw_upload_current L i.fs s.ov i.frame s.data s.gpu
        (hall i (List.mem_cons_self _ _)) hb hinv
      exact ih (stepPrepare L s i) (fun j hj => hall j (List.mem_cons_of_mem _ hj)) e.2 e.1
  refine key is PluginState.init ho ?_ ?_
  · intro m hm
    cases Option.some.inj hm
    exact Nat.two_pow_pos 32
  · intro h
    exact Bool.noConfusion h

/-! ## The reader when the allocation of the records may fail -/

/-- After the header loop, `read` throws exactly when the header is accepted
and the records cannot be allocated; otherwise it returns what `readBody`
gives. -/
theorem readBodyOrThrow_eq (canAllocate : Nat → Bool) (L : FloatLib F) (st : HeaderState)
    (data : List Char) (out : GaussianData F) (err : String) :
    readBodyOrThrow canAllocate L st data out err =
      if st.accepted ∧ canAllocate (st.vertexCount.toNat * sizeofGaussianSplat) = false
      then none else some (readBody L st data out err) := by
  have ha := accepted_iff st
  unfold readBodyOrThrow readBody
  by_cases h1 : st.format = PLYFormat.Unknown
  · have hn : ¬ (st.accepted ∧
        canAllocate (st.vertexCount.toNat * sizeofGaussianSplat) = false) :=
      fun hc => (ha.mp hc.1).1 h1
    rw [if_pos h1, if_pos h1, if_neg hn]
  · rw [if_neg h1, if_neg h1]
    by_cases h2 : st.vertexCount ≤ 0
    · have hn : ¬ (st.accepted ∧
          canAllocate (st.vertexCount.toNat * sizeofGaussianSplat) = false) :=
        fun hc => absurd (ha.mp hc.1).2.1 (not_lt.mpr h2)
      rw [if_pos h2, if_pos h2, if_neg hn]
    · rw [if_neg h2, if_neg h2]
      simp only
      by_cases h3 : (fieldIdx st.props).iX < 0 ∨ (fieldIdx st.props).iY < 0 ∨
          (fieldIdx st.props).iZ < 0
      · have hn : ¬ (st.accepted ∧
            canAllocate (st.vertexCount.toNat * sizeofGaussianSplat) = false) :=
          fun hc => (ha.mp hc.1).2.2 h3
        rw [if_pos h3, if_pos h3, if_neg hn]
      · rw [if_neg h3, if_neg h3]
        by_cases h4 : canAllocate (st.vertexCount.toNat * sizeofGaussianSplat) = false
        · have hp : st.accepted ∧
              canAllocate (st.vertexCount.toNat * sizeofGaussianSplat) = false :=
            ⟨ha.mpr ⟨h1, not_le.mp h2, h3⟩, h4⟩
          rw [if_pos h4, if_pos hp]
        · have hn : ¬ (st.accepted ∧
              canAllocate (st.vertexCount.toNat * sizeofGaussianSplat) = false) :=
            fun hc => h4 hc.2
          rw [if_neg h4, if_neg hn]
          by_cases h5 : st.format = PLYFormat.BinaryLE
          · rw [if_pos h5, if_pos h5]
            split_ifs <;> rfl
          · rw [if_neg h5, if_neg h5]
            split_ifs <;> rfl

/-- On a file with an accepted magic line, `read` is its part after the header
loop, run on the header locals and the data section. -/
theorem readOrThrow_of_headerOf (canAllocate : Nat → Bool) (L : FloatLib F)
    (fs : String → Option (List Char)) (path : String)
    (out : GaussianData F) (err : String) (file : List Char) (st : HeaderState)
    (data : List Char) (hf : fs path = some file) (hh : headerOf file = some (st, data)) :
    readOrThrow canAllocate L fs path out err = readBodyOrThrow canAllocate L st data out err := by
  cases hg : getline file with
  | none => simp [headerOf, hg] at hh
  | some p =>
    obtain ⟨first, rest⟩ := p
    cases hc : containsSub "ply".toList first with
    | false =>
      simp only [headerOf, hg, hc] at hh
      simp at hh
    | true =>
      simp only [headerOf, hg, hc] at hh
      simp only [Bool.true_eq_false, if_false, Option.some.injEq] at hh
      simp only [readOrThrow, hf, hg, hc, Bool.true_eq_false, if_false, hh]

/-- Whatever `read` returns when it does not throw is what `read` returns in
the run in which the records are allocated. -/
theorem readOrThrow_returns (canAllocate : Nat → Bool) (L : FloatLib F)
    (fs : String → Option (List Char)) (path : String)
    (out : GaussianData F) (err : String) :
    readOrThrow canAllocate L fs path out err = none ∨
    readOrThrow canAllocate L fs path out err = some (read L fs path out err) := by
  cases hf : fs path with
  | none => right; simp [readOrThrow, read, hf]
  | some file =>
    cases hg : getline file with
    | none => right; simp [readOrThrow, read, hf, hg]
    | some p =>
      obtain ⟨first, rest⟩ := p
      cases hc : containsSub "ply".toList first with
      | false =>
        right
        simp only [readOrThrow, read, hf, hg, hc]
        simp
      | true =>
        simp only [readOrThrow, read, hf, hg, hc, Bool.true_eq_false, if_false]
        rw [readBodyOrThrow_eq]
        split_ifs
        · left; rfl
        · right; rfl

/-- Truncated data.  On a file whose header is accepted and whose data section
holds fewer than `vertexCount * rowBytes` bytes (binary mode) or fewer than
`vertexCount` lines (ASCII mode): when the `vertexCount` records can be
allocated, `read` returns false with the unexpected-EOF message of the format;
when they cannot, `std::bad_alloc` leaves `read`, whatever the data section
holds. -/
theorem readOrThrow_truncated (canAllocate : Nat → Bool) (L : FloatLib F)
    (fs : String → Option (List Char))
    (path : String) (out : GaussianData F) (err : String) (file : List Char)
    (st : HeaderState) (data : List Char)
    (hf : fs path = some file) (hh : headerOf file = some (st, data))
    (hacc : st.accepted) :
    (canAllocate (st.vertexCount.toNat * sizeofGaussianSplat) = false →
      readOrThrow canAllocate L fs path out err = none) ∧
    (canAllocate (st.vertexCount.toNat * sizeofGaussianSplat) = true →
      readOrThrow canAllocate L fs path out err = some (read L fs path out err) ∧
      (st.format = PLYFormat.BinaryLE →
        data.length < st.vertexCount.toNat * widthSum st.props →
        (read L fs path out err).ok = false ∧
        (read L fs path out err).errorMsg = "Unexpected EOF in binary data") ∧
      (st.format = PLYFormat.ASCII →
        lineCount data < st.vertexCount.toNat →
        (read L fs path out err).ok = false ∧
        (read L fs path out err).errorMsg = "Unexpected EOF in ASCII data")) := by
  have e := readOrThrow_of_headerOf canAllocate L fs path out err file st data hf hh
  rw [readBodyOrThrow_eq] at e
  have ht := read_truncated L fs path out err file st data hf hh hacc
  constructor
  · intro ha
    rw [e, if_pos ⟨hacc, ha⟩]
  · intro ha
    have hne : ¬ (st.accepted ∧
        canAllocate (st.vertexCount.toNat * sizeofGaussianSplat) = false) := by
      rintro ⟨_, hc⟩
      rw [ha] at hc
      exact Bool.noConfusion hc
    rw [e, if_neg hne, read_of_headerOf L fs path out err file st data hf hh]
    rw [read_of_headerOf L fs path out err file st data hf hh] at ht
    exact ⟨rfl, ht.1, ht.2.1⟩

end Theorems

/-- Claim C8. Over the reals, with `exp` the real exponential, `sigmoid 0 = 0.5`,
`sigmoid x` tends to `0` as `x → -∞` and to `1` as `x → +∞`. -/
theorem sigmoid_limits :
    sigmoid Real.exp 0 = 1 / 2 ∧
    Filter.Tendsto (sigmoid Real.exp) Filter.atBot (nhds 0) ∧
    Filter.Tendsto (sigmoid Real.exp) Filter.atTop (nhds 1) := by
  refine ⟨?_, ?_, ?_⟩
  · simp [sigmoid]; norm_num
  · have h1 : Filter.Tendsto (fun x : ℝ => Real.exp (-x)) Filter.atBot Filter.atTop :=
      Real.tendsto_exp_atTop.comp Filter.tendsto_neg_atBot_atTop
    have h2 : Filter.Tendsto (fun x : ℝ => 1 + Real.exp (-x)) Filter.atBot Filter.atTop :=
      Filter.tendsto_atTop_add_const_left _ 1 h1
    have h3 := h2.inv_tendsto_atTop
    refine h3.congr ?_
    intro x; simp [sigmoid]
  · have h1 : Filter.Tendsto (fun x : ℝ => Real.exp (-x)) Filter.atTop (nhds 0) :=
      Real.tendsto_exp_atBot.comp Filter.tendsto_neg_atTop_atBot
    have h2 : Filter.Tendsto (fun x : ℝ => 1 + Real.exp (-x)) Filter.atTop (nhds (1 + 0)) :=
      tendsto_const_nhds.add h1
    have h3 : Filter.Tendsto (fun x : ℝ => (1 : ℝ) / (1 + Real.exp (-x))) Filter.atTop
        (nhds (1 / (1 + 0))) :=
      tendsto_const_nhds.div h2 (by norm_num)
    have h4 : Filter.Tendsto (fun x : ℝ => (1 : ℝ) / (1 + Real.exp (-x))) Filter.atTop
        (nhds 1) := by simpa using h3
    exact h4.congr (fun x => by simp [sigmoid])

/-! ## The rational float library -/

theorem isSpace_not_digit (c : Char) (hc : isSpace c = true) :
    c.isDigit = false ∧ c ≠ '.' := by
  simp only [isSpace, Bool.or_eq_true, decide_eq_true_eq] at hc
  rcases hc with ((((h | h) | h) | h) | h) | h <;> subst h <;> exact ⟨by decide, by decide⟩

theorem decimalGet_digits (d : Char) (ds rest : List Char)
    (hd : ∀ c ∈ d :: ds, c.isDigit = true) (hrest : TokenEnd rest) :
    decimalGet (d :: ds ++ rest) = ((digitsValue (d :: ds) : ℚ), true, rest) := by
  have hd0 := isDigit_not_special d (hd d (List.mem_cons_self _ _))
  have hsplit : (d :: ds ++ rest).takeWhile Char.isDigit = d :: ds ∧
      (d :: ds ++ rest).dropWhile Char.isDigit = rest := by
    rcases hrest with h | ⟨c, r, h, hc⟩
    · subst h
      rw [List.append_nil]
      exact ⟨List.takeWhile_eq_self_iff.mpr hd, List.dropWhile_eq_nil_iff.mpr hd⟩
    · subst h
      exact takeWhile_append_stop Char.isDigit (d :: ds) c r hd (isSpace_not_digit c hc).1
  have hdot : rest.head? ≠ some '.' := by
    rcases hrest with h | ⟨c, r, h, hc⟩
    · subst h; simp
    · subst h
      simp only [List.head?_cons, ne_eq, Option.some.injEq]
      exact (isSpace_not_digit c hc).2
  have hhead : (d :: ds ++ rest).head? = some d := rfl
  unfold decimalGet
  simp only [hhead, Option.some.injEq, hd0.2.1, hd0.2.2.1, or_self, if_false, hsplit.1,
    hsplit.2, hdot, List.append_nil, List.length_nil, pow_zero, div_one, reduceCtorEq,
    false_and]

theorem ratLib_parsesAs_digits (d : Char) (ds : List Char)
    (hd : ∀ c ∈ d :: ds, c.isDigit = true) :
    ParsesAs ratLib (d :: ds) (digitsValue (d :: ds) : ℚ) := by
  intro rest hrest
  exact decimalGet_digits d ds rest hd hrest

theorem ratLib_failsOn_abc : FailsOn ratLib "abc".toList := by
  intro rest _
  constructor <;> simp [ratLib, decimalGet, List.takeWhile_cons, List.dropWhile_cons]

/-! ## The reader on the sample files -/

/-- Witness of C2 on the end-to-end scenario file: record 1 holds the position
(4, 5, 6) of the second row. -/
theorem read_binary_fields_witness :
    headerOf scenarioFile = some (headerOfD scenarioFile) ∧
    (headerOfD scenarioFile).1.accepted ∧
    (headerOfD scenarioFile).1.format = PLYFormat.BinaryLE ∧
    (∃ s : GaussianSplat ℚ,
      (read ratLib (oneFile "scene.ply" scenarioFile) "scene.ply"
        GaussianData.init "").outData.splats[1]? = some s ∧
      ∀ k : Fin 3, s.position k = ratLib.ofBits (le32
        (((scenarioRowA ++ scenarioRowB).drop (1 * 28 + 4 * k.val)).take 4))) ∧
    (read ratLib (oneFile "scene.ply" scenarioFile) "scene.ply"
      GaussianData.init "").outData.positions = [1, 2, 3, 4, 5, 6] :=
  ⟨by decide!, by decide!, by decide!,
    (read_binary_fields ratLib (oneFile "scene.ply" scenarioFile) "scene.ply"
      GaussianData.init "" scenarioFile (headerOfD scenarioFile).1 (headerOfD scenarioFile).2
      (by decide!) (by decide!) (by decide!) (by decide!)).2.2.2
      (oneFile "scene.ply" scenarioFile) "scene.ply" (scenarioRowA ++ scenarioRowB) 1
      (by decide!) (by decide!) (by decide!),
    by decide!⟩

/-- Witness of C3: a schema with `X`, `y`, `z` and every optional property. -/
theorem read_missing_position_witness :
    headerOf upperXFile = some (headerOfD upperXFile) ∧
    (headerOfD upperXFile).1.format ≠ PLYFormat.Unknown ∧
    0 < (headerOfD upperXFile).1.vertexCount ∧
    (∀ p ∈ (headerOfD upperXFile).1.props, p.name ≠ "x".toList) ∧
    (read ratLib (oneFile "upper.ply" upperXFile) "upper.ply" GaussianData.init "").ok = false ∧
    (read ratLib (oneFile "upper.ply" upperXFile) "upper.ply" GaussianData.init "").errorMsg
      = "PLY missing position properties (x/y/z)" ∧
    (read ratLib (oneFile "upper.ply" upperXFile) "upper.ply" GaussianData.init "").outData
      = GaussianData.init :=
  ⟨by decide!, by decide!, by decide!, by decide!,
    read_missing_position ratLib (oneFile "upper.ply" upperXFile) "upper.ply"
      GaussianData.init "" upperXFile (headerOfD upperXFile).1 (headerOfD upperXFile).2
      (by decide!) (by decide!) (by decide!) (by decide!) (Or.inl (by decide!))⟩

/-- Truncated data at a small count: ten vertices declared, five binary rows
present. -/
theorem read_truncated_witness :
    headerOf tenFiveFile = some (headerOfD tenFiveFile) ∧
    (headerOfD tenFiveFile).1.accepted ∧
    (headerOfD tenFiveFile).1.format = PLYFormat.BinaryLE ∧
    (headerOfD tenFiveFile).1.vertexCount = 10 ∧
    (headerOfD tenFiveFile).2.length = 5 * widthSum (headerOfD tenFiveFile).1.props ∧
    (read ratLib (oneFile "ten.ply" tenFiveFile) "ten.ply" GaussianData.init "").ok = false ∧
    (read ratLib (oneFile "ten.ply" tenFiveFile) "ten.ply" GaussianData.init "").errorMsg
      = "Unexpected EOF in binary data" :=
  ⟨by decide!, by decide!, by decide!, by decide!, by decide!,
    (read_truncated ratLib (oneFile "ten.ply" tenFiveFile) "ten.ply"
      GaussianData.init "" tenFiveFile (headerOfD tenFiveFile).1 (headerOfD tenFiveFile).2
      (by decide!) (by decide!) (by decide!)).1 (by decide!) (by decide!)⟩

/-- Counterexample to C9 as stated: the header of `twoFormatFile` contains a
`format` directive naming `binary_big_endian`, and `read` succeeds in ASCII
mode. -/
theorem read_unknown_format_counterexample :
    (headerOf twoFormatFile).isSome = true ∧
    "format binary_big_endian 1.0".toList ∈ headerLinesOf twoFormatFile ∧
    formatName "format binary_big_endian 1.0".toList = some "binary_big_endian".toList ∧
    (read ratLib (oneFile "two.ply" twoFormatFile) "two.ply" GaussianData.init "").ok = true ∧
    (read ratLib (oneFile "two.ply" twoFormatFile) "two.ply" GaussianData.init "").outData.positions
      = [1, 2, 3] := by
  refine ⟨by decide!, by decide!, by decide!, by decide!, by decide!⟩

/-- Witness of the amended C9: the only `format` directive names
`binary_big_endian`. -/
theorem read_unknown_format_witness :
    headerOf bigEndianFile = some (headerOfD bigEndianFile) ∧
    "format binary_big_endian 1.0".toList ∈ headerLinesOf bigEndianFile ∧
    (∀ l ∈ headerLinesOf bigEndianFile, formatName l ≠ some "ascii".toList ∧
      formatName l ≠ some "binary_little_endian".toList) ∧
    (read ratLib (oneFile "big.ply" bigEndianFile) "big.ply" GaussianData.init "").ok = false ∧
    (read ratLib (oneFile "big.ply" bigEndianFile) "big.ply" GaussianData.init "").errorMsg
      = "Unknown PLY format" ∧
    (read ratLib (oneFile "big.ply" bigEndianFile) "big.ply" GaussianData.init "").outData
      = GaussianData.init :=
  ⟨by decide!, by decide!, by decide!,
    read_unknown_format ratLib (oneFile "big.ply" bigEndianFile) "big.ply"
      GaussianData.init "" bigEndianFile (headerOfD bigEndianFile).1 (headerOfD bigEndianFile).2
      (by decide!) (by decide!) (by decide!)⟩

/-- Witness of the amended C10 on `asciiFile`: in the row `1 2 3 4 5` the field
`y`, declared `uchar` at schema index 1, is the value 2 of token 1, and the
tokens `4` and `5` beyond the three properties are ignored; in the row `7 8`
the field `z` at index 2, whose token is missing, is zero. -/
theorem read_ascii_fields_witness :
    headerOf asciiFile = some (headerOfD asciiFile) ∧
    (headerOfD asciiFile).1.accepted ∧
    (headerOfD asciiFile).1.format = PLYFormat.ASCII ∧
    (headerOfD asciiFile).1.props.map (fun p => p.isFloat) = [true, false, true] ∧
    nthLine 0 (headerOfD asciiFile).2 = some "1 2 3 4 5".toList ∧
    nthLine 1 (headerOfD asciiFile).2 = some "7 8".toList ∧
    (read ratLib (oneFile "a.ply" asciiFile) "a.ply" GaussianData.init "").ok = true ∧
    (∃ s : GaussianSplat ℚ,
      (read ratLib (oneFile "a.ply" asciiFile) "a.ply" GaussianData.init "").outData.splats[0]?
        = some s ∧ s.field "y" = 2) ∧
    (∃ s : GaussianSplat ℚ,
      (read ratLib (oneFile "a.ply" asciiFile) "a.ply" GaussianData.init "").outData.splats[1]?
        = some s ∧ s.field "z" = 0) := by
  have h := read_ascii_fields ratLib (oneFile "a.ply" asciiFile) "a.ply" GaussianData.init ""
    asciiFile (headerOfD asciiFile).1 (headerOfD asciiFile).2
    (by decide!) (by decide!) (by decide!) (by decide!)
  have hp : ∀ d : Char, d.isDigit = true → ParsesAs ratLib [d] (digitsValue [d] : ℚ) :=
    fun d hd => ratLib_parsesAs_digits d [] (by simpa using hd)
  refine ⟨by decide!, by decide!, by decide!, by decide!, by decide!, by decide!,
    h.1.mpr (by decide!), ?_, ?_⟩
  · obtain ⟨s, hs, hfield⟩ := h.2 0 "1 2 3 4 5".toList (by decide!) (by decide!)
    refine ⟨s, hs, ?_⟩
    have hy := (hfield "y" (by decide)).2.1 (fun k => (([1, 2] : List ℚ).getD k 0))
      (by decide!)
      (by
        have e : firstNamed (headerOfD asciiFile).1.props "y" = 1 := by decide!
        rw [e]
        intro k hk
        interval_cases k
        · exact ⟨['1'], by decide!, by simpa [digitsValue] using hp '1' (by decide)⟩
        · exact ⟨['2'], by decide!, by simpa [digitsValue] using hp '2' (by decide)⟩)
    have e : firstNamed (headerOfD asciiFile).1.props "y" = 1 := by decide!
    rw [e] at hy
    simpa using hy
  · obtain ⟨s, hs, hfield⟩ := h.2 1 "7 8".toList (by decide!) (by decide!)
    refine ⟨s, hs, ?_⟩
    exact (hfield "z" (by decide)).2.2 2 (by decide!) (by decide!)
      (by
        intro k hk
        interval_cases k
        · exact ⟨['7'], _, by decide!, hp '7' (by decide)⟩
        · exact ⟨['8'], _, by decide!, hp '8' (by decide)⟩)
      (Or.inl (by decide!))

/-- Counterexample to C10 as stated: in the row `1 abc 3` the third token
parses as the number 3, yet the field `z` at schema index 2 is decoded as 0,
because the extraction failed on the second token. -/
theorem read_ascii_fields_counterexample :
    headerOf stickyFile = some (headerOfD stickyFile) ∧
    (headerOfD stickyFile).1.accepted ∧
    (headerOfD stickyFile).1.format = PLYFormat.ASCII ∧
    nthLine 0 (headerOfD stickyFile).2 = some "1 abc 3".toList ∧
    firstNamed (headerOfD stickyFile).1.props "z" = 2 ∧
    (tokens "1 abc 3".toList)[2]? = some ['3'] ∧
    ParsesAs ratLib ['3'] (3 : ℚ) ∧
    (read ratLib (oneFile "s.ply" stickyFile) "s.ply" GaussianData.init "").ok = true ∧
    (read ratLib (oneFile "s.ply" stickyFile) "s.ply" GaussianData.init "").outData.splats.map
      (fun s => s.field "z") = [0] := by
  refine ⟨by decide!, by decide!, by decide!, by decide!, by decide!, by decide!, ?_,
    by decide!, by decide!⟩
  simpa [digitsValue] using ratLib_parsesAs_digits '3' [] (by decide)

/-- Claim C5, the code at a failing input. The file `cutFile` declares two
vertices and holds one row. A prepare whose path changed to it has `read`
return false, and afterwards the node's dataset holds two records while its
`positions` and `colors` are empty; the upload that follows takes the count 2
and clears the dirty flag. -/
theorem prepareForDraw_truncated_keeps_records :
    (goodFrame "cut.ply").filePath ≠ freshOverride.m_loadedPath ∧
    (read ratLib (oneFile "cut.ply" cutFile) "cut.ply"
      (GaussianData.init : GaussianData ℚ).clear "").ok = false ∧
    (prepareForDraw ratLib (oneFile "cut.ply" cutFile) freshOverride (goodFrame "cut.ply")
      none Gpu.init).1.m_node.map
        (fun d => (d.splats.length, d.positions.length, d.colors.length)) = some (2, 0, 0) ∧
    (prepareForDraw ratLib (oneFile "cut.ply" cutFile) freshOverride (goodFrame "cut.ply")
      none Gpu.init).2.1.vertexCount = 2 ∧
    (prepareForDraw ratLib (oneFile "cut.ply" cutFile) freshOverride (goodFrame "cut.ply")
      none Gpu.init).2.1.vertexDirty = false := by
  refine ⟨by decide!, by decide!, by decide!, by decide!, by decide!⟩

/-- Witness of C11: the only `element vertex` line of `noCountFile` reads
`element vertex many`, and the schema has no `x`. -/
theorem read_no_vertices_witness :
    headerOf noCountFile = some (headerOfD noCountFile) ∧
    (headerOfD noCountFile).1.format ≠ PLYFormat.Unknown ∧
    (∀ l ∈ headerLinesOf noCountFile, ∀ t,
      vertexCountText l = some t → hasNumericCount t = false) ∧
    find (headerOfD noCountFile).1.props "x" < 0 ∧
    (read ratLib (oneFile "many.ply" noCountFile) "many.ply" sampleData "").ok = false ∧
    (read ratLib (oneFile "many.ply" noCountFile) "many.ply" sampleData "").errorMsg
      = "No vertices in PLY" ∧
    (read ratLib (oneFile "many.ply" noCountFile) "many.ply" sampleData "").outData
      = sampleData :=
  have hl : ∀ l ∈ headerLinesOf noCountFile, ∀ t,
      vertexCountText l = some t → hasNumericCount t = false := by
    have e : headerLinesOf noCountFile =
        ["format ascii 1.0".toList, "element vertex many".toList,
         "property float y".toList, "property float z".toList] := by decide!
    rw [e]
    intro l hl t ht
    simp only [List.mem_cons, List.mem_singleton, List.not_mem_nil, or_false] at hl
    rcases hl with rfl | rfl | rfl | rfl
    · have e1 : vertexCountText "format ascii 1.0".toList = none := by decide!
      rw [e1] at ht
      cases ht
    · have e2 : vertexCountText "element vertex many".toList = some " many".toList := by
        decide!
      rw [e2] at ht
      cases ht
      decide!
    · have e3 : vertexCountText "property float y".toList = none := by decide!
      rw [e3] at ht
      cases ht
    · have e4 : vertexCountText "property float z".toList = none := by decide!
      rw [e4] at ht
      cases ht
  ⟨by decide!, by decide!, hl, by decide!,
    read_no_vertices ratLib (oneFile "many.ply" noCountFile) "many.ply" sampleData ""
      noCountFile (headerOfD noCountFile).1 (headerOfD noCountFile).2
      (by decide!) (by decide!) (by decide!) (Or.inr hl)⟩

/-! ## The prepare and draw steps on the sample states -/

/-- Witness of C12: the scenario file is loaded by a first prepare, which calls
`read`; a second prepare with the same path, on a file system that no longer
holds the file, does not. -/
theorem prepareForDraw_same_path_witness :
    (goodFrame "scene.ply").filePath = (goodFrame "scene.ply").filePath ∧
    (prepareCalls ratLib (oneFile "scene.ply" scenarioFile) freshOverride
      (goodFrame "scene.ply") none Gpu.init).read = some ("scene.ply", true) ∧
    (prepareCalls ratLib (fun _ => none)
      (prepareForDraw ratLib (oneFile "scene.ply" scenarioFile) freshOverride
        (goodFrame "scene.ply") none Gpu.init).1
      (goodFrame "scene.ply") loadedState.data loadedState.gpu).read = none ∧
    (prepareForDraw ratLib (fun _ => none)
      (prepareForDraw ratLib (oneFile "scene.ply" scenarioFile) freshOverride
        (goodFrame "scene.ply") none Gpu.init).1
      (goodFrame "scene.ply") loadedState.data loadedState.gpu).1.m_node
      = (prepareForDraw ratLib (oneFile "scene.ply" scenarioFile) freshOverride
        (goodFrame "scene.ply") none Gpu.init).1.m_node :=
  ⟨rfl, by decide!,
    prepareForDraw_same_path ratLib (oneFile "scene.ply" scenarioFile) (fun _ => none)
      freshOverride (goodFrame "scene.ply") (goodFrame "scene.ply") none loadedState.data
      Gpu.init loadedState.gpu rfl⟩

/-- Witness of C14: on the loaded state, whose buffers are the objects 7 and 8,
an upload whose colour buffer cannot be created. -/
theorem uploadVertices_fails_witness :
    loadedData.posBuf = some 7 ∧ loadedData.colBuf = some 8 ∧ loadedData.vertexCount = 2 ∧
    (loadedData.uploadVertices loadedState.gpu true 2
      { createPos := true, createCol := false }).1 = false ∧
    (loadedData.uploadVertices loadedState.gpu true 2
      { createPos := true, createCol := false }).2.1.posBuf = none ∧
    (loadedData.uploadVertices loadedState.gpu true 2
      { createPos := true, createCol := false }).2.1.colBuf = none ∧
    (loadedData.uploadVertices loadedState.gpu true 2
      { createPos := true, createCol := false }).2.1.vertexCount = 0 :=
  ⟨by decide!, by decide!, by decide!,
    uploadVertices_fails loadedData loadedState.gpu true 2
      { createPos := true, createCol := false } (Or.inr (Or.inr (Or.inr rfl)))⟩

/-- Witness of C15: a first prepare of the scenario file in which the position
buffer cannot be created, then a prepare with the same path. -/
theorem uploadVertices_dirty_retry_witness :
    (prepareCalls ratLib (oneFile "scene.ply" scenarioFile) freshOverride
      (failPosFrame "scene.ply") none Gpu.init).uploadVertices = some (2, false) ∧
    failedUpload.2.1.vertexDirty = true ∧
    ∃ b, (prepareCalls ratLib (oneFile "scene.ply" scenarioFile) failedUpload.1
      (goodFrame "scene.ply") (some failedUpload.2.1) failedUpload.2.2).uploadVertices
        = some (2, b) := by
  have h := (uploadVertices_dirty_retry ratLib loadedData loadedState.gpu true 2
    { createPos := true, createCol := true } (oneFile "scene.ply" scenarioFile)
    (oneFile "scene.ply" scenarioFile) freshOverride (failPosFrame "scene.ply")
    (goodFrame "scene.ply") none Gpu.init).2.2 2 (by decide!)
  have hs : ((prepareForDraw ratLib (oneFile "scene.ply" scenarioFile) failedUpload.1
      (goodFrame "scene.ply") (some failedUpload.2.1) failedUpload.2.2).1.m_node).isSome
        = true := by decide!
  have hc : (((prepareForDraw ratLib (oneFile "scene.ply" scenarioFile) failedUpload.1
      (goodFrame "scene.ply") (some failedUpload.2.1) failedUpload.2.2).1.m_node).getD
        GaussianData.init).count % 2 ^ 32 = 2 := by decide!
  have he : (((prepareForDraw ratLib (oneFile "scene.ply" scenarioFile) failedUpload.1
      (goodFrame "scene.ply") (some failedUpload.2.1) failedUpload.2.2).1.m_node).getD
        GaussianData.init).empty = false := by decide!
  unfold failedUpload at hs hc he ⊢
  refine ⟨by decide!, h.1, ?_⟩
  obtain ⟨b, hb⟩ := h.2 rfl _ (some_getD_of_isSome _ GaussianData.init hs) he
  rw [hc] at hb
  exact ⟨b, hb⟩

/-- Witness of C17: a prepare on the loaded state with a new path. -/
theorem ensureShaders_ready_witness :
    loadedData.shadersReady = true ∧
    ensureShaders loadedData loadedState.gpu true (goodFrame "three.ply").initOutcomes
      = (loadedData, loadedState.gpu) ∧
    (prepareCalls ratLib (oneFile "three.ply" threeFile) loadedState.ov (goodFrame "three.ply")
      (some loadedData) loadedState.gpu).initShaders = none ∧
    (prepareCalls ratLib (oneFile "three.ply" threeFile) loadedState.ov (goodFrame "three.ply")
      (some loadedData) loadedState.gpu).uploadVertices = some (3, true) ∧
    (prepareForDraw ratLib (oneFile "three.ply" threeFile) loadedState.ov (goodFrame "three.ply")
      (some loadedData) loadedState.gpu).2.1.vs = loadedData.vs :=
  have h := ensureShaders_ready ratLib (oneFile "three.ply" threeFile) loadedState.ov
    (goodFrame "three.ply") loadedData loadedState.gpu true (goodFrame "three.ply").initOutcomes
    (by decide!)
  ⟨by decide!, h.1, h.2.1, by decide!, h.2.2.2.1⟩

/-- Witness of C19: point size 4 on a 1280 by 720 viewport, at the clip
position (2, 4, 1, 2). -/
theorem GS_quad_witness :
    samplePoint.clip 3 ≠ 0 ∧ sampleCB.vpWidth ≠ 0 ∧ sampleCB.vpHeight ≠ 0 ∧
    (GS sampleCB samplePoint).length = 4 ∧
    (GS sampleCB samplePoint).map (fun v => (v.clip 0, v.clip 1, v.clip 2, v.clip 3))
      = [(2 - 1 / 160, 4 + 1 / 90, 1, 2), (2 + 1 / 160, 4 + 1 / 90, 1, 2),
         (2 - 1 / 160, 4 - 1 / 90, 1, 2), (2 + 1 / 160, 4 - 1 / 90, 1, 2)] ∧
    (∀ k : Fin 4, ∃ v, (GS sampleCB samplePoint)[k.val]? = some v ∧
      v.clip 0 = samplePoint.clip 0 + corners k 0
        * (sampleCB.pointSize / sampleCB.vpWidth * samplePoint.clip 3) ∧
      v.clip 1 = samplePoint.clip 1 + corners k 1
        * (sampleCB.pointSize / sampleCB.vpHeight * samplePoint.clip 3) ∧
      v.clip 2 = samplePoint.clip 2 ∧ v.clip 3 = samplePoint.clip 3 ∧
      v.uv = corners k ∧ v.col = samplePoint.col ∧
      ndcXY v.clip 0 - ndcXY samplePoint.clip 0
        = corners k 0 * sampleCB.pointSize / sampleCB.vpWidth ∧
      ndcXY v.clip 1 - ndcXY samplePoint.clip 1
        = corners k 1 * sampleCB.pointSize / sampleCB.vpHeight) :=
  have h := GS_quad sampleCB samplePoint (by decide!) (by decide!) (by decide!)
  ⟨by decide!, by decide!, by decide!, h.1, by decide!, h.2.1⟩

/-- Counterexample to C20 as stated: on the loaded state `draw` reaches its
`Draw` call, and when it returns the topology is point list where the host had
triangle list, vertex-buffer slots 0 and 1 hold the splat buffers, and
constant-buffer slot 0 of the vertex and geometry stages holds the splat
constant buffer. -/
theorem draw_context_after_counterexample :
    loadedData.shadersReady = true ∧ loadedData.vertexCount = 2 ∧
    (draw hostContext (some loadedData) true true true).draws = [(2, 0)] ∧
    hostContext.topology = 4 ∧
    (draw hostContext (some loadedData) true true true).topology = 1 ∧
    hostContext.vertexBuffers 0 = { buffer := some 103, stride := 32, offset := 0 } ∧
    (draw hostContext (some loadedData) true true true).vertexBuffers 0
      = { buffer := some 7, stride := 12, offset := 0 } ∧
    hostContext.vertexBuffers 1 = { buffer := none, stride := 0, offset := 0 } ∧
    (draw hostContext (some loadedData) true true true).vertexBuffers 1
      = { buffer := some 8, stride := 16, offset := 0 } ∧
    hostContext.vsConstantBuffers 0 = some 105 ∧
    (draw hostContext (some loadedData) true true true).vsConstantBuffers 0 = some 4 ∧
    hostContext.gsConstantBuffers 0 = none ∧
    (draw hostContext (some loadedData) true true true).gsConstantBuffers 0 = some 4 := by
  refine ⟨by decide!, by decide!, by decide!, by decide!, by decide!, by decide!, by decide!,
    by decide!, by decide!, by decide!, by decide!, by decide!, by decide!⟩

/-- Witness of C20, amended: `draw` on the loaded state and the host context. -/
theorem draw_context_after_witness :
    loadedData.shadersReady = true ∧ loadedData.vertexCount ≠ 0 ∧
    (draw hostContext (some loadedData) true true true).inputLayout = hostContext.inputLayout ∧
    (draw hostContext (some loadedData) true true true).draws
      = hostContext.draws ++ [(loadedData.vertexCount, 0)] ∧
    (draw hostContext (some loadedData) true true true).topology
      = D3D11_PRIMITIVE_TOPOLOGY_POINTLIST ∧
    draw hostContext (some loadedData) false true true = hostContext :=
  have h := draw_context_after hostContext (some loadedData) true true true
  have h2 := h.2.2 loadedData rfl (by decide!) (by decide!) rfl rfl
  ⟨by decide!, by decide!, h.2.1.1, h2.1, h2.2.1,
    (draw_context_after hostContext (some loadedData) false true true).1 (Or.inr (Or.inl rfl))⟩

/-- Claim C13, the code at a failing input.  The scenario file is loaded and
uploaded, two vertices.  A prepare in which the path changed to the empty path,
or to a file that fails to parse, then leaves the node's dataset empty and
`vertexCount` at 2: `uploadVertices`, which would reset the count, is not called;
and the `draw` that follows issues `Draw(2, 0)` on the buffers of the file no
longer loaded. -/
theorem prepareForDraw_path_cleared_keeps_count :
    loadedState.ov.m_loadedPath = "scene.ply" ∧
    loadedState.data.map (fun d => (d.vertexCount, d.shadersReady)) = some (2, true) ∧
    (stepPrepare ratLib loadedState
      { fs := oneFile "scene.ply" scenarioFile, frame := goodFrame "" }).ov.m_node.map
        (fun m => m.count) = some 0 ∧
    (prepareCalls ratLib (oneFile "scene.ply" scenarioFile) loadedState.ov (goodFrame "")
      loadedState.data loadedState.gpu).uploadVertices = none ∧
    (stepPrepare ratLib loadedState
      { fs := oneFile "scene.ply" scenarioFile, frame := goodFrame "" }).data.map
        (fun d => (d.vertexCount, d.posBuf, d.colBuf)) = some (2, some 7, some 8) ∧
    (draw hostContext (stepPrepare ratLib loadedState
      { fs := oneFile "scene.ply" scenarioFile, frame := goodFrame "" }).data
        true true true).draws = [(2, 0)] ∧
    (prepareCalls ratLib (oneFile "bad.ply" bigEndianFile) loadedState.ov (goodFrame "bad.ply")
      loadedState.data loadedState.gpu).read = some ("bad.ply", false) ∧
    (stepPrepare ratLib loadedState
      { fs := oneFile "bad.ply" bigEndianFile, frame := goodFrame "bad.ply" }).ov.m_node.map
        (fun m => m.count) = some 0 ∧
    (stepPrepare ratLib loadedState
      { fs := oneFile "bad.ply" bigEndianFile, frame := goodFrame "bad.ply" }).data.map
        (fun d => d.vertexCount) = some 2 ∧
    (draw hostContext (stepPrepare ratLib loadedState
      { fs := oneFile "bad.ply" bigEndianFile, frame := goodFrame "bad.ply" }).data
        true true true).draws = [(2, 0)] := by
  refine ⟨by decide!, by decide!, by decide!, by decide!, by decide!, by decide!, by decide!,
    by decide!, by decide!, by decide!⟩

/-- Counterexample to C18 as stated: two successive successful parses with two
and three vertices, a device at both prepares; in the second the creation of
the position buffer fails.  The old buffers 7 and 8 are released, no new buffer
is held, and `vertexCount` is 0, not 3. -/
theorem runPrepares_buffers_counterexample :
    ((runPrepares ratLib PluginState.init scenePrepares).data.map
      (fun d => (d.vertexCount, d.posBuf, d.colBuf))) = some (2, some 7, some 8) ∧
    threePrepareFailing.frame.device = true ∧
    (prepareCalls ratLib threePrepareFailing.fs
      (runPrepares ratLib PluginState.init scenePrepares).ov threePrepareFailing.frame
      (runPrepares ratLib PluginState.init scenePrepares).data
      (runPrepares ratLib PluginState.init scenePrepares).gpu).read = some ("three.ply", true) ∧
    (stepPrepare ratLib (runPrepares ratLib PluginState.init scenePrepares)
      threePrepareFailing).ov.m_node.map (fun m => m.count) = some 3 ∧
    (stepPrepare ratLib (runPrepares ratLib PluginState.init scenePrepares)
      threePrepareFailing).data.map (fun d => (d.vertexCount, d.posBuf, d.colBuf))
        = some (0, none, none) ∧
    (stepPrepare ratLib (runPrepares ratLib PluginState.init scenePrepares)
      threePrepareFailing).gpu.released = [7, 8] ∧
    (stepPrepare ratLib (runPrepares ratLib PluginState.init scenePrepares)
      threePrepareFailing).gpu.created.length = 9 := by
  refine ⟨by decide!, by decide!, by decide!, by decide!, by decide!, by decide!, by decide!⟩

/-- Witness of C18, amended: the scenario file is loaded, then the path changes
to the three-vertex file; in one continuation both buffers are created, in the
other the creation of the position buffer fails. -/
theorem runPrepares_buffers_witness :
    threePrepare.frame.device = true ∧
    threePrepare.frame.uploadOutcomes.createPos = true ∧
    threePrepare.frame.uploadOutcomes.createCol = true ∧
    (prepareCalls ratLib threePrepare.fs
      (runPrepares ratLib PluginState.init scenePrepares).ov threePrepare.frame
      (runPrepares ratLib PluginState.init scenePrepares).data
      (runPrepares ratLib PluginState.init scenePrepares).gpu).read = some ("three.ply", true) ∧
    (stepPrepare ratLib (runPrepares ratLib PluginState.init scenePrepares)
      threePrepare).data.map (fun d => (d.vertexCount, d.posBuf, d.colBuf))
        = some (3, some 9, some 10) ∧
    (stepPrepare ratLib (runPrepares ratLib PluginState.init scenePrepares)
      threePrepare).gpu.created = [0, 0, 0, 0, 80, 0, 0, 24, 32, 36, 48] ∧
    (stepPrepare ratLib (runPrepares ratLib PluginState.init scenePrepares)
      threePrepare).gpu.released = [7, 8] ∧
    (∀ h : Handle, (runPrepares ratLib PluginState.init scenePrepares).teardown.releaseCount h
      = if h < (runPrepares ratLib PluginState.init scenePrepares).gpu.created.length
        then 1 else 0) ∧
    (∃ m a, (stepPrepare ratLib (runPrepares ratLib PluginState.init scenePrepares)
        threePrepare).ov.m_node = some m ∧
      ((stepPrepare ratLib (runPrepares ratLib PluginState.init scenePrepares)
        threePrepare).data.getD GaussianDrawData.init).vertexCount = m.count ∧
      ((stepPrepare ratLib (runPrepares ratLib PluginState.init scenePrepares)
        threePrepare).data.getD GaussianDrawData.init).posBuf = some a ∧
      ((stepPrepare ratLib (runPrepares ratLib PluginState.init scenePrepares)
        threePrepare).data.getD GaussianDrawData.init).colBuf = some (a + 1) ∧
      (runPrepares ratLib PluginState.init scenePrepares).gpu.created.length ≤ a ∧
      (stepPrepare ratLib (runPrepares ratLib PluginState.init scenePrepares)
        threePrepare).gpu.created[a]? = some (m.count * 3 * 4 % 2 ^ 32) ∧
      (stepPrepare ratLib (runPrepares ratLib PluginState.init scenePrepares)
        threePrepare).gpu.created[a + 1]? = some (m.count * 4 * 4 % 2 ^ 32) ∧
      ∀ h, ((runPrepares ratLib PluginState.init scenePrepares).data.getD
            GaussianDrawData.init).posBuf = some h ∨
          ((runPrepares ratLib PluginState.init scenePrepares).data.getD
            GaussianDrawData.init).colBuf = some h →
        (stepPrepare ratLib (runPrepares ratLib PluginState.init scenePrepares)
          threePrepare).gpu.releaseCount h = 1) ∧
    threePrepareFailing.frame.device = true ∧
    threePrepareFailing.frame.uploadOutcomes.createPos = false ∧
    (prepareCalls ratLib threePrepareFailing.fs
      (runPrepares ratLib PluginState.init scenePrepares).ov threePrepareFailing.frame
      (runPrepares ratLib PluginState.init scenePrepares).data
      (runPrepares ratLib PluginState.init scenePrepares).gpu).read = some ("three.ply", true) ∧
    ((∃ m, (stepPrepare ratLib (runPrepares ratLib PluginState.init scenePrepares)
        threePrepareFailing).ov.m_node = some m ∧ m.empty = false) ∧
      ((stepPrepare ratLib (runPrepares ratLib PluginState.init scenePrepares)
        threePrepareFailing).data.getD GaussianDrawData.init).posBuf = none ∧
      ((stepPrepare ratLib (runPrepares ratLib PluginState.init scenePrepares)
        threePrepareFailing).data.getD GaussianDrawData.init).colBuf = none ∧
      ((stepPrepare ratLib (runPrepares ratLib PluginState.init scenePrepares)
        threePrepareFailing).data.getD GaussianDrawData.init).vertexCount = 0 ∧
      ∀ h, ((runPrepares ratLib PluginState.init scenePrepares).data.getD
            GaussianDrawData.init).posBuf = some h ∨
          ((runPrepares ratLib PluginState.init scenePrepares).data.getD
            GaussianDrawData.init).colBuf = some h →
        (stepPrepare ratLib (runPrepares ratLib PluginState.init scenePrepares)
          threePrepareFailing).gpu.releaseCount h = 1) :=
  ⟨by decide!, by decide!, by decide!, by decide!, by decide!, by decide!, by decide!,
    (runPrepares_buffers ratLib scenePrepares threePrepare).2.1,
    (runPrepares_buffers ratLib scenePrepares threePrepare).2.2.2.1 (by decide!) (by decide!)
      (by decide!) "three.ply" (by decide!),
    by decide!, by decide!, by decide!,
    (runPrepares_buffers ratLib scenePrepares threePrepareFailing).2.2.2.2 (by decide!)
      (Or.inl (by decide!)) "three.ply" (by decide!)⟩

/-- Witness of C22: the schema of the scenario file, seven floats in rows of 28
bytes; `opacity` is property 6, at offset 24. -/
theorem getf_in_bounds_witness :
    headerOf scenarioFile = some (headerOfD scenarioFile) ∧
    find (headerOfD scenarioFile).1.props "opacity" = 6 ∧
    ((headerOfD scenarioFile).1.props.getD (6 : Int).toNat default).isFloat = true ∧
    (layout (headerOfD scenarioFile).1.props).2 = 28 ∧
    (layout (headerOfD scenarioFile).1.props).1.getD (6 : Int).toNat 0 = 24 ∧
    (layout (headerOfD scenarioFile).1.props).1.getD (6 : Int).toNat 0 + 4
      ≤ (layout (headerOfD scenarioFile).1.props).2 ∧
    ((scenarioRowA.drop ((layout (headerOfD scenarioFile).1.props).1.getD
      (6 : Int).toNat 0)).take 4).length = 4 :=
  have h := (getf_in_bounds scenarioFile (headerOfD scenarioFile).1 (headerOfD scenarioFile).2
    (by decide!)).2.2.2 6 (by decide) (by decide!) (by decide!)
  ⟨by decide!, by decide!, by decide!, by decide!, by decide!, h.2.1,
    h.2.2 scenarioRowA (by decide!)⟩

/-- Claim C21, the code at a failing input.  A first prepare of the scenario
file in which `CreateVertexShader` fails and both vertex buffers are created
leaves `vertexDirty` false with the buffers 0 and 1 and two vertices.  A second
prepare with the same path, a device and the same failure calls `initShaders`
again, whose failure path runs `releaseAll`: the node's dataset still holds two
records and `vertexDirty` is still false, but `posBuf` and `colBuf` are null and
`vertexCount` is 0, and neither `read` nor `uploadVertices` is called.  A third
prepare in which every call succeeds sets `shadersReady` and still uploads
nothing, so `draw` returns without a `Draw` call. -/
theorem runPrepares_initShaders_drops_buffers :
    sceneFailVS.frame.device = true ∧ sceneGood.frame.device = true ∧
    (runPrepares ratLib PluginState.init [sceneFailVS]).data.map
      (fun d => (d.shadersReady, d.vertexDirty, d.vertexCount, d.posBuf, d.colBuf))
        = some (false, false, 2, some 0, some 1) ∧
    prepareCalls ratLib sceneFailVS.fs
      (runPrepares ratLib PluginState.init [sceneFailVS]).ov sceneFailVS.frame
      (runPrepares ratLib PluginState.init [sceneFailVS]).data
      (runPrepares ratLib PluginState.init [sceneFailVS]).gpu
        = { initShaders := some false, read := none, uploadVertices := none } ∧
    (runPrepares ratLib PluginState.init [sceneFailVS, sceneFailVS]).ov.m_node.map
      (fun m => (m.empty, m.count)) = some (false, 2) ∧
    (runPrepares ratLib PluginState.init [sceneFailVS, sceneFailVS]).data.map
      (fun d => (d.shadersReady, d.vertexDirty, d.vertexCount, d.posBuf, d.colBuf))
        = some (false, false, 0, none, none) ∧
    (runPrepares ratLib PluginState.init [sceneFailVS, sceneFailVS]).gpu.released = [0, 1] ∧
    prepareCalls ratLib sceneGood.fs
      (runPrepares ratLib PluginState.init [sceneFailVS, sceneFailVS]).ov sceneGood.frame
      (runPrepares ratLib PluginState.init [sceneFailVS, sceneFailVS]).data
      (runPrepares ratLib PluginState.init [sceneFailVS, sceneFailVS]).gpu
        = { initShaders := some true, read := none, uploadVertices := none } ∧
    (runPrepares ratLib PluginState.init [sceneFailVS, sceneFailVS, sceneGood]).ov.m_node.map
      (fun m => (m.empty, m.count)) = some (false, 2) ∧
    (runPrepares ratLib PluginState.init [sceneFailVS, sceneFailVS, sceneGood]).data.map
      (fun d => (d.shadersReady, d.vertexDirty, d.vertexCount, d.posBuf, d.colBuf))
        = some (true, false, 0, none, none) ∧
    (draw hostContext
      (runPrepares ratLib PluginState.init [sceneFailVS, sceneFailVS, sceneGood]).data
      true true true).draws = [] := by
  refine ⟨by decide!, by decide!, by decide!, by decide!, by decide!, by decide!, by decide!,
    by decide!, by decide!, by decide!, by decide!⟩

/-- Claim C4, the code at a failing input.  The file `hugeCountFile` has an
accepted ASCII header declaring 4294967297 vertices, which the extraction
stores as 2147483647, and no data line: fewer lines than declared.  On a heap
that provides at most 16 GiB the 2147483647 records of 56 bytes cannot be
allocated, and `read` does not return false with the unexpected-EOF message:
`std::bad_alloc` leaves it.  On the same heap the file declaring ten vertices
and holding five rows is reported as truncated. -/
theorem readOrThrow_huge_count_throws :
    hugeCountFile.length = 109 ∧
    headerOf hugeCountFile = some (headerOfD hugeCountFile) ∧
    (headerOfD hugeCountFile).1.accepted ∧
    (headerOfD hugeCountFile).1.format = PLYFormat.ASCII ∧
    (headerOfD hugeCountFile).1.vertexCount = 2147483647 ∧
    lineCount (headerOfD hugeCountFile).2 = 0 ∧
    heap16GiB ((headerOfD hugeCountFile).1.vertexCount.toNat * sizeofGaussianSplat) = false ∧
    (readOrThrow heap16GiB ratLib (oneFile "huge.ply" hugeCountFile) "huge.ply"
      GaussianData.init "").isNone = true ∧
    (readOrThrow heap16GiB ratLib (oneFile "ten.ply" tenFiveFile) "ten.ply"
      GaussianData.init "").map (fun r => (r.ok, r.errorMsg))
        = some (false, "Unexpected EOF in binary data") := by
  refine ⟨by decide!, by decide!, by decide!, by decide!, by decide!, by decide!, by decide!,
    by decide!, by decide!⟩

end GaussianSplatting
